import Mathlib

/-!
# Billionaire-in-transit: the financial computation engine

A shallow embedding of `src/utils/calculations.js` (the progressive tax
calculator and the CSV export), of the scope helpers and aggregation of
`src/pages/Dashboard.jsx`, of the plan handlers and totals of
`src/pages/BudgetPlanner.jsx` and `src/App.jsx`, of the custom-category guard of
`src/pages/AddTransaction.jsx`, of the result of `src/pages/TaxCalculator.jsx`
and of the JSON export and import of `src/pages/SettingsPage.jsx`.

Modelling conventions.

* A JavaScript number is an exact rational (`ℚ`): the decimal literals of the
  source (`0.07`, `0.2`, ...) are the fractions they denote, and IEEE rounding,
  `NaN` and the infinities are outside the model.  The only infinity the source
  uses on purpose, the width `Infinity` of the last tax band, is `none` in
  `Band.limit`.
* `Number(x) || d` on a numeric `x` is `numOr x d`.
* A JavaScript string is a `List Char`; `"2024-05".toList` is the string
  `2024-05`.
* `new Date()` is a parameter of the helpers that read it.
* A JavaScript object used as a map is the list of its entries (`JsObject`).
* Where only a fragment of a built-in (`Number` on a string, `Date` on a string)
  is modelled, the embedding returns `none` outside the fragment.
* A value that the source draws from the environment (`crypto.randomUUID()`,
  the text of a number in `String(raw)`) is a parameter, and `JSON.parse` after
  `JSON.stringify` is the identity on the exported records.
-/

namespace BillionaireInTransit

/-! ## `calculations.js`: progressive tax -/

/-- A tax band `{ limit, rate }`; `limit = none` is the source's `Infinity`. -/
structure Band where
  limit : Option ℚ
  rate : ℚ
  deriving DecidableEq

/-- The body of the `for (const band of bands)` loop of `progressiveTax`, with
the loop variables `remaining` and `tax` as arguments; `break` returns `tax`. -/
def progressiveTaxLoop : List Band → ℚ → ℚ → ℚ
  | [], _, tax => tax
  | band :: rest, remaining, tax =>
    if remaining ≤ 0 then tax
    else
      let slice :=
        match band.limit with
        | none => remaining
        | some limit => min remaining limit
      progressiveTaxLoop rest (remaining - slice) (tax + slice * band.rate)

/-- The source's `progressiveTax(amount, bands)`. -/
def progressiveTax (amount : ℚ) (bands : List Band) : ℚ :=
  progressiveTaxLoop bands (max 0 amount) 0

/-- The band table passed to `progressiveTax` by `calculateOldNigeriaPIT`. -/
def legacyBands : List Band :=
  [ ⟨some 300000, 7 / 100⟩,
    ⟨some 300000, 11 / 100⟩,
    ⟨some 500000, 15 / 100⟩,
    ⟨some 500000, 19 / 100⟩,
    ⟨some 1600000, 21 / 100⟩,
    ⟨none, 24 / 100⟩ ]

/-- The band table passed to `progressiveTax` by `calculateNewNigeriaTaxActPIT`. -/
def currentBands : List Band :=
  [ ⟨some 800000, 0⟩,
    ⟨some 2200000, 15 / 100⟩,
    ⟨some 9000000, 18 / 100⟩,
    ⟨some 13000000, 21 / 100⟩,
    ⟨some 25000000, 23 / 100⟩,
    ⟨none, 25 / 100⟩ ]

/-- The source's `Number(x) || d` for a numeric `x`: `d` when `x` is `0`. -/
def numOr (x d : ℚ) : ℚ := if x = 0 then d else x

/-- The argument record of the two PIT calculators (the legacy one does not
read `annualRentPaid`). -/
structure TaxInput where
  annualGross : ℚ
  includeNHF : Bool
  nhfRate : ℚ
  nhfBasisAmount : ℚ
  pensionRate : ℚ
  annualRentPaid : ℚ
  deriving DecidableEq

/-- The record returned by `calculateOldNigeriaPIT`. -/
structure OldTaxResult where
  gross : ℚ
  pension : ℚ
  nhf : ℚ
  cra : ℚ
  taxableIncome : ℚ
  tax : ℚ
  effectiveRate : ℚ
  netAnnual : ℚ
  netMonthly : ℚ
  monthlyTax : ℚ
  deriving DecidableEq

/-- The record returned by `calculateNewNigeriaTaxActPIT`. -/
structure NewTaxResult where
  gross : ℚ
  pension : ℚ
  nhf : ℚ
  rentPaid : ℚ
  rentRelief : ℚ
  taxableIncome : ℚ
  tax : ℚ
  effectiveRate : ℚ
  netAnnual : ℚ
  netMonthly : ℚ
  monthlyTax : ℚ
  deriving DecidableEq

/-- The source's `calculateOldNigeriaPIT`. -/
def calculateOldNigeriaPIT (i : TaxInput) : OldTaxResult :=
  let gross := max 0 (numOr i.annualGross 0)
  let pension := gross * (numOr i.pensionRate 0 / 100)
  let nhfBase := max 0 (numOr i.nhfBasisAmount 0)
  let nhf := if i.includeNHF then nhfBase * (numOr i.nhfRate 0 / 100) else 0
  let adjustedGrossForCRA := max 0 (gross - pension - nhf)
  let cra := max 200000 (1 / 100 * adjustedGrossForCRA) + 2 / 10 * adjustedGrossForCRA
  let taxableIncome := max 0 (gross - pension - nhf - cra)
  let tax := progressiveTax taxableIncome legacyBands
  { gross := gross
    pension := pension
    nhf := nhf
    cra := cra
    taxableIncome := taxableIncome
    tax := tax
    effectiveRate := if gross > 0 then tax / gross else 0
    netAnnual := gross - tax
    netMonthly := (gross - tax) / 12
    monthlyTax := tax / 12 }

/-- The source's `calculateNewNigeriaTaxActPIT`. -/
def calculateNewNigeriaTaxActPIT (i : TaxInput) : NewTaxResult :=
  let gross := max 0 (numOr i.annualGross 0)
  let pension := gross * (numOr i.pensionRate 0 / 100)
  let nhfBase := max 0 (numOr i.nhfBasisAmount 0)
  let nhf := if i.includeNHF then nhfBase * (numOr i.nhfRate 0 / 100) else 0
  let rentPaid := max 0 (numOr i.annualRentPaid 0)
  let rentRelief := min (rentPaid * (2 / 10)) 500000
  let taxableIncome := max 0 (gross - pension - nhf - rentRelief)
  let tax := progressiveTax taxableIncome currentBands
  { gross := gross
    pension := pension
    nhf := nhf
    rentPaid := rentPaid
    rentRelief := rentRelief
    taxableIncome := taxableIncome
    tax := tax
    effectiveRate := if gross > 0 then tax / gross else 0
    netAnnual := gross - tax
    netMonthly := (gross - tax) / 12
    monthlyTax := tax / 12 }

/-! ## The band formula of the specification -/

/-- The total width of a list of bands; `none` when one of them is infinite. -/
def widthSum : List Band → Option ℚ
  | [] => some 0
  | b :: bs =>
    match b.limit, widthSum bs with
    | some w, some s => some (w + s)
    | _, _ => none

/-- The income left for a band that comes after the bands `before`:
`max(0, max(0, amount) - (sum of the widths of the bands before))`. -/
def incomeLeft (amount : ℚ) (before : List Band) : ℚ :=
  match widthSum before with
  | some s => max 0 (max 0 amount - s)
  | none => 0

/-- The part of `x` a band takes: `min(width, x)`, all of `x` for an infinite band. -/
def capAt (limit : Option ℚ) (x : ℚ) : ℚ :=
  match limit with
  | some w => min w x
  | none => x

/-- The specification's closed form of the progressive tax: the sum over the
bands `i` of `rate_i * min(width_i, income left after the bands before i)`. -/
def bandFormula (amount : ℚ) (bands : List Band) : ℚ :=
  ∑ i : Fin bands.length,
    (bands.get i).rate * capAt (bands.get i).limit (incomeLeft amount (bands.take i))

/-- Every finite width of the table is non-negative. -/
def WidthsNonneg (bands : List Band) : Prop :=
  ∀ b ∈ bands, ∀ w, b.limit = some w → 0 ≤ w

/-- Every rate of the table is non-negative. -/
def RatesNonneg (bands : List Band) : Prop :=
  ∀ b ∈ bands, 0 ≤ b.rate

/-- The income left after the bands `before` when `r` was left before them. -/
def leftOf (r : ℚ) (before : List Band) : ℚ :=
  match widthSum before with
  | some s => max 0 (r - s)
  | none => 0

/-- The sum of the widths of a list of finite bands. -/
def fullWidth (bands : List Band) : ℚ := (bands.map fun b => b.limit.getD 0).sum

/-- The sum of `width * rate` over a list of finite bands. -/
def fullTax (bands : List Band) : ℚ := (bands.map fun b => b.limit.getD 0 * b.rate).sum

/-- The input with its three amount fields clamped at zero. -/
def clampAmounts (i : TaxInput) : TaxInput :=
  { i with
    annualGross := max 0 i.annualGross
    nhfBasisAmount := max 0 i.nhfBasisAmount
    annualRentPaid := max 0 i.annualRentPaid }

/-- The input with each of its five numeric fields, when negative, replaced by zero. -/
def clampAll (i : TaxInput) : TaxInput :=
  { i with
    annualGross := max 0 i.annualGross
    pensionRate := max 0 i.pensionRate
    nhfRate := max 0 i.nhfRate
    nhfBasisAmount := max 0 i.nhfBasisAmount
    annualRentPaid := max 0 i.annualRentPaid }

/-! ## `Dashboard.jsx`: the scope helpers -/

/-- The source's `s.split(sep)` for a one-character separator. -/
def jsSplit (sep : Char) : List Char → List (List Char)
  | [] => [[]]
  | c :: cs =>
    if c = sep then [] :: jsSplit sep cs
    else
      match jsSplit sep cs with
      | [] => [[c]]
      | part :: parts => (c :: part) :: parts

/-- The source's `Number(s)` on a non-empty string of decimal digits (leading
zeros allowed); every other string is outside the modelled fragment (`none`). -/
def jsNumber (s : List Char) : Option ℕ :=
  if s ≠ [] ∧ s.all Char.isDigit = true then
    some (s.foldl (fun acc c => 10 * acc + (c.toNat - 48)) 0)
  else none

/-- The source's `String(n)` for an integer `n`. -/
def jsString : ℤ → List Char
  | Int.ofNat n => Nat.toDigits 10 n
  | Int.negSucc n => '-' :: Nat.toDigits 10 (n + 1)

/-- The source's `s.padStart(len, fill)` for a one-character `fill`. -/
def padStart (len : ℕ) (fill : Char) (s : List Char) : List Char :=
  List.replicate (len - s.length) fill ++ s

/-- The template literal of the three scope helpers, with `y` and `mm` numbers. -/
def monthKey (y : ℕ) (mm : ℤ) : List Char :=
  jsString y ++ '-' :: padStart 2 '0' (jsString mm)

/-- The source's `quarterMonths(month)`; `none` only for a key whose first two
parts are outside the modelled fragment of `Number`. -/
def quarterMonths (month : List Char) : Option (List (List Char)) :=
  match (jsSplit '-' month).map jsNumber with
  | some y :: some m :: _ =>
    let q : ℤ := ((m : ℤ) - 1) / 3
    some ([0, 1, 2].map fun i : ℤ => monthKey y (q * 3 + 1 + i))
  | _ => none

/-- The `for (let m = 1; m <= maxMonth; m++)` loop shared by `ytdMonths` and
`yearlyMonths`, with the loop variables `m` and `months` as arguments. -/
def monthLoop (y maxMonth : ℕ) : ℕ → ℕ → List (List Char) → List (List Char)
  | 0, _, months => months
  | fuel + 1, m, months =>
    if m ≤ maxMonth then monthLoop y maxMonth fuel (m + 1) (months ++ [monthKey y m])
    else months

/-- What the scope helpers read of `new Date()`: `getFullYear()` and the
zero-based `getMonth()`. -/
structure JsDate where
  fullYear : ℕ
  month : Fin 12

/-- The source's `ytdMonths(month)`, with `new Date()` as the argument `now`;
`none` only for a key whose first part is outside the modelled fragment of
`Number`. -/
def ytdMonths (month : List Char) (now : JsDate) : Option (List (List Char)) :=
  match (jsSplit '-' month).map jsNumber with
  | some y :: _ =>
    let maxMonth : ℕ := if y = now.fullYear then now.month.val + 1 else 12
    some (monthLoop y maxMonth maxMonth 1 [])
  | _ => none

/-- The source's `yearlyMonths(month)`; `none` as for `ytdMonths`. -/
def yearlyMonths (month : List Char) : Option (List (List Char)) :=
  match (jsSplit '-' month).map jsNumber with
  | some y :: _ => some (monthLoop y 12 12 1 [])
  | _ => none

/-- The specification's month key `YYYY-MM`: the decimal year, a dash and the
two decimal digits of the month. -/
def isoMonthKey (y m : ℕ) : List Char :=
  Nat.toDigits 10 y ++ ['-', Nat.digitChar (m / 10), Nat.digitChar (m % 10)]

/-! ## JavaScript objects used as maps -/

/-- A JavaScript object used as a map: its own properties, in insertion order.
Keys that look like array indices (which JavaScript enumerates first) and
properties inherited from `Object.prototype` are outside the model. -/
abbrev JsObject (α : Type) := List (List Char × α)

/-- The property read `o[k]`; `none` is `undefined`. -/
def objGet {α : Type} : JsObject α → List Char → Option α
  | [], _ => none
  | (k', v) :: rest, k => if k' = k then some v else objGet rest k

/-- The property write `o[k] = v` (also `{ ...o, [k]: v }`): an existing key keeps
its place, a new key goes last. -/
def objSet {α : Type} : JsObject α → List Char → α → JsObject α
  | [], k, v => [(k, v)]
  | (k', v') :: rest, k, v =>
    if k' = k then (k', v) :: rest else (k', v') :: objSet rest k v

/-- The source's `Object.values(o).reduce((s, v) => s + v, 0)`. -/
def objTotal (o : JsObject ℚ) : ℚ := (o.map Prod.snd).foldl (fun s v => s + v) 0

/-- The source's `(o[k] || 0)` on an object of numbers. -/
def objGetOrZero (o : JsObject ℚ) (k : List Char) : ℚ :=
  match objGet o k with
  | none => 0
  | some v => numOr v 0

/-- The source's `INCOME_CATEGORIES`. -/
def INCOME_CATEGORIES : List (List Char) :=
  ["Salary".toList, "Freelance".toList, "Business".toList, "Bonus".toList,
    "Interest".toList, "Gift".toList, "Other".toList]

/-- The source's `EXPENSE_CATEGORIES`. -/
def EXPENSE_CATEGORIES : List (List Char) :=
  ["Housing".toList, "Food".toList, "Transport".toList, "Utilities".toList,
    "Health".toList, "Education".toList, "Entertainment".toList, "Family".toList,
    "Savings/Investment".toList, "Debt Repayment".toList, "Subscriptions".toList,
    "Misc".toList]

/-- The source's `const map = {}; cats.forEach((c) => (map[c] = 0))`. -/
def zeroMap (cats : List (List Char)) : JsObject ℚ :=
  cats.foldl (fun map c => objSet map c 0) []

/-! ## `Dashboard.jsx`: transactions in scope -/

/-- A transaction record; `amount` is stored as a number. -/
structure Transaction where
  id : List Char
  date : List Char
  type : List Char
  amount : ℚ
  category : List Char
  description : List Char
  recurring : Bool
  notes : List Char
  deriving DecidableEq

/-- The number of days of month `m` of year `y`. -/
def daysInMonth (y m : ℕ) : ℕ :=
  if m = 2 then (if (y % 4 = 0 ∧ y % 100 ≠ 0) ∨ y % 400 = 0 then 29 else 28)
  else if m = 4 ∨ m = 6 ∨ m = 9 ∨ m = 11 then 30
  else 31

/-- A date-only ISO string `YYYY-MM-DD` of a calendar day, read as
(year, month, day); `none` for any other string. -/
def parseIsoDate (s : List Char) : Option (ℕ × ℕ × ℕ) :=
  match s with
  | [y1, y2, y3, y4, '-', m1, m2, '-', d1, d2] =>
    if [y1, y2, y3, y4, m1, m2, d1, d2].all Char.isDigit = true then
      let y := (y1.toNat - 48) * 1000 + (y2.toNat - 48) * 100 + (y3.toNat - 48) * 10
        + (y4.toNat - 48)
      let m := (m1.toNat - 48) * 10 + (m2.toNat - 48)
      let d := (d1.toNat - 48) * 10 + (d2.toNat - 48)
      if 1 ≤ m ∧ m ≤ 12 ∧ 1 ≤ d ∧ d ≤ daysInMonth y m then some (y, m, d) else none
    else none
  | _ => none

/-- The source's `monthKeyFromDate(d)`, `new Date(d).toISOString().slice(0, 7)`,
on a date-only ISO string of a calendar day: `Date` reads it as that day at
midnight UTC and `toISOString` writes the same day back, so the result is the
first seven characters.  Any other argument is outside the modelled fragment
of `Date` (`none`). -/
def monthKeyFromDate (d : List Char) : Option (List Char) :=
  (parseIsoDate d).map fun _ => d.take 7

/-- The source's string comparison `a <= b`: lexicographic on character codes. -/
def jsStrLe : List Char → List Char → Bool
  | [], _ => true
  | _ :: _, [] => false
  | a :: as, b :: bs =>
    if a.toNat < b.toNat then true
    else if b.toNat < a.toNat then false
    else jsStrLe as bs

/-- The values of the `viewMode` state of the dashboard. -/
inductive ViewMode where
  | monthly
  | quarterly
  | ytd
  | yearly
  deriving DecidableEq

/-- The source's `scopeMonths`, with `new Date()` as the argument `now`. -/
def scopeMonths (viewMode : ViewMode) (selectedMonth : List Char) (now : JsDate) :
    Option (List (List Char)) :=
  match viewMode with
  | .quarterly => quarterMonths selectedMonth
  | .ytd => ytdMonths selectedMonth now
  | .yearly => yearlyMonths selectedMonth
  | .monthly => some [selectedMonth]

/-- The source's `transactions.filter((t) => months.includes(monthKeyFromDate(t.date)))`;
`none` when a date is outside the modelled fragment of `Date`. -/
def filterByMonths (months : List (List Char)) : List Transaction → Option (List Transaction)
  | [] => some []
  | t :: ts =>
    match monthKeyFromDate t.date, filterByMonths months ts with
    | some key, some rest => some (if months.contains key then t :: rest else rest)
    | _, _ => none

/-- The source's `scopeTransactions`, for the scope months `months` and with
the string `todayISO` as an argument. -/
def scopeTransactions (transactions : List Transaction) (months : List (List Char))
    (viewMode : ViewMode) (todayISO : List Char) : Option (List Transaction) :=
  (filterByMonths months transactions).map fun filtered =>
    if viewMode = ViewMode.ytd then filtered.filter fun t => jsStrLe t.date todayISO
    else filtered

/-- A day is not after another one, on (year, month, day) triples. -/
def notAfter (a b : ℕ × ℕ × ℕ) : Prop :=
  a.1 < b.1 ∨ (a.1 = b.1 ∧ (a.2.1 < b.2.1 ∨ (a.2.1 = b.2.1 ∧ a.2.2 ≤ b.2.2)))

/-- The source's `actualIncomeByCat` / `actualExpenseByCat`, for the preset
categories `cats` and the transaction type `type`; `txs` is the source's
`scopeTransactions`. -/
def actualByCat (cats : List (List Char)) (type : List Char)
    (txs : List Transaction) : JsObject ℚ :=
  (txs.filter fun t => t.type = type).foldl
    (fun map t => objSet map t.category (objGetOrZero map t.category + t.amount))
    (zeroMap cats)

/-- The source's `actualIncomeByCat`. -/
def actualIncomeByCat (txs : List Transaction) : JsObject ℚ :=
  actualByCat INCOME_CATEGORIES "income".toList txs

/-- The source's `actualExpenseByCat`. -/
def actualExpenseByCat (txs : List Transaction) : JsObject ℚ :=
  actualByCat EXPENSE_CATEGORIES "expense".toList txs

/-- The source's `totalActualIncome`. -/
def totalActualIncome (txs : List Transaction) : ℚ :=
  objTotal (actualIncomeByCat txs)

/-- The source's `totalActualExpense`. -/
def totalActualExpense (txs : List Transaction) : ℚ :=
  objTotal (actualExpenseByCat txs)

/-- The sum of the amounts of the transactions of type `type` (and, with
`category = some c`, of category `c`). -/
def amountSum (type : List Char) (category : Option (List Char))
    (ts : List Transaction) : ℚ :=
  ((ts.filter fun t => t.type = type ∧ (category = none ∨ category = some t.category)).map
    fun t => t.amount).sum

/-! ## `Dashboard.jsx`: planned totals -/

/-- An extra-budgetary entry of a plan. -/
structure ExtraEntry where
  id : List Char
  type : List Char
  category : List Char
  amount : ℚ
  description : List Char
  deriving DecidableEq

/-- A month's budget plan; `locked = none` is a plan without the field
(`undefined`). -/
structure Plan where
  locked : Option Bool
  income : JsObject ℚ
  expense : JsObject ℚ
  extras : List ExtraEntry
  deriving DecidableEq

/-- The four accumulators of the planned-totals computation, which are also
its result. -/
structure PlannedTotals where
  totalPlannedIncome : ℚ
  totalPlannedExpense : ℚ
  plannedIncomeByCat : JsObject ℚ
  plannedExpenseByCat : JsObject ℚ
  deriving DecidableEq

/-- The source's `Object.entries(section).forEach(([c, v]) => ...)` of the
planned totals: `n = Number(v) || 0` is added to the running total and to the
category `c` of the map. -/
def addEntries (acc : ℚ × JsObject ℚ) (entries : JsObject ℚ) : ℚ × JsObject ℚ :=
  entries.foldl
    (fun acc cv =>
      let n := numOr cv.2 0
      (acc.1 + n, objSet acc.2 cv.1 (objGetOrZero acc.2 cv.1 + n)))
    acc

/-- The source's `(p.extras || []).forEach((e) => ...)` of the planned totals,
on the pair `(pInc, pExp)`. -/
def addExtras (acc : ℚ × ℚ) (extras : List ExtraEntry) : ℚ × ℚ :=
  extras.foldl
    (fun acc e =>
      let n := numOr e.amount 0
      if e.type = "income".toList then (acc.1 + n, acc.2) else (acc.1, acc.2 + n))
    acc

/-- The source's planned-totals `useMemo` of the dashboard. -/
def plannedTotals (scopeMonths : List (List Char)) (budgetPlans : JsObject Plan) :
    PlannedTotals :=
  scopeMonths.foldl
    (fun acc mk =>
      match objGet budgetPlans mk with
      | none => acc
      | some p =>
        let inc := addEntries (acc.totalPlannedIncome, acc.plannedIncomeByCat) p.income
        let exp := addEntries (acc.totalPlannedExpense, acc.plannedExpenseByCat) p.expense
        let tot := addExtras (inc.1, exp.1) p.extras
        { totalPlannedIncome := tot.1
          totalPlannedExpense := tot.2
          plannedIncomeByCat := inc.2
          plannedExpenseByCat := exp.2 })
    { totalPlannedIncome := 0
      totalPlannedExpense := 0
      plannedIncomeByCat := zeroMap INCOME_CATEGORIES
      plannedExpenseByCat := zeroMap EXPENSE_CATEGORIES }

/-- The plans of the months in scope that have one. -/
def plansInScope (scopeMonths : List (List Char)) (budgetPlans : JsObject Plan) :
    List Plan :=
  scopeMonths.filterMap fun mk => objGet budgetPlans mk

/-- The sum of the amounts of the extras of a plan that satisfy `keep`. -/
def extrasSum (keep : ExtraEntry → Bool) (p : Plan) : ℚ :=
  ((p.extras.filter keep).map fun e => e.amount).sum

/-- The plans map with every `extras` list emptied. -/
def withoutExtras (budgetPlans : JsObject Plan) : JsObject Plan :=
  budgetPlans.map fun kp => (kp.1, { kp.2 with extras := [] })

/-- The keys of an object are pairwise different. -/
def KeysDistinct {α : Type} (o : JsObject α) : Prop := (o.map Prod.fst).Nodup

/-! ## `Dashboard.jsx`: variance rows and the pie -/

/-- What `ExpenseVarianceRow` computes from `planned` and `actual`. -/
structure ExpenseVariance where
  variance : ℚ
  pct : ℚ
  over : Bool
  deriving DecidableEq

/-- What `IncomeVarianceRow` computes from `planned` and `actual`. -/
structure IncomeVariance where
  variance : ℚ
  pct : ℚ
  under : Bool
  deriving DecidableEq

/-- The computations of the source's `ExpenseVarianceRow`. -/
def expenseVarianceRow (planned actual : ℚ) : ExpenseVariance :=
  { variance := planned - actual
    pct := if planned > 0 then min (actual / planned * 100) 150
      else if actual > 0 then 100 else 0
    over := decide (actual > planned) && decide (planned > 0) }

/-- The computations of the source's `IncomeVarianceRow`. -/
def incomeVarianceRow (planned actual : ℚ) : IncomeVariance :=
  { variance := actual - planned
    pct := if planned > 0 then min (actual / planned * 100) 150
      else if actual > 0 then 100 else 0
    under := decide (actual < planned) && decide (planned > 0) }

/-- The `entries` of `buildTop4Pie`: the entries with a positive value, sorted
by `.sort(([, a], [, b]) => b - a)`, a stable sort by descending value. -/
def pieEntries (actualByCat : JsObject ℚ) : JsObject ℚ :=
  List.insertionSort (fun a b => a.2 ≥ b.2) (actualByCat.filter fun kv => kv.2 > 0)

/-- The source's `buildTop4Pie(actualByCat)`; an entry `{ name, value }` is a pair. -/
def buildTop4Pie (actualByCat : JsObject ℚ) : List (List Char × ℚ) :=
  let entries := pieEntries actualByCat
  if entries.length ≤ 5 then entries
  else
    let top4 := entries.take 4
    let others := (entries.drop 4).foldl (fun s kv => s + kv.2) 0
    top4 ++ [("Others".toList, others)]

/-! ## `Number` on user text -/

/-- The result of `Number(s)` on a string `s`. -/
inductive NumberOfText where
  /-- A finite number. -/
  | value (q : ℚ)
  /-- The result `NaN`. -/
  | nan
  /-- A string outside the modelled fragment: its characters could all occur in a
  numeric literal, but it is not a plain signed decimal. -/
  | other
  deriving DecidableEq

/-- The white space and line terminator characters that `Number` trims. -/
def isJsWhiteSpace (c : Char) : Bool :=
  decide (c.toNat ∈ [9, 10, 11, 12, 13, 32, 160, 5760, 8232, 8233, 8239, 8287, 12288, 65279])
    || (decide (8192 ≤ c.toNat) && decide (c.toNat ≤ 8202))

/-- The characters that occur in some string that `Number` reads as a number:
digits, signs, the dot, the exponent mark, the letters of `Infinity`, the radix
prefixes, the hexadecimal digits and white space. -/
def mayBeInNumeral (c : Char) : Bool :=
  c.isDigit || isJsWhiteSpace c || decide (c ∈ "+-.eEInfityxXoObBaAcCdDfF".toList)

/-- The number written by a string of decimal digits. -/
def digitsValue (ds : List Char) : ℕ :=
  ds.foldl (fun acc c => 10 * acc + (c.toNat - 48)) 0

/-- An unsigned decimal without exponent: `12`, `12.`, `12.5` or `.5`. -/
def parseUnsignedDecimal (s : List Char) : Option ℚ :=
  let intPart := s.takeWhile Char.isDigit
  match s.dropWhile Char.isDigit with
  | [] => if intPart = [] then none else some (digitsValue intPart)
  | '.' :: frac =>
    if frac.all Char.isDigit = true ∧ (intPart ≠ [] ∨ frac ≠ []) then
      some (digitsValue intPart + (digitsValue frac : ℚ) / 10 ^ frac.length)
    else none
  | _ => none

/-- A decimal without exponent with an optional sign. -/
def parseSignedDecimal (s : List Char) : Option ℚ :=
  match s with
  | '+' :: rest => parseUnsignedDecimal rest
  | '-' :: rest => (parseUnsignedDecimal rest).map fun q => -q
  | _ => parseUnsignedDecimal s

/-- The source's `Number(s)` on a string: `0` for the empty string, the value
of a plain signed decimal, `NaN` for a string with a character that no numeric
literal contains; every other string (white space, exponents, radix prefixes,
`Infinity`) is left outside the model. -/
def jsNumberOfText (s : List Char) : NumberOfText :=
  if s = [] then NumberOfText.value 0
  else
    match parseSignedDecimal s with
    | some q => NumberOfText.value q
    | none => if s.all mayBeInNumeral then NumberOfText.other else NumberOfText.nan

/-- The source's `s.replace(/,/g, "")`. -/
def stripCommas (s : List Char) : List Char := s.filter fun c => c ≠ ','

/-- The source's `Number(String(rawVal).replace(/,/g, "")) || 0`; `none` when the
text is outside the modelled fragment of `Number`. -/
def parseBudgetAmount (rawVal : List Char) : Option ℚ :=
  match jsNumberOfText (stripCommas rawVal) with
  | NumberOfText.value q => some (numOr q 0)
  | NumberOfText.nan => some 0
  | NumberOfText.other => none

/-! ## `BudgetPlanner.jsx` and `App.jsx`: plans -/

/-- The source's `createEmptyPlan()`. -/
def createEmptyPlan : Plan :=
  { locked := some false
    income := zeroMap INCOME_CATEGORIES
    expense := zeroMap EXPENSE_CATEGORIES
    extras := [] }

/-- The `empty()` of `createDefaultPlans` in `App.jsx`. -/
def createDefaultPlansEmpty : Plan :=
  { locked := some false
    income := zeroMap INCOME_CATEGORIES
    expense := zeroMap EXPENSE_CATEGORIES
    extras := [] }

/-- The source's `createDefaultPlans()`, with `new Date().getFullYear()` as `y`. -/
def createDefaultPlans (y : ℕ) : JsObject Plan :=
  objSet (objSet (objSet [] (jsString y ++ "-01".toList) createDefaultPlansEmpty)
    (jsString y ++ "-02".toList) createDefaultPlansEmpty)
    (jsString y ++ "-03".toList) createDefaultPlansEmpty

/-- The source's `updatePlan(updater)`, as a function of the previous plans. -/
def updatePlan (activeMonth : List Char) (updater : Plan → Plan) (prev : JsObject Plan) :
    JsObject Plan :=
  objSet prev activeMonth (updater ((objGet prev activeMonth).getD createEmptyPlan))

/-- The updater of `setIncomeCategory`: `{ ...p, income: { ...p.income, [cat]: num } }`. -/
def incomeUpdater (cat : List Char) (num : ℚ) (p : Plan) : Plan :=
  { p with income := objSet p.income cat num }

/-- The updater of `setExpenseCategory`: `{ ...p, expense: { ...p.expense, [cat]: num } }`. -/
def expenseUpdater (cat : List Char) (num : ℚ) (p : Plan) : Plan :=
  { p with expense := objSet p.expense cat num }

/-- The source's `setIncomeCategory(cat, rawVal)`, as a function of the previous
plans; `none` when `rawVal` is outside the modelled fragment of `Number`. -/
def setIncomeCategory (activeMonth cat rawVal : List Char) (prev : JsObject Plan) :
    Option (JsObject Plan) :=
  (parseBudgetAmount rawVal).map fun num => updatePlan activeMonth (incomeUpdater cat num) prev

/-- The source's `setExpenseCategory(cat, rawVal)`, as a function of the previous
plans; `none` when `rawVal` is outside the modelled fragment of `Number`. -/
def setExpenseCategory (activeMonth cat rawVal : List Char) (prev : JsObject Plan) :
    Option (JsObject Plan) :=
  (parseBudgetAmount rawVal).map fun num => updatePlan activeMonth (expenseUpdater cat num) prev

/-- The source's `inputsDisabled`: `!!plan.locked` for
`plan = budgetPlans[activeMonth] || createEmptyPlan()`. -/
def inputsDisabled (activeMonth : List Char) (budgetPlans : JsObject Plan) : Bool :=
  (((objGet budgetPlans activeMonth).getD createEmptyPlan).locked).getD false

/-- The income amount field, `<input disabled={inputsDisabled} onChange={(e) =>
setIncomeCategory(cat, e.target.value)} />`: a disabled field takes no input, so
the handler runs only when the field is enabled. -/
def incomeFieldInput (activeMonth cat text : List Char) (budgetPlans : JsObject Plan) :
    Option (JsObject Plan) :=
  if inputsDisabled activeMonth budgetPlans then some budgetPlans
  else setIncomeCategory activeMonth cat text budgetPlans

/-- The expense amount field, disabled like the income one. -/
def expenseFieldInput (activeMonth cat text : List Char) (budgetPlans : JsObject Plan) :
    Option (JsObject Plan) :=
  if inputsDisabled activeMonth budgetPlans then some budgetPlans
  else setExpenseCategory activeMonth cat text budgetPlans

/-! ## `BudgetPlanner.jsx`: the lock, the extras and the planner totals -/

/-- The updater of `toggleLock`: `{ ...p, locked: !p.locked }`; a missing
`locked` is falsy. -/
def toggleLockUpdater (p : Plan) : Plan :=
  { p with locked := some (!(p.locked.getD false)) }

/-- The source's `toggleLock()`, as a function of the previous plans. -/
def toggleLock (activeMonth : List Char) (prev : JsObject Plan) : JsObject Plan :=
  updatePlan activeMonth toggleLockUpdater prev

/-- The state `extraForm` of the extra-entry form; every field is a text. -/
structure ExtraForm where
  type : List Char
  category : List Char
  amount : List Char
  description : List Char
  deriving DecidableEq

/-- The source's `s.trim()`: white space and line terminators are removed at
both ends. -/
def jsTrim (s : List Char) : List Char :=
  ((s.dropWhile isJsWhiteSpace).reverse.dropWhile isJsWhiteSpace).reverse

/-- The entry built by `addExtra`, with the result of `crypto.randomUUID()` as
`uuid`; the description is `extraForm.description.trim() || "Extra entry"`. -/
def newExtraEntry (extraForm : ExtraForm) (uuid : List Char) (amount : ℚ) : ExtraEntry :=
  { id := uuid
    type := extraForm.type
    category := extraForm.category
    amount := amount
    description :=
      if jsTrim extraForm.description = [] then "Extra entry".toList
      else jsTrim extraForm.description }

/-- The updater of `addExtra`: `{ ...p, extras: [...(p.extras || []), entry] }`. -/
def addExtraUpdater (entry : ExtraEntry) (p : Plan) : Plan :=
  { p with extras := p.extras ++ [entry] }

/-- The source's `addExtra()`, as a function of the previous plans: the amount
text loses its commas and goes through `Number`; `if (!amount || amount <= 0)
return` leaves the plans alone; `none` when the text is outside the modelled
fragment of `Number`. -/
def addExtra (activeMonth : List Char) (extraForm : ExtraForm) (uuid : List Char)
    (prev : JsObject Plan) : Option (JsObject Plan) :=
  match jsNumberOfText (stripCommas extraForm.amount) with
  | NumberOfText.other => none
  | NumberOfText.nan => some prev
  | NumberOfText.value amount =>
    if amount = 0 ∨ amount ≤ 0 then some prev
    else some (updatePlan activeMonth (addExtraUpdater (newExtraEntry extraForm uuid amount)) prev)

/-- The updater of `removeExtra`:
`{ ...p, extras: (p.extras || []).filter((e) => e.id !== id) }`. -/
def removeExtraUpdater (id : List Char) (p : Plan) : Plan :=
  { p with extras := p.extras.filter fun e => e.id ≠ id }

/-- The source's `removeExtra(id)`, as a function of the previous plans. -/
def removeExtra (activeMonth id : List Char) (prev : JsObject Plan) : JsObject Plan :=
  updatePlan activeMonth (removeExtraUpdater id) prev

/-- The planner's `plan`: `budgetPlans[activeMonth] || createEmptyPlan()`. -/
def BudgetPlanner.plan (activeMonth : List Char) (budgetPlans : JsObject Plan) : Plan :=
  (objGet budgetPlans activeMonth).getD createEmptyPlan

/-- The planner's `totalPlannedIncome`:
`Object.values(plan.income || {}).reduce((s, v) => s + (Number(v) || 0), 0)`. -/
def BudgetPlanner.totalPlannedIncome (plan : Plan) : ℚ :=
  (plan.income.map Prod.snd).foldl (fun s v => s + numOr v 0) 0

/-- The planner's `totalPlannedExpense`. -/
def BudgetPlanner.totalPlannedExpense (plan : Plan) : ℚ :=
  (plan.expense.map Prod.snd).foldl (fun s v => s + numOr v 0) 0

/-- The planner's `extrasIncome`: the extras of type `income`, summed. -/
def BudgetPlanner.extrasIncome (plan : Plan) : ℚ :=
  (plan.extras.filter fun e => e.type = "income".toList).foldl
    (fun s e => s + numOr e.amount 0) 0

/-- The planner's `extrasExpense`: the extras of type `expense`, summed. -/
def BudgetPlanner.extrasExpense (plan : Plan) : ℚ :=
  (plan.extras.filter fun e => e.type = "expense".toList).foldl
    (fun s e => s + numOr e.amount 0) 0

/-- The planner's `surplus`. -/
def BudgetPlanner.surplus (plan : Plan) : ℚ :=
  BudgetPlanner.totalPlannedIncome plan + BudgetPlanner.extrasIncome plan
    - BudgetPlanner.totalPlannedExpense plan - BudgetPlanner.extrasExpense plan

/-! ## `AddTransaction.jsx` and `App.jsx`: custom categories -/

/-- A user-defined category. -/
structure CustomCategory where
  name : List Char
  type : List Char
  deriving DecidableEq

/-- The source's `canDeleteCategory(catName)`:
`!(transactions || []).some((t) => t.category === catName)`. -/
def canDeleteCategory (transactions : List Transaction) (catName : List Char) : Bool :=
  !(transactions.any fun t => t.category = catName)

/-- The source's `extraCats`: the names of the custom categories of the type of
the form. -/
def extraCats (customCategories : List CustomCategory) (formType : List Char) :
    List (List Char) :=
  (customCategories.filter fun c => c.type = formType).map fun c => c.name

/-- The source's `deletable`: `extraCats.includes(cat) && canDeleteCategory(cat)`;
the delete button of a category is rendered only when it holds. -/
def deletable (transactions : List Transaction) (customCategories : List CustomCategory)
    (formType cat : List Char) : Bool :=
  (extraCats customCategories formType).contains cat && canDeleteCategory transactions cat

/-- The source's `deleteCustomCategory(catName, catType)` of `App.jsx`, as a
function of the previous list. -/
def deleteCustomCategory (catName catType : List Char) (prev : List CustomCategory) :
    List CustomCategory :=
  prev.filter fun c => !(decide (c.name = catName) && decide (c.type = catType))

/-- The delete button of the category `cat` in a form of type `formType`: it
exists only when `deletable` holds (`none` otherwise) and then calls
`onDeleteCategory(cat, form.type)`. -/
def deleteCategoryButton (transactions : List Transaction)
    (customCategories : List CustomCategory) (formType cat : List Char) :
    Option (List CustomCategory) :=
  if deletable transactions customCategories formType cat then
    some (deleteCustomCategory cat formType customCategories)
  else none

/-- A transaction references the category `(name, type)`: the reading of the
specification, where both the category name and the type agree. -/
def referencesCategory (t : Transaction) (name type : List Char) : Prop :=
  t.category = name ∧ t.type = type

/-! ## `TaxCalculator.jsx`: the stored input and the result -/

/-- The stored `taxInput`, with the fields that the page reads. -/
structure StoredTaxInput where
  monthlyGross : ℚ
  periodMode : List Char
  annualGross : ℚ
  pensionRate : ℚ
  includeNHF : Bool
  nhfRate : ℚ
  annualRentPaid : ℚ
  deriving DecidableEq

/-- The source's `annualGrossForTax`. -/
def annualGrossForTax (taxInput : StoredTaxInput) : ℚ :=
  let m := numOr taxInput.monthlyGross 0
  let a := numOr taxInput.annualGross 0
  if taxInput.periodMode = "monthly".toList then m * 12 else a

/-- The source's `result` of the tax calculator page. -/
def taxCalculatorResult (taxInput : StoredTaxInput) : NewTaxResult :=
  calculateNewNigeriaTaxActPIT
    { annualGross := annualGrossForTax taxInput
      includeNHF := taxInput.includeNHF
      nhfRate := numOr taxInput.nhfRate (5 / 2)
      nhfBasisAmount := annualGrossForTax taxInput
      pensionRate := numOr taxInput.pensionRate 0
      annualRentPaid := numOr taxInput.annualRentPaid 0 }

/-! ## `SettingsPage.jsx`: export and import of the planning data -/

/-- The part of the application state that is exported and imported. -/
structure PlanningState where
  transactions : List Transaction
  budgetPlans : JsObject Plan
  deriving DecidableEq

/-- The `payload` of `handleExportJSON`. -/
structure ExportPayload where
  transactions : List Transaction
  budgetPlans : JsObject Plan
  exportedAt : List Char
  deriving DecidableEq

/-- The source's `handleExportJSON`: the payload that is written, with
`new Date().toISOString()` as `exportedAt`; `JSON.stringify` followed by
`JSON.parse` is the identity on the payload. -/
def handleExportJSON (state : PlanningState) (exportedAt : List Char) : ExportPayload :=
  { transactions := state.transactions
    budgetPlans := state.budgetPlans
    exportedAt := exportedAt }

/-- The source's object spread `{ ...b, ...x }`: the properties of `x` are
assigned, in order, on a copy of `b`. -/
def spreadOver {α : Type} (b x : JsObject α) : JsObject α :=
  x.foldl (fun acc kv => objSet acc kv.1 kv.2) b

/-- The source's `handleImportJSON` on a parsed payload: `parsed.transactions`
is an array and replaces the transactions; `parsed.budgetPlans` is an object and
is spread over the plans of the application. -/
def handleImportJSON (parsed : ExportPayload) (state : PlanningState) : PlanningState :=
  { transactions := parsed.transactions
    budgetPlans := spreadOver state.budgetPlans parsed.budgetPlans }

/-! ## `calculations.js`: the CSV export -/

/-- The values that a field of a transaction object holds. -/
inductive JsValue where
  | undefined
  | null
  | bool (b : Bool)
  | num (q : ℚ)
  | str (s : List Char)
  deriving DecidableEq

/-- The double quote character. -/
def dquote : Char := Char.ofNat 34

/-- The line feed character. -/
def lineFeed : Char := Char.ofNat 10

/-- The source's `t[h] ?? ""`: a missing property, `undefined` and `null` give the
empty string. -/
def orEmptyString : Option JsValue → JsValue
  | none => JsValue.str []
  | some JsValue.undefined => JsValue.str []
  | some JsValue.null => JsValue.str []
  | some v => v

/-- The source's `String(raw)`, with the conversion of a number to its text as
the parameter `numberToString`. -/
def stringOfValue (numberToString : ℚ → List Char) : JsValue → List Char
  | JsValue.undefined => "undefined".toList
  | JsValue.null => "null".toList
  | JsValue.bool true => "true".toList
  | JsValue.bool false => "false".toList
  | JsValue.num q => numberToString q
  | JsValue.str s => s

/-- The source's `val.replace(/"/g, '""')`: every double quote is doubled. -/
def doubleQuotes : List Char → List Char
  | [] => []
  | c :: rest => if c = dquote then dquote :: dquote :: doubleQuotes rest
    else c :: doubleQuotes rest

/-- The source's `array.join(sep)` on an array of strings. -/
def jsJoin (sep : List Char) : List (List Char) → List Char
  | [] => []
  | [x] => x
  | x :: y :: rest => x ++ sep ++ jsJoin sep (y :: rest)

/-- The `headers` of `exportTransactionsCSV`. -/
def csvHeaders : List (List Char) :=
  ["id".toList, "date".toList, "type".toList, "amount".toList, "category".toList,
    "description".toList, "recurring".toList, "notes".toList]

/-- The source's `exportTransactionsCSV(transactions)`, on transaction objects. -/
def exportTransactionsCSV (numberToString : ℚ → List Char)
    (transactions : List (JsObject JsValue)) : List Char :=
  let rows := transactions.map fun t =>
    jsJoin [','] (csvHeaders.map fun h =>
      let raw := orEmptyString (objGet t h)
      let val := doubleQuotes (stringOfValue numberToString raw)
      [dquote] ++ val ++ [dquote])
  jsJoin [lineFeed] (jsJoin [','] csvHeaders :: rows)

/-- The object of a transaction record that has all eight fields. -/
def transactionObject (t : Transaction) : JsObject JsValue :=
  [("id".toList, JsValue.str t.id), ("date".toList, JsValue.str t.date),
    ("type".toList, JsValue.str t.type), ("amount".toList, JsValue.num t.amount),
    ("category".toList, JsValue.str t.category),
    ("description".toList, JsValue.str t.description),
    ("recurring".toList, JsValue.bool t.recurring), ("notes".toList, JsValue.str t.notes)]

/-- The header line of the CSV document of the specification. -/
def specCsvHeaderLine : List Char :=
  "id,date,type,amount,category,description,recurring,notes".toList

/-- The text of a field of the specification: empty for a missing, null or
undefined field, the text of the value otherwise. -/
def specCsvText (numberToString : ℚ → List Char) : Option JsValue → List Char
  | none => []
  | some JsValue.undefined => []
  | some JsValue.null => []
  | some v => stringOfValue numberToString v

/-- A value of the specification between double quotes, every double quote
inside it written twice. -/
def specCsvQuoted (s : List Char) : List Char :=
  dquote :: (s.map fun c => if c = dquote then [dquote, dquote] else [c]).flatten ++ [dquote]

/-- A row of the specification: the eight quoted values in column order, with a
comma between two of them. -/
def specCsvRow (numberToString : ℚ → List Char) (t : JsObject JsValue) : List Char :=
  let q := fun (h : String) => specCsvQuoted (specCsvText numberToString (objGet t h.toList))
  q "id" ++ ',' :: q "date" ++ ',' :: q "type" ++ ',' :: q "amount" ++ ',' :: q "category"
    ++ ',' :: q "description" ++ ',' :: q "recurring" ++ ',' :: q "notes"

/-- The CSV document of the specification: the header line, then for every
transaction in order a line feed and its row. -/
def specCsvDocument (numberToString : ℚ → List Char) (transactions : List (JsObject JsValue)) :
    List Char :=
  specCsvHeaderLine ++ (transactions.map fun t => lineFeed :: specCsvRow numberToString t).flatten

/-! ## Progressive tax: the loop and the band formula -/

theorem progressiveTaxLoop_cons (b : Band) (bs : List Band) (r t : ℚ) :
    progressiveTaxLoop (b :: bs) r t =
      if r ≤ 0 then t
      else progressiveTaxLoop bs (r - capAt b.limit r) (t + capAt b.limit r * b.rate) := by
  have hslice : (match b.limit with
      | none => r
      | some limit => min r limit) = capAt b.limit r := by
    unfold capAt
    cases b.limit with
    | none => rfl
    | some w => exact min_comm _ _
  rw [progressiveTaxLoop]
  simp only [hslice]

theorem progressiveTaxLoop_acc (bands : List Band) (r t : ℚ) :
    progressiveTaxLoop bands r t = t + progressiveTaxLoop bands r 0 := by
  induction bands generalizing r t with
  | nil => simp [progressiveTaxLoop]
  | cons b bs ih =>
    unfold progressiveTaxLoop
    by_cases h : r ≤ 0
    · simp [h]
    · simp only [h, if_false]
      rw [ih, ih _ (0 + _)]
      ring

theorem progressiveTaxLoop_zero (bands : List Band) (t : ℚ) :
    progressiveTaxLoop bands 0 t = t := by
  cases bands <;> simp [progressiveTaxLoop]

theorem widthSum_nonneg (bands : List Band) (h : WidthsNonneg bands) (s : ℚ)
    (hs : widthSum bands = some s) : 0 ≤ s := by
  induction bands generalizing s with
  | nil => simp [widthSum] at hs; linarith
  | cons b bs ih =>
    unfold widthSum at hs
    cases hl : b.limit with
    | none => simp [hl] at hs
    | some w =>
      cases hw : widthSum bs with
      | none => simp [hl, hw] at hs
      | some s' =>
        simp [hl, hw] at hs
        have h1 : 0 ≤ w := h b (by simp) w hl
        have h2 : 0 ≤ s' := ih (fun b' hb' => h b' (by simp [hb'])) s' hw
        linarith

theorem leftOf_cons (b : Band) (before : List Band) (r : ℚ)
    (h : WidthsNonneg before) :
    leftOf r (b :: before) = leftOf (r - capAt b.limit r) before := by
  cases hl : b.limit with
  | none =>
    cases hw : widthSum before with
    | none => simp [leftOf, capAt, widthSum, hl, hw]
    | some s =>
      have := widthSum_nonneg before h s hw
      simp [leftOf, capAt, widthSum, hl, hw, this]
  | some w =>
    cases hw : widthSum before with
    | none => simp [leftOf, capAt, widthSum, hl, hw]
    | some s =>
      have hs := widthSum_nonneg before h s hw
      simp only [leftOf, capAt, widthSum, hl, hw]
      rcases le_total w r with hwr | hwr
      · rw [min_eq_left hwr]
        congr 1; ring
      · rw [min_eq_right hwr, sub_self]
        rw [max_eq_left (by linarith), max_eq_left (by linarith)]

theorem loop_eq_formula (bands : List Band) (h : WidthsNonneg bands) (r : ℚ) (hr : 0 ≤ r) :
    progressiveTaxLoop bands r 0 =
      ∑ i : Fin bands.length,
        (bands.get i).rate * capAt (bands.get i).limit (leftOf r (bands.take i)) := by
  induction bands generalizing r with
  | nil => simp [progressiveTaxLoop]
  | cons b bs ih =>
    have hbs : WidthsNonneg bs := fun b' hb' => h b' (by simp [hb'])
    have htake : ∀ i : ℕ, WidthsNonneg (bs.take i) :=
      fun i b' hb' => hbs b' (List.mem_of_mem_take hb')
    simp only [List.length_cons, Fin.sum_univ_succ, List.get_eq_getElem, Fin.val_zero,
      List.getElem_cons_zero, Fin.val_succ, List.getElem_cons_succ, List.take_zero,
      List.take_succ_cons]
    have h0 : leftOf r [] = r := by simp [leftOf, widthSum, hr]
    have hsum : ∀ i : Fin bs.length,
        bs[(i : ℕ)].rate * capAt bs[(i : ℕ)].limit (leftOf r (b :: List.take i bs)) =
        bs[(i : ℕ)].rate * capAt bs[(i : ℕ)].limit
          (leftOf (r - capAt b.limit r) (List.take i bs)) := by
      intro i
      rw [leftOf_cons b _ r (htake i)]
    rw [Finset.sum_congr rfl (fun i _ => hsum i), h0]
    have hcap : 0 ≤ r - capAt b.limit r := by
      unfold capAt
      cases b.limit with
      | none => simp
      | some w => simp
    have ih' := ih hbs (r - capAt b.limit r) hcap
    simp only [List.get_eq_getElem] at ih'
    rw [← ih', progressiveTaxLoop_cons]
    by_cases hr0 : r ≤ 0
    · have hr' : r = 0 := le_antisymm hr0 hr
      subst hr'
      have hc : capAt b.limit 0 = 0 := by
        unfold capAt
        cases hl : b.limit with
        | none => rfl
        | some w => simpa using h b (by simp) w hl
      simp [hc, progressiveTaxLoop_zero]
    · simp only [hr0, if_false]
      rw [progressiveTaxLoop_acc]
      ring

/-- Claim C1: for every amount and every band list, the widths of the finite
bands being non-negative as widths are, `progressiveTax` is the sum over the
bands of `rate * min(width, income left after the bands before)`, an infinite
band taking all the income that is left. -/
theorem progressiveTax_eq_bandFormula (amount : ℚ) (bands : List Band)
    (h : WidthsNonneg bands) :
    progressiveTax amount bands = bandFormula amount bands := by
  unfold progressiveTax bandFormula
  rw [loop_eq_formula bands h _ (le_max_left _ _)]
  rfl

/-! ## Monotonicity and band boundaries -/

theorem capAt_nonneg (l : Option ℚ) (r : ℚ) (hr : 0 ≤ r)
    (hl : ∀ w, l = some w → 0 ≤ w) :
    0 ≤ capAt l r := by
  unfold capAt
  cases l with
  | none => exact hr
  | some w => exact le_min (hl w rfl) hr

theorem capAt_mono (l : Option ℚ) (r r' : ℚ) (h : r ≤ r') : capAt l r ≤ capAt l r' := by
  unfold capAt
  cases l with
  | none => exact h
  | some w => exact min_le_min le_rfl h

theorem sub_capAt_mono (l : Option ℚ) (r r' : ℚ) (h : r ≤ r') :
    r - capAt l r ≤ r' - capAt l r' := by
  unfold capAt
  cases l with
  | none => simp
  | some w =>
    show r - min w r ≤ r' - min w r'
    rcases le_total w r with h1 | h1
    · rw [min_eq_left h1, min_eq_left (le_trans h1 h)]; linarith
    · rw [min_eq_right h1]
      have := min_le_right w r'
      linarith

theorem progressiveTaxLoop_nonneg (bands : List Band) (hw : WidthsNonneg bands)
    (hrate : RatesNonneg bands) (r : ℚ) : 0 ≤ progressiveTaxLoop bands r 0 := by
  induction bands generalizing r with
  | nil => simp [progressiveTaxLoop]
  | cons b bs ih =>
    rw [progressiveTaxLoop_cons]
    by_cases h : r ≤ 0
    · simp [h]
    · simp only [h, if_false]
      rw [progressiveTaxLoop_acc]
      have h1 : 0 ≤ capAt b.limit r :=
        capAt_nonneg _ _ (le_of_lt (not_le.mp h)) (fun w hl => hw b (by simp) w hl)
      have h2 : 0 ≤ b.rate := hrate b (by simp)
      have h3 := ih (fun b' hb' => hw b' (by simp [hb'])) (fun b' hb' => hrate b' (by simp [hb']))
        (r - capAt b.limit r)
      have := mul_nonneg h1 h2
      linarith

theorem progressiveTaxLoop_mono (bands : List Band) (hw : WidthsNonneg bands)
    (hrate : RatesNonneg bands) (r r' : ℚ) (h : r ≤ r') :
    progressiveTaxLoop bands r 0 ≤ progressiveTaxLoop bands r' 0 := by
  induction bands generalizing r r' with
  | nil => simp [progressiveTaxLoop]
  | cons b bs ih =>
    by_cases h0 : r ≤ 0
    · rw [progressiveTaxLoop_cons b bs r, if_pos h0]
      exact progressiveTaxLoop_nonneg _ hw hrate r'
    · have h0' : ¬ r' ≤ 0 := fun hc => h0 (le_trans h hc)
      rw [progressiveTaxLoop_cons, progressiveTaxLoop_cons, if_neg h0, if_neg h0',
        progressiveTaxLoop_acc, progressiveTaxLoop_acc bs (r' - _)]
      have h2 : 0 ≤ b.rate := hrate b (by simp)
      have h3 := ih (fun b' hb' => hw b' (by simp [hb'])) (fun b' hb' => hrate b' (by simp [hb']))
        _ _ (sub_capAt_mono b.limit r r' h)
      have h4 := mul_le_mul_of_nonneg_right (capAt_mono b.limit r r' h) h2
      linarith

theorem progressiveTax_mono (bands : List Band) (hw : WidthsNonneg bands)
    (hrate : RatesNonneg bands) (a b : ℚ) (h : a ≤ b) :
    progressiveTax a bands ≤ progressiveTax b bands :=
  progressiveTaxLoop_mono bands hw hrate _ _ (max_le_max le_rfl h)

theorem legacyBands_widths : WidthsNonneg legacyBands := by
  intro b hb w hl
  simp only [legacyBands, List.mem_cons, List.mem_singleton, List.not_mem_nil, or_false] at hb
  rcases hb with rfl | rfl | rfl | rfl | rfl | rfl <;> simp at hl <;> subst hl <;> norm_num

theorem legacyBands_rates : RatesNonneg legacyBands := by
  intro b hb
  simp only [legacyBands, List.mem_cons, List.mem_singleton, List.not_mem_nil, or_false] at hb
  rcases hb with rfl | rfl | rfl | rfl | rfl | rfl <;> norm_num

theorem currentBands_widths : WidthsNonneg currentBands := by
  intro b hb w hl
  simp only [currentBands, List.mem_cons, List.mem_singleton, List.not_mem_nil, or_false] at hb
  rcases hb with rfl | rfl | rfl | rfl | rfl | rfl <;> simp at hl <;> subst hl <;> norm_num

theorem currentBands_rates : RatesNonneg currentBands := by
  intro b hb
  simp only [currentBands, List.mem_cons, List.mem_singleton, List.not_mem_nil, or_false] at hb
  rcases hb with rfl | rfl | rfl | rfl | rfl | rfl <;> norm_num

/-- Claim C2: on the legacy and on the current band table, a larger taxable
income never has a smaller progressive tax. -/
theorem progressiveTax_monotone_tables (a b : ℚ) (h : a ≤ b) :
    progressiveTax a legacyBands ≤ progressiveTax b legacyBands ∧
    progressiveTax a currentBands ≤ progressiveTax b currentBands :=
  ⟨progressiveTax_mono _ legacyBands_widths legacyBands_rates a b h,
   progressiveTax_mono _ currentBands_widths currentBands_rates a b h⟩

/-- Claim C3: on both band tables, for k = 1..5, the tax on the sum of the first
k band widths is the sum of `width * rate` over those k bands, with the listed
values. -/
theorem progressiveTax_at_band_boundaries :
    ([1, 2, 3, 4, 5].map fun k => fullWidth (legacyBands.take k))
        = [300000, 600000, 1100000, 1600000, 3200000] ∧
    ([1, 2, 3, 4, 5].map fun k => progressiveTax (fullWidth (legacyBands.take k)) legacyBands)
        = ([1, 2, 3, 4, 5].map fun k => fullTax (legacyBands.take k)) ∧
    ([1, 2, 3, 4, 5].map fun k => progressiveTax (fullWidth (legacyBands.take k)) legacyBands)
        = [21000, 54000, 129000, 224000, 560000] ∧
    ([1, 2, 3, 4, 5].map fun k => fullWidth (currentBands.take k))
        = [800000, 3000000, 12000000, 25000000, 50000000] ∧
    ([1, 2, 3, 4, 5].map fun k => progressiveTax (fullWidth (currentBands.take k)) currentBands)
        = ([1, 2, 3, 4, 5].map fun k => fullTax (currentBands.take k)) ∧
    ([1, 2, 3, 4, 5].map fun k => progressiveTax (fullWidth (currentBands.take k)) currentBands)
        = [0, 330000, 1950000, 4680000, 10430000] := by
  refine ⟨?_, ?_, ?_, ?_, ?_, ?_⟩ <;>
    simp only [List.map_cons, List.map_nil, legacyBands, currentBands, List.take, fullWidth,
      fullTax, Option.getD_some, List.sum_cons, List.sum_nil, progressiveTax,
      progressiveTaxLoop] <;>
    norm_num

/-! ## The two calculators -/

theorem progressiveTax_zero (bands : List Band) : progressiveTax 0 bands = 0 := by
  simp [progressiveTax, progressiveTaxLoop_zero]

theorem numOr_zero (x : ℚ) : numOr x 0 = x := by
  unfold numOr
  split_ifs with h
  · exact h.symm
  · rfl

/-- Claim C4, as amended: in both regimes an `annualGross` of 0 gives tax 0,
effective rate 0 and net annual 0, for every value of the other inputs in which
`nhfRate` is non-negative whenever `includeNHF` is set. -/
theorem zero_gross_zero_tax (i : TaxInput) (hg : i.annualGross = 0)
    (hn : i.includeNHF = true → 0 ≤ i.nhfRate) :
    ((calculateOldNigeriaPIT i).tax = 0 ∧ (calculateOldNigeriaPIT i).effectiveRate = 0 ∧
      (calculateOldNigeriaPIT i).netAnnual = 0) ∧
    ((calculateNewNigeriaTaxActPIT i).tax = 0 ∧
      (calculateNewNigeriaTaxActPIT i).effectiveRate = 0 ∧
      (calculateNewNigeriaTaxActPIT i).netAnnual = 0) := by
  have hnhf :
      0 ≤ (if i.includeNHF then max 0 (i.nhfBasisAmount) * (i.nhfRate / 100) else 0) := by
    split_ifs with h
    · exact mul_nonneg (le_max_left _ _) (div_nonneg (hn h) (by norm_num))
    · exact le_rfl
  have hrent : 0 ≤ min (max 0 i.annualRentPaid * (2 / 10)) 500000 :=
    le_min (mul_nonneg (le_max_left _ _) (by norm_num)) (by norm_num)
  have hold : max 0 (0 - 0
      - (if i.includeNHF then max 0 (i.nhfBasisAmount) * (i.nhfRate / 100) else 0)
      - (max 200000 (1 / 100 * max 0 (0 - 0 - (if i.includeNHF then
          max 0 (i.nhfBasisAmount) * (i.nhfRate / 100) else 0)))
        + 2 / 10 * max 0 (0 - 0 - (if i.includeNHF then
          max 0 (i.nhfBasisAmount) * (i.nhfRate / 100) else 0)))) = 0 := by
    apply max_eq_left
    have h1 : max 0 (0 - 0 - (if i.includeNHF then
          max 0 (i.nhfBasisAmount) * (i.nhfRate / 100) else 0)) = 0 :=
      max_eq_left (by linarith)
    rw [h1]
    norm_num
    linarith
  have hnew : max 0 (0 - 0
      - (if i.includeNHF then max 0 (i.nhfBasisAmount) * (i.nhfRate / 100) else 0)
      - min (max 0 i.annualRentPaid * (2 / 10)) 500000) = 0 :=
    max_eq_left (by linarith)
  constructor
  · simp only [calculateOldNigeriaPIT, numOr_zero, hg, max_self, zero_mul, hold,
      progressiveTax_zero]
    simp
  · simp only [calculateNewNigeriaTaxActPIT, numOr_zero, hg, max_self, zero_mul, hnew,
      progressiveTax_zero]
    simp

/-- Claim C5, as amended: for non-negative inputs `calculateOldNigeriaPIT` returns
the pension, NHF, CRA, taxable income and tax of the specification's formulas;
for gross 3,000,000 at pension rate 8 without NHF these are pension 240,000,
CRA 752,000, taxable income 2,008,000 and tax 309,680. -/
theorem calculateOldNigeriaPIT_breakdown (i : TaxInput) (hg : 0 ≤ i.annualGross)
    (_hp : 0 ≤ i.pensionRate) (_hr : 0 ≤ i.nhfRate) (hb : 0 ≤ i.nhfBasisAmount) :
    ((calculateOldNigeriaPIT i).pension = i.annualGross * i.pensionRate / 100 ∧
     (calculateOldNigeriaPIT i).nhf =
        (if i.includeNHF then i.nhfBasisAmount * i.nhfRate / 100 else 0) ∧
     (calculateOldNigeriaPIT i).cra =
        max 200000 (1 / 100 * max 0 (i.annualGross - (calculateOldNigeriaPIT i).pension
            - (calculateOldNigeriaPIT i).nhf))
          + 20 / 100 * max 0 (i.annualGross - (calculateOldNigeriaPIT i).pension
            - (calculateOldNigeriaPIT i).nhf) ∧
     (calculateOldNigeriaPIT i).taxableIncome =
        max 0 (i.annualGross - (calculateOldNigeriaPIT i).pension
          - (calculateOldNigeriaPIT i).nhf - (calculateOldNigeriaPIT i).cra) ∧
     (calculateOldNigeriaPIT i).tax =
        progressiveTax (calculateOldNigeriaPIT i).taxableIncome legacyBands) ∧
    (∀ nhfRate nhfBasisAmount annualRentPaid : ℚ,
      (calculateOldNigeriaPIT
          ⟨3000000, false, nhfRate, nhfBasisAmount, 8, annualRentPaid⟩).pension
          = 240000 ∧
      (calculateOldNigeriaPIT ⟨3000000, false, nhfRate, nhfBasisAmount, 8, annualRentPaid⟩).cra
          = 752000 ∧
      (calculateOldNigeriaPIT
          ⟨3000000, false, nhfRate, nhfBasisAmount, 8, annualRentPaid⟩).taxableIncome
          = 2008000 ∧
      (calculateOldNigeriaPIT ⟨3000000, false, nhfRate, nhfBasisAmount, 8, annualRentPaid⟩).tax
          = 309680) := by
  constructor
  · simp only [calculateOldNigeriaPIT, numOr_zero, max_eq_right hg, max_eq_right hb]
    refine ⟨by ring, ?_, ?_, trivial, trivial⟩
    · split_ifs <;> ring
    · norm_num
  · intro nhfRate nhfBasisAmount annualRentPaid
    refine ⟨?_, ?_, ?_, ?_⟩ <;>
      simp only [calculateOldNigeriaPIT, numOr, progressiveTax, progressiveTaxLoop,
        legacyBands] <;>
      norm_num

/-- Claim C6: for non-negative inputs `calculateNewNigeriaTaxActPIT` returns the
rent relief, pension, NHF, taxable income and tax of the specification's
formulas; for gross 1,000,000 without NHF, pension or rent these are relief 0,
taxable income 1,000,000 and tax 30,000. -/
theorem calculateNewNigeriaTaxActPIT_breakdown (i : TaxInput) (hg : 0 ≤ i.annualGross)
    (_hp : 0 ≤ i.pensionRate) (_hr : 0 ≤ i.nhfRate) (hb : 0 ≤ i.nhfBasisAmount)
    (hrent : 0 ≤ i.annualRentPaid) :
    ((calculateNewNigeriaTaxActPIT i).rentRelief = min (20 / 100 * i.annualRentPaid) 500000 ∧
     (calculateNewNigeriaTaxActPIT i).pension = i.annualGross * i.pensionRate / 100 ∧
     (calculateNewNigeriaTaxActPIT i).nhf =
        (if i.includeNHF then i.nhfBasisAmount * i.nhfRate / 100 else 0) ∧
     (calculateNewNigeriaTaxActPIT i).taxableIncome =
        max 0 (i.annualGross - (calculateNewNigeriaTaxActPIT i).pension
          - (calculateNewNigeriaTaxActPIT i).nhf - (calculateNewNigeriaTaxActPIT i).rentRelief) ∧
     (calculateNewNigeriaTaxActPIT i).tax =
        progressiveTax (calculateNewNigeriaTaxActPIT i).taxableIncome currentBands) ∧
    (∀ nhfRate nhfBasisAmount : ℚ,
      (calculateNewNigeriaTaxActPIT ⟨1000000, false, nhfRate, nhfBasisAmount, 0, 0⟩).rentRelief
          = 0 ∧
      (calculateNewNigeriaTaxActPIT
          ⟨1000000, false, nhfRate, nhfBasisAmount, 0, 0⟩).taxableIncome
          = 1000000 ∧
      (calculateNewNigeriaTaxActPIT ⟨1000000, false, nhfRate, nhfBasisAmount, 0, 0⟩).tax
          = 30000) := by
  constructor
  · simp only [calculateNewNigeriaTaxActPIT, numOr_zero, max_eq_right hg, max_eq_right hb,
      max_eq_right hrent]
    refine ⟨?_, by ring, ?_, trivial, trivial⟩
    · congr 1; ring
    · split_ifs <;> ring
  · intro nhfRate nhfBasisAmount
    refine ⟨?_, ?_, ?_⟩ <;>
      simp only [calculateNewNigeriaTaxActPIT, numOr, progressiveTax, progressiveTaxLoop,
        currentBands] <;>
      norm_num

/-- Claim C7: in both regimes the returned record has
`effectiveRate = tax / gross` when its gross is positive and `0` when its gross
is `0` (the gross is never negative), `netAnnual = gross - tax`,
`netMonthly = netAnnual / 12` and `monthlyTax = tax / 12`, so that
`netAnnual + tax = gross` and `12 * monthlyTax = tax`. -/
theorem derived_figures (i : TaxInput) :
    ((calculateOldNigeriaPIT i).gross = max 0 i.annualGross ∧
     0 ≤ (calculateOldNigeriaPIT i).gross ∧
     (calculateOldNigeriaPIT i).effectiveRate =
        (if (calculateOldNigeriaPIT i).gross = 0 then 0
         else (calculateOldNigeriaPIT i).tax / (calculateOldNigeriaPIT i).gross) ∧
     (calculateOldNigeriaPIT i).netAnnual =
        (calculateOldNigeriaPIT i).gross - (calculateOldNigeriaPIT i).tax ∧
     (calculateOldNigeriaPIT i).netMonthly = (calculateOldNigeriaPIT i).netAnnual / 12 ∧
     (calculateOldNigeriaPIT i).monthlyTax = (calculateOldNigeriaPIT i).tax / 12 ∧
     (calculateOldNigeriaPIT i).netAnnual + (calculateOldNigeriaPIT i).tax =
        (calculateOldNigeriaPIT i).gross ∧
     12 * (calculateOldNigeriaPIT i).monthlyTax = (calculateOldNigeriaPIT i).tax) ∧
    ((calculateNewNigeriaTaxActPIT i).gross = max 0 i.annualGross ∧
     0 ≤ (calculateNewNigeriaTaxActPIT i).gross ∧
     (calculateNewNigeriaTaxActPIT i).effectiveRate =
        (if (calculateNewNigeriaTaxActPIT i).gross = 0 then 0
         else (calculateNewNigeriaTaxActPIT i).tax / (calculateNewNigeriaTaxActPIT i).gross) ∧
     (calculateNewNigeriaTaxActPIT i).netAnnual =
        (calculateNewNigeriaTaxActPIT i).gross - (calculateNewNigeriaTaxActPIT i).tax ∧
     (calculateNewNigeriaTaxActPIT i).netMonthly =
        (calculateNewNigeriaTaxActPIT i).netAnnual / 12 ∧
     (calculateNewNigeriaTaxActPIT i).monthlyTax = (calculateNewNigeriaTaxActPIT i).tax / 12 ∧
     (calculateNewNigeriaTaxActPIT i).netAnnual + (calculateNewNigeriaTaxActPIT i).tax =
        (calculateNewNigeriaTaxActPIT i).gross ∧
     12 * (calculateNewNigeriaTaxActPIT i).monthlyTax = (calculateNewNigeriaTaxActPIT i).tax) := by
  have hpos : ∀ g : ℚ, (0 < max 0 g) ↔ ¬ (max 0 g = 0) := fun g =>
    ⟨fun h => ne_of_gt h, fun h => lt_of_le_of_ne (le_max_left _ _) (Ne.symm h)⟩
  constructor
  · simp only [calculateOldNigeriaPIT, numOr_zero, gt_iff_lt, hpos, ite_not]
    exact ⟨trivial, le_max_left _ _, trivial, trivial, trivial, trivial, by ring, by ring⟩
  · simp only [calculateNewNigeriaTaxActPIT, numOr_zero, gt_iff_lt, hpos, ite_not]
    exact ⟨trivial, le_max_left _ _, trivial, trivial, trivial, trivial, by ring, by ring⟩

/-- Claim C8, as amended: in both regimes a negative `annualGross`,
`nhfBasisAmount` or `annualRentPaid` is clamped to zero before use: the result is
the result on the record with these three fields clamped. -/
theorem amounts_clamped (i : TaxInput) :
    calculateOldNigeriaPIT i = calculateOldNigeriaPIT (clampAmounts i) ∧
    calculateNewNigeriaTaxActPIT i = calculateNewNigeriaTaxActPIT (clampAmounts i) := by
  constructor <;>
    simp only [calculateOldNigeriaPIT, calculateNewNigeriaTaxActPIT, clampAmounts, numOr_zero,
      max_eq_right (le_max_left (0 : ℚ) _)]

/-! ## The scope helpers: strings of digits -/

theorem digitChar_spec : ∀ k < 10, (Nat.digitChar k).isDigit = true ∧
    (Nat.digitChar k).toNat - 48 = k := by decide

theorem toDigitsCore_length_le (fuel n : ℕ) (ds : List Char) :
    ds.length ≤ (Nat.toDigitsCore 10 fuel n ds).length := by
  induction fuel generalizing n ds with
  | zero => simp [Nat.toDigitsCore]
  | succ fuel ih =>
    simp only [Nat.toDigitsCore]
    split_ifs
    · simp
    · exact le_trans (by simp) (ih _ _)

theorem toDigits_ne_nil (n : ℕ) : Nat.toDigits 10 n ≠ [] := by
  intro h
  have h1 : (Nat.toDigits 10 n).length = 0 := by rw [h]; rfl
  simp only [Nat.toDigits, Nat.toDigitsCore] at h1
  split_ifs at h1
  · simp at h1
  · have := toDigitsCore_length_le n (n / 10) [Nat.digitChar (n % 10)]
    simp at this
    omega

theorem toDigitsCore_all (fuel n : ℕ) (ds : List Char) (h : ds.all Char.isDigit = true) :
    (Nat.toDigitsCore 10 fuel n ds).all Char.isDigit = true := by
  induction fuel generalizing n ds with
  | zero => simpa [Nat.toDigitsCore] using h
  | succ fuel ih =>
    have hd := (digitChar_spec (n % 10) (Nat.mod_lt _ (by norm_num))).1
    simp only [Nat.toDigitsCore]
    split_ifs
    · simp [hd, h]
    · exact ih _ _ (by simp [hd, h])

theorem toDigits_all (n : ℕ) : (Nat.toDigits 10 n).all Char.isDigit = true :=
  toDigitsCore_all _ _ _ rfl

theorem toDigitsCore_foldl (fuel n : ℕ) (ds : List Char) (h : n < fuel) :
    (Nat.toDigitsCore 10 fuel n ds).foldl (fun acc c => 10 * acc + (c.toNat - 48)) 0 =
      ds.foldl (fun acc c => 10 * acc + (c.toNat - 48)) n := by
  induction fuel generalizing n ds with
  | zero => omega
  | succ fuel ih =>
    have hd := (digitChar_spec (n % 10) (Nat.mod_lt _ (by norm_num))).2
    simp only [Nat.toDigitsCore]
    split_ifs with h0
    · simp only [List.foldl_cons, hd]
      congr 1
      omega
    · rw [ih _ _ (by omega)]
      simp only [List.foldl_cons, hd]
      congr 1
      omega

theorem jsNumber_toDigits (n : ℕ) : jsNumber (Nat.toDigits 10 n) = some n := by
  unfold jsNumber
  rw [if_pos ⟨toDigits_ne_nil n, toDigits_all n⟩]
  simp only [Nat.toDigits]
  rw [toDigitsCore_foldl _ _ _ (by omega)]
  rfl

theorem jsSplit_of_not_mem (sep : Char) (s : List Char) (h : sep ∉ s) :
    jsSplit sep s = [s] := by
  induction s with
  | nil => rfl
  | cons c cs ih =>
    simp only [List.mem_cons, not_or] at h
    simp only [jsSplit, ih h.2]
    rw [if_neg (fun hc => h.1 hc.symm)]

theorem jsSplit_append (sep : Char) (s t : List Char) (h : sep ∉ s) :
    jsSplit sep (s ++ sep :: t) = s :: jsSplit sep t := by
  induction s with
  | nil => simp [jsSplit]
  | cons c cs ih =>
    simp only [List.mem_cons, not_or] at h
    rw [List.cons_append, jsSplit, if_neg (fun hc => h.1 hc.symm), ih h.2]

theorem dash_not_mem_toDigits (n : ℕ) : '-' ∉ Nat.toDigits 10 n := by
  intro h
  have := List.all_eq_true.mp (toDigits_all n) _ h
  simp at this


theorem isoMonthKey_parts (y m : ℕ) (hm : m < 100) :
    (jsSplit '-' (isoMonthKey y m)).map jsNumber = [some y, some m] := by
  have h2 : '-' ∉ [Nat.digitChar (m / 10), Nat.digitChar (m % 10)] := by
    interval_cases m <;> decide
  have h3 : jsNumber [Nat.digitChar (m / 10), Nat.digitChar (m % 10)] = some m := by
    interval_cases m <;> decide
  rw [isoMonthKey, jsSplit_append _ _ _ (dash_not_mem_toDigits y), jsSplit_of_not_mem _ _ h2]
  simp [jsNumber_toDigits, h3]

theorem jsString_natCast (n : ℕ) : jsString (n : ℤ) = Nat.toDigits 10 n := rfl

theorem monthKey_eq_iso (y m : ℕ) (hm : m < 100) : monthKey y m = isoMonthKey y m := by
  have h : padStart 2 '0' (Nat.toDigits 10 m) =
      [Nat.digitChar (m / 10), Nat.digitChar (m % 10)] := by
    interval_cases m <;> decide
  simp only [monthKey, isoMonthKey, jsString_natCast, h]

theorem monthKey_eq_iso_toNat (y : ℕ) (k : ℤ) (h0 : 0 ≤ k) (hk : k < 100) :
    monthKey y k = isoMonthKey y k.toNat := by
  have h := monthKey_eq_iso y k.toNat (by omega)
  rwa [Int.toNat_of_nonneg h0] at h

theorem quarterMonths_of_parts (key : List Char) (y m : ℕ)
    (h : (jsSplit '-' key).map jsNumber = [some y, some m]) :
    quarterMonths key =
      some ([0, 1, 2].map fun i : ℤ => monthKey y (((m : ℤ) - 1) / 3 * 3 + 1 + i)) := by
  simp only [quarterMonths, h]

theorem monthLoop_eq (y maxMonth : ℕ) (fuel m : ℕ) (months : List (List Char))
    (h : m + fuel = maxMonth + 1) :
    monthLoop y maxMonth fuel m months =
      months ++ (List.range fuel).map fun k => monthKey y ((m + k : ℕ) : ℤ) := by
  induction fuel generalizing m months with
  | zero => simp [monthLoop]
  | succ fuel ih =>
    rw [monthLoop, if_pos (by omega), ih _ _ (by omega), List.range_succ_eq_map]
    simp only [List.append_assoc, List.singleton_append, List.map_cons, List.map_map,
      Nat.add_zero]
    congr 2
    apply List.map_congr_left
    intro k _
    simp only [Function.comp_apply]
    congr 2
    omega

theorem monthLoop_iso (y maxMonth : ℕ) (h : maxMonth ≤ 12) :
    monthLoop y maxMonth maxMonth 1 [] =
      (List.range maxMonth).map fun k => isoMonthKey y (k + 1) := by
  rw [monthLoop_eq y maxMonth maxMonth 1 [] (by omega), List.nil_append]
  apply List.map_congr_left
  intro k hk
  rw [List.mem_range] at hk
  rw [monthKey_eq_iso y (1 + k) (by omega), Nat.add_comm]

/-- Claim C9: for an anchor key `YYYY-MM` with month 1..12 the quarterly scope is
the three keys of the same year with months `q*3+1`, `q*3+2`, `q*3+3`,
`q = floor((month-1)/3)`, two digits each, in this order; the anchor is one of
them; the anchor `2024-05` gives `2024-04`, `2024-05`, `2024-06`. -/
theorem quarterMonths_spec (y m : ℕ) (_hy : 1000 ≤ y) (_hy' : y ≤ 9999) (h1 : 1 ≤ m)
    (h12 : m ≤ 12) :
    quarterMonths (isoMonthKey y m) =
      some [isoMonthKey y ((m - 1) / 3 * 3 + 1), isoMonthKey y ((m - 1) / 3 * 3 + 2),
        isoMonthKey y ((m - 1) / 3 * 3 + 3)] ∧
    isoMonthKey y m ∈ [isoMonthKey y ((m - 1) / 3 * 3 + 1), isoMonthKey y ((m - 1) / 3 * 3 + 2),
        isoMonthKey y ((m - 1) / 3 * 3 + 3)] ∧
    quarterMonths "2024-05".toList =
      some ["2024-04".toList, "2024-05".toList, "2024-06".toList] := by
  refine ⟨?_, ?_, by decide⟩
  · rw [quarterMonths_of_parts _ y m (isoMonthKey_parts y m (by omega))]
    interval_cases m <;>
      simp only [List.map_cons, List.map_nil] <;>
      norm_num <;>
      refine ⟨?_, ?_, ?_⟩ <;>
      exact monthKey_eq_iso_toNat y _ (by norm_num) (by norm_num)
  · interval_cases m <;> simp

/-- Claim C10: the year-to-date scope is the keys of months 01 up to the current
calendar month of the anchor's year when that year is the current year, and all
12 keys of the anchor's year otherwise; the yearly scope is always all 12 keys of
the anchor's year. -/
theorem ytdMonths_yearlyMonths_spec (y m : ℕ) (now : JsDate) (_hy : 1000 ≤ y)
    (_hy' : y ≤ 9999) (_h1 : 1 ≤ m) (h12 : m ≤ 12) :
    ytdMonths (isoMonthKey y m) now =
      some ((List.range (if y = now.fullYear then now.month.val + 1 else 12)).map
        fun k => isoMonthKey y (k + 1)) ∧
    yearlyMonths (isoMonthKey y m) =
      some ((List.range 12).map fun k => isoMonthKey y (k + 1)) := by
  have hparts := isoMonthKey_parts y m (by omega)
  constructor
  · simp only [ytdMonths, hparts]
    rw [monthLoop_iso]
    have := now.month.isLt
    split_ifs <;> omega
  · simp only [yearlyMonths, hparts]
    rw [monthLoop_iso _ _ le_rfl]

/-! ## Instances and evaluations at concrete inputs -/

/-- The band formula at the legacy table and a taxable income of 2,008,000. -/
theorem progressiveTax_eq_bandFormula_witness :
    WidthsNonneg legacyBands ∧
      progressiveTax 2008000 legacyBands = bandFormula 2008000 legacyBands :=
  ⟨legacyBands_widths, progressiveTax_eq_bandFormula 2008000 legacyBands legacyBands_widths⟩

/-- Why the widths are taken non-negative: on a band of width `-5`, which is
not a width and which neither table of the source has, the loop stops at once at
amount 0 and returns 0, while the formula charges the band `-5`. -/
theorem bandFormula_negative_width :
    progressiveTax 0 [⟨some (-5), 1⟩, ⟨none, 0⟩] = 0 ∧
    bandFormula 0 [⟨some (-5), 1⟩, ⟨none, 0⟩] = -5 ∧
    progressiveTax 0 [⟨some (-5), 1⟩, ⟨none, 0⟩] ≠
      bandFormula 0 [⟨some (-5), 1⟩, ⟨none, 0⟩] := by
  have h1 : progressiveTax 0 [⟨some (-5), 1⟩, ⟨none, 0⟩] = 0 := by
    simp [progressiveTax, progressiveTaxLoop]
  have h2 : bandFormula 0 [⟨some (-5), 1⟩, ⟨none, 0⟩] = -5 := by
    simp [bandFormula, Fin.sum_univ_succ, capAt, incomeLeft, widthSum]
  refine ⟨h1, h2, ?_⟩
  rw [h1, h2]
  norm_num

/-- Monotonicity between the taxable incomes 300,000 and 600,000. -/
theorem progressiveTax_monotone_tables_witness :
    (300000 : ℚ) ≤ 600000 ∧
      (progressiveTax 300000 legacyBands ≤ progressiveTax 600000 legacyBands ∧
       progressiveTax 300000 currentBands ≤ progressiveTax 600000 currentBands) :=
  ⟨by norm_num, progressiveTax_monotone_tables 300000 600000 (by norm_num)⟩

/-- A zero gross with NHF at 2.5 percent, pension at 8 percent and rent 100,000. -/
theorem zero_gross_zero_tax_witness :
    ((calculateOldNigeriaPIT ⟨0, true, 5 / 2, 0, 8, 100000⟩).tax = 0 ∧
      (calculateOldNigeriaPIT ⟨0, true, 5 / 2, 0, 8, 100000⟩).effectiveRate = 0 ∧
      (calculateOldNigeriaPIT ⟨0, true, 5 / 2, 0, 8, 100000⟩).netAnnual = 0) ∧
    ((calculateNewNigeriaTaxActPIT ⟨0, true, 5 / 2, 0, 8, 100000⟩).tax = 0 ∧
      (calculateNewNigeriaTaxActPIT ⟨0, true, 5 / 2, 0, 8, 100000⟩).effectiveRate = 0 ∧
      (calculateNewNigeriaTaxActPIT ⟨0, true, 5 / 2, 0, 8, 100000⟩).netAnnual = 0) :=
  zero_gross_zero_tax ⟨0, true, 5 / 2, 0, 8, 100000⟩ rfl (fun _ => by norm_num)

/-- Claim C4 as stated fails for a negative `nhfRate`: with gross 0, NHF included
at rate -100 on a basis of 10,000,000 both regimes charge a positive tax. -/
theorem zero_gross_negative_nhfRate :
    (calculateOldNigeriaPIT ⟨0, true, -100, 10000000, 0, 0⟩).tax = 1664000 ∧
    (calculateOldNigeriaPIT ⟨0, true, -100, 10000000, 0, 0⟩).netAnnual = -1664000 ∧
    (calculateNewNigeriaTaxActPIT ⟨0, true, -100, 10000000, 0, 0⟩).tax = 1590000 ∧
    (calculateNewNigeriaTaxActPIT ⟨0, true, -100, 10000000, 0, 0⟩).netAnnual = -1590000 := by
  refine ⟨?_, ?_, ?_, ?_⟩ <;>
    simp only [calculateOldNigeriaPIT, calculateNewNigeriaTaxActPIT, numOr, progressiveTax,
      progressiveTaxLoop, legacyBands, currentBands] <;>
    norm_num

/-- The legacy breakdown at gross 3,000,000, pension rate 8, no NHF. -/
theorem calculateOldNigeriaPIT_breakdown_witness :
    (calculateOldNigeriaPIT ⟨3000000, false, 0, 0, 8, 0⟩).pension = 3000000 * 8 / 100 ∧
    (calculateOldNigeriaPIT ⟨3000000, false, 0, 0, 8, 0⟩).tax =
      progressiveTax (calculateOldNigeriaPIT ⟨3000000, false, 0, 0, 8, 0⟩).taxableIncome
        legacyBands :=
  ⟨(calculateOldNigeriaPIT_breakdown ⟨3000000, false, 0, 0, 8, 0⟩ (by norm_num) (by norm_num)
      (by norm_num) (by norm_num)).1.1,
   (calculateOldNigeriaPIT_breakdown ⟨3000000, false, 0, 0, 8, 0⟩ (by norm_num) (by norm_num)
      (by norm_num) (by norm_num)).1.2.2.2.2⟩

/-- Claim C5 as stated fails on its own example: at gross 3,000,000, pension
rate 8, no NHF the code returns CRA 752,000, taxable income 2,008,000 and tax
309,680, not 579,600, 2,180,400 and 345,884. -/
theorem legacy_example_values :
    (calculateOldNigeriaPIT ⟨3000000, false, 0, 0, 8, 0⟩).cra = 752000 ∧
    (calculateOldNigeriaPIT ⟨3000000, false, 0, 0, 8, 0⟩).cra ≠ 579600 ∧
    (calculateOldNigeriaPIT ⟨3000000, false, 0, 0, 8, 0⟩).taxableIncome ≠ 2180400 ∧
    (calculateOldNigeriaPIT ⟨3000000, false, 0, 0, 8, 0⟩).tax ≠ 345884 := by
  refine ⟨?_, ?_, ?_, ?_⟩ <;>
    simp only [calculateOldNigeriaPIT, numOr, progressiveTax, progressiveTaxLoop,
      legacyBands] <;>
    norm_num

/-- The current-regime breakdown at gross 1,000,000 with rent 2,000,000. -/
theorem calculateNewNigeriaTaxActPIT_breakdown_witness :
    (calculateNewNigeriaTaxActPIT ⟨1000000, true, 5 / 2, 1000000, 8, 2000000⟩).rentRelief =
      min (20 / 100 * 2000000) 500000 :=
  (calculateNewNigeriaTaxActPIT_breakdown ⟨1000000, true, 5 / 2, 1000000, 8, 2000000⟩
    (by norm_num) (by norm_num) (by norm_num) (by norm_num) (by norm_num)).1.1

/-- Claim C8 as stated fails for a negative `pensionRate`: it is used as given,
so the result differs from the one on the record with the rate replaced by 0. -/
theorem negative_pensionRate_not_clamped :
    calculateOldNigeriaPIT ⟨1000000, false, 0, 0, -10, 0⟩ ≠
      calculateOldNigeriaPIT (clampAll ⟨1000000, false, 0, 0, -10, 0⟩) ∧
    calculateNewNigeriaTaxActPIT ⟨1000000, false, 0, 0, -10, 0⟩ ≠
      calculateNewNigeriaTaxActPIT (clampAll ⟨1000000, false, 0, 0, -10, 0⟩) ∧
    (calculateNewNigeriaTaxActPIT ⟨1000000, false, 0, 0, -10, 0⟩).pension = -100000 ∧
    (calculateNewNigeriaTaxActPIT (clampAll ⟨1000000, false, 0, 0, -10, 0⟩)).pension = 0 := by
  refine ⟨?_, ?_, ?_, ?_⟩
  · intro h
    have := congrArg OldTaxResult.pension h
    simp only [calculateOldNigeriaPIT, clampAll, numOr] at this
    norm_num at this
  · intro h
    have := congrArg NewTaxResult.pension h
    simp only [calculateNewNigeriaTaxActPIT, clampAll, numOr] at this
    norm_num at this
  · simp only [calculateNewNigeriaTaxActPIT, numOr]; norm_num
  · simp only [calculateNewNigeriaTaxActPIT, clampAll, numOr]; norm_num

/-- The quarterly scope at the anchor `2024-11`. -/
theorem quarterMonths_spec_witness :
    quarterMonths (isoMonthKey 2024 11) =
      some [isoMonthKey 2024 ((11 - 1) / 3 * 3 + 1), isoMonthKey 2024 ((11 - 1) / 3 * 3 + 2),
        isoMonthKey 2024 ((11 - 1) / 3 * 3 + 3)] :=
  (quarterMonths_spec 2024 11 (by decide) (by decide) (by decide) (by decide)).1

/-- The year-to-date scope at the anchor `2024-11` on a day of March 2024. -/
theorem ytdMonths_yearlyMonths_spec_witness :
    ytdMonths (isoMonthKey 2024 11) ⟨2024, 2⟩ =
      some ((List.range (if 2024 = 2024 then 2 + 1 else 12)).map
        fun k => isoMonthKey 2024 (k + 1)) :=
  (ytdMonths_yearlyMonths_spec 2024 11 ⟨2024, 2⟩ (by decide) (by decide) (by decide)
    (by decide)).1

/-! ## Transactions in scope -/

theorem isDigit_bounds (c : Char) (h : c.isDigit = true) : 48 ≤ c.toNat ∧ c.toNat ≤ 57 := by
  simp only [Char.isDigit, Bool.and_eq_true, decide_eq_true_eq] at h
  exact ⟨h.1, h.2⟩

theorem parseIsoDate_shape (s : List Char) (y m d : ℕ) (h : parseIsoDate s = some (y, m, d)) :
    ∃ y1 y2 y3 y4 m1 m2 d1 d2 : Char,
      s = [y1, y2, y3, y4, '-', m1, m2, '-', d1, d2] ∧
      [y1, y2, y3, y4, m1, m2, d1, d2].all Char.isDigit = true ∧
      y = (y1.toNat - 48) * 1000 + (y2.toNat - 48) * 100 + (y3.toNat - 48) * 10
        + (y4.toNat - 48) ∧
      m = (m1.toNat - 48) * 10 + (m2.toNat - 48) ∧
      d = (d1.toNat - 48) * 10 + (d2.toNat - 48) := by
  unfold parseIsoDate at h
  split at h
  · rename_i y1 y2 y3 y4 m1 m2 d1 d2
    by_cases h1 : [y1, y2, y3, y4, m1, m2, d1, d2].all Char.isDigit = true
    · rw [if_pos h1] at h
      simp only at h
      split_ifs at h
      simp only [Option.some.injEq, Prod.mk.injEq] at h
      exact ⟨y1, y2, y3, y4, m1, m2, d1, d2, rfl, h1, h.1.symm, h.2.1.symm, h.2.2.symm⟩
    · rw [if_neg h1] at h
      exact absurd h (by simp)
  · exact absurd h (by simp)

theorem jsStrLe_cons (a b : Char) (l r : List Char) :
    jsStrLe (a :: l) (b :: r) =
      if a.toNat < b.toNat then true else if b.toNat < a.toNat then false else jsStrLe l r :=
  rfl

theorem lex_step (x z : ℕ) (rest : Bool) :
    (if x < z then true else if z < x then false else rest) =
      (decide (x < z) || (decide (x = z) && rest)) := by
  by_cases h1 : x < z
  · simp [h1]
  · by_cases h2 : z < x
    · have : x ≠ z := by omega
      simp [h1, h2, this]
    · have : x = z := by omega
      simp [this]

theorem jsStrLe_digits (x1 x2 x3 x4 x5 x6 x7 x8 z1 z2 z3 z4 z5 z6 z7 z8 : ℕ)
    (hx : x1 ≤ 57 ∧ x2 ≤ 57 ∧ x3 ≤ 57 ∧ x4 ≤ 57 ∧ x5 ≤ 57 ∧ x6 ≤ 57 ∧ x7 ≤ 57 ∧ x8 ≤ 57)
    (hx' : 48 ≤ x1 ∧ 48 ≤ x2 ∧ 48 ≤ x3 ∧ 48 ≤ x4 ∧ 48 ≤ x5 ∧ 48 ≤ x6 ∧ 48 ≤ x7 ∧ 48 ≤ x8)
    (hz : z1 ≤ 57 ∧ z2 ≤ 57 ∧ z3 ≤ 57 ∧ z4 ≤ 57 ∧ z5 ≤ 57 ∧ z6 ≤ 57 ∧ z7 ≤ 57 ∧ z8 ≤ 57)
    (hz' : 48 ≤ z1 ∧ 48 ≤ z2 ∧ 48 ≤ z3 ∧ 48 ≤ z4 ∧ 48 ≤ z5 ∧ 48 ≤ z6 ∧ 48 ≤ z7 ∧ 48 ≤ z8) :
    (if x1 < z1 then true else if z1 < x1 then false else
      if x2 < z2 then true else if z2 < x2 then false else
      if x3 < z3 then true else if z3 < x3 then false else
      if x4 < z4 then true else if z4 < x4 then false else
      if x5 < z5 then true else if z5 < x5 then false else
      if x6 < z6 then true else if z6 < x6 then false else
      if x7 < z7 then true else if z7 < x7 then false else
      if x8 < z8 then true else if z8 < x8 then false else true) = true ↔
    notAfter ((x1 - 48) * 1000 + (x2 - 48) * 100 + (x3 - 48) * 10 + (x4 - 48),
        (x5 - 48) * 10 + (x6 - 48), (x7 - 48) * 10 + (x8 - 48))
      ((z1 - 48) * 1000 + (z2 - 48) * 100 + (z3 - 48) * 10 + (z4 - 48),
        (z5 - 48) * 10 + (z6 - 48), (z7 - 48) * 10 + (z8 - 48)) := by
  simp only [lex_step, notAfter, Bool.or_eq_true, Bool.and_eq_true, decide_eq_true_eq,
    Bool.and_true]
  omega

theorem jsStrLe_iso (a b : List Char) (da db : ℕ × ℕ × ℕ)
    (ha : parseIsoDate a = some da) (hb : parseIsoDate b = some db) :
    jsStrLe a b = true ↔ notAfter da db := by
  obtain ⟨ya, ma, dda⟩ := da
  obtain ⟨yb, mb, ddb⟩ := db
  obtain ⟨a1, a2, a3, a4, a5, a6, a7, a8, rfl, hda, rfl, rfl, rfl⟩ :=
    parseIsoDate_shape a ya ma dda ha
  obtain ⟨b1, b2, b3, b4, b5, b6, b7, b8, rfl, hdb, rfl, rfl, rfl⟩ :=
    parseIsoDate_shape b yb mb ddb hb
  simp only [List.all_cons, List.all_nil, Bool.and_true, Bool.and_eq_true] at hda hdb
  obtain ⟨h1, h2, h3, h4, h5, h6, h7, h8⟩ := hda
  obtain ⟨g1, g2, g3, g4, g5, g6, g7, g8⟩ := hdb
  have key := jsStrLe_digits a1.toNat a2.toNat a3.toNat a4.toNat a5.toNat a6.toNat a7.toNat
    a8.toNat b1.toNat b2.toNat b3.toNat b4.toNat b5.toNat b6.toNat b7.toNat b8.toNat
    ⟨(isDigit_bounds _ h1).2, (isDigit_bounds _ h2).2, (isDigit_bounds _ h3).2,
      (isDigit_bounds _ h4).2, (isDigit_bounds _ h5).2, (isDigit_bounds _ h6).2,
      (isDigit_bounds _ h7).2, (isDigit_bounds _ h8).2⟩
    ⟨(isDigit_bounds _ h1).1, (isDigit_bounds _ h2).1, (isDigit_bounds _ h3).1,
      (isDigit_bounds _ h4).1, (isDigit_bounds _ h5).1, (isDigit_bounds _ h6).1,
      (isDigit_bounds _ h7).1, (isDigit_bounds _ h8).1⟩
    ⟨(isDigit_bounds _ g1).2, (isDigit_bounds _ g2).2, (isDigit_bounds _ g3).2,
      (isDigit_bounds _ g4).2, (isDigit_bounds _ g5).2, (isDigit_bounds _ g6).2,
      (isDigit_bounds _ g7).2, (isDigit_bounds _ g8).2⟩
    ⟨(isDigit_bounds _ g1).1, (isDigit_bounds _ g2).1, (isDigit_bounds _ g3).1,
      (isDigit_bounds _ g4).1, (isDigit_bounds _ g5).1, (isDigit_bounds _ g6).1,
      (isDigit_bounds _ g7).1, (isDigit_bounds _ g8).1⟩
  simp only [jsStrLe_cons, jsStrLe, lt_irrefl, if_false]
  exact key

theorem monthKeyFromDate_of_iso (d : List Char) (h : parseIsoDate d ≠ none) :
    monthKeyFromDate d = some (d.take 7) := by
  unfold monthKeyFromDate
  cases hp : parseIsoDate d with
  | none => exact absurd hp h
  | some v => rfl

theorem filterByMonths_eq (months : List (List Char)) (ts : List Transaction)
    (h : ∀ t ∈ ts, parseIsoDate t.date ≠ none) :
    filterByMonths months ts = some (ts.filter fun t => months.contains (t.date.take 7)) := by
  induction ts with
  | nil => rfl
  | cons t ts ih =>
    have ht := monthKeyFromDate_of_iso t.date (h t (by simp))
    have hts := ih (fun t' ht' => h t' (by simp [ht']))
    simp only [filterByMonths, ht, hts, List.filter_cons]

theorem monthLoop_subset (y a b : ℕ) (hab : a ≤ b) :
    monthLoop y a a 1 [] ⊆ monthLoop y b b 1 [] := by
  rw [monthLoop_eq y a a 1 [] (by omega), monthLoop_eq y b b 1 [] (by omega)]
  intro k hk
  simp only [List.nil_append, List.mem_map, List.mem_range] at hk ⊢
  obtain ⟨i, hi, rfl⟩ := hk
  exact ⟨i, by omega, rfl⟩

theorem ytd_subset_yearly (selectedMonth : List Char) (now : JsDate) (ytdM : List (List Char))
    (h : scopeMonths ViewMode.ytd selectedMonth now = some ytdM) :
    ∃ yearlyM, scopeMonths ViewMode.yearly selectedMonth now = some yearlyM ∧
      ytdM ⊆ yearlyM := by
  simp only [scopeMonths, ytdMonths, yearlyMonths] at h ⊢
  split at h
  · rename_i y rest hparts
    simp only [Option.some.injEq] at h
    subst h
    refine ⟨_, rfl, ?_⟩
    apply monthLoop_subset
    have := now.month.isLt
    split_ifs <;> omega
  · exact absurd h (by simp)

/-- Claim C11: under the YTD scope the scoped transactions are those of the
list whose month key is in the YTD month set and whose date is not after today
(the string comparison being the calendar order on ISO dates); under the other
scopes only the month test is applied, whatever today is; a transaction of a YTD
month dated after today is not among the YTD scoped transactions, so that
removing it from the list changes neither them nor any total computed from
them, while it is among the yearly scoped transactions of the same anchor. -/
theorem scopeTransactions_spec (transactions : List Transaction) (selectedMonth : List Char)
    (now : JsDate) (todayISO : List Char) (ytdM : List (List Char))
    (hdates : ∀ t ∈ transactions, parseIsoDate t.date ≠ none)
    (hscope : scopeMonths ViewMode.ytd selectedMonth now = some ytdM) :
    scopeTransactions transactions ytdM ViewMode.ytd todayISO =
      some (transactions.filter fun t =>
        ytdM.contains (t.date.take 7) && jsStrLe t.date todayISO) ∧
    (∀ t ∈ transactions, ∀ d dt, parseIsoDate t.date = some d →
      parseIsoDate todayISO = some dt → (jsStrLe t.date todayISO = true ↔ notAfter d dt)) ∧
    (∀ viewMode months today, viewMode ≠ ViewMode.ytd →
      scopeTransactions transactions months viewMode today =
        some (transactions.filter fun t => months.contains (t.date.take 7))) ∧
    (∃ yearlyM, scopeMonths ViewMode.yearly selectedMonth now = some yearlyM ∧
      ∀ t ∈ transactions, ytdM.contains (t.date.take 7) = true →
        jsStrLe t.date todayISO = false →
        t ∉ (transactions.filter fun t =>
          ytdM.contains (t.date.take 7) && jsStrLe t.date todayISO) ∧
        t ∈ (transactions.filter fun t => yearlyM.contains (t.date.take 7))) ∧
    (∀ pre post t, transactions = pre ++ t :: post → jsStrLe t.date todayISO = false →
      scopeTransactions transactions ytdM ViewMode.ytd todayISO =
        scopeTransactions (pre ++ post) ytdM ViewMode.ytd todayISO) := by
  have hytd : ∀ ts : List Transaction, (∀ t ∈ ts, parseIsoDate t.date ≠ none) →
      scopeTransactions ts ytdM ViewMode.ytd todayISO =
        some (ts.filter fun t => ytdM.contains (t.date.take 7) && jsStrLe t.date todayISO) := by
    intro ts hts
    simp only [scopeTransactions, filterByMonths_eq _ _ hts, Option.map_some', if_true,
      List.filter_filter, Bool.and_comm]
  refine ⟨hytd _ hdates, ?_, ?_, ?_, ?_⟩
  · intro t _ d dt hd hdt
    exact jsStrLe_iso _ _ _ _ hd hdt
  · intro viewMode months today hne
    simp only [scopeTransactions, filterByMonths_eq _ _ hdates, Option.map_some', if_neg hne]
  · obtain ⟨yearlyM, hy, hsub⟩ := ytd_subset_yearly selectedMonth now ytdM hscope
    refine ⟨yearlyM, hy, ?_⟩
    intro t ht hin hafter
    constructor
    · simp [hafter]
    · have hmem : t.date.take 7 ∈ yearlyM := hsub (by simpa using hin)
      simp only [List.mem_filter]
      exact ⟨ht, by simpa using hmem⟩
  · intro pre post t htx hafter
    subst htx
    have hpp : ∀ t' ∈ pre ++ post, parseIsoDate t'.date ≠ none := by
      intro t' ht'
      apply hdates
      simp only [List.mem_append, List.mem_cons] at ht' ⊢
      tauto
    rw [hytd _ hdates, hytd _ hpp]
    simp [List.filter_append, List.filter_cons, hafter]

/-! ## Objects as maps -/

theorem foldl_add_eq (l : List ℚ) (a : ℚ) : l.foldl (fun s v => s + v) a = a + l.sum := by
  induction l generalizing a with
  | nil => simp
  | cons x xs ih => simp only [List.foldl_cons, List.sum_cons, ih]; ring

theorem objTotal_eq_sum (o : JsObject ℚ) : objTotal o = (o.map Prod.snd).sum := by
  simp [objTotal, foldl_add_eq]

theorem objTotal_cons (p : List Char × ℚ) (o : JsObject ℚ) :
    objTotal (p :: o) = p.2 + objTotal o := by
  simp [objTotal_eq_sum]

theorem objGet_objSet {α : Type} (o : JsObject α) (k k' : List Char) (v : α) :
    objGet (objSet o k v) k' = if k = k' then some v else objGet o k' := by
  induction o with
  | nil =>
    simp only [objSet, objGet]
  | cons p rest ih =>
    obtain ⟨k0, v0⟩ := p
    simp only [objSet]
    by_cases h0 : k0 = k
    · subst h0
      simp only [if_true, objGet]
      split_ifs <;> rfl
    · simp only [if_neg h0, objGet, ih]
      by_cases h1 : k0 = k'
      · have : k ≠ k' := fun hk => h0 (h1.trans hk.symm)
        simp [h1, this]
      · simp [h1]

theorem objTotal_objSet (o : JsObject ℚ) (k : List Char) (v : ℚ) :
    objTotal (objSet o k v) = objTotal o - (objGet o k).getD 0 + v := by
  induction o with
  | nil => simp [objSet, objGet, objTotal]
  | cons p rest ih =>
    obtain ⟨k0, v0⟩ := p
    simp only [objSet, objGet]
    by_cases h0 : k0 = k
    · simp only [if_pos h0, objTotal_cons, Option.getD_some]
      ring
    · simp only [if_neg h0, objTotal_cons, ih]
      ring

theorem objGetOrZero_eq (o : JsObject ℚ) (k : List Char) :
    objGetOrZero o k = (objGet o k).getD 0 := by
  unfold objGetOrZero
  cases objGet o k with
  | none => rfl
  | some v => simp [numOr_zero]

theorem zeroFold_get (cats : List (List Char)) (o : JsObject ℚ) (c : List Char) :
    objGet (cats.foldl (fun map c => objSet map c 0) o) c =
      if c ∈ cats then some 0 else objGet o c := by
  induction cats generalizing o with
  | nil => simp
  | cons c0 cs ih =>
    simp only [List.foldl_cons, ih, objGet_objSet, List.mem_cons]
    by_cases h1 : c ∈ cs
    · simp [h1]
    · by_cases h2 : c0 = c
      · simp [h2]
      · have : ¬ c = c0 := fun h => h2 h.symm
        simp [h1, h2, this]

theorem zeroFold_total (cats : List (List Char)) (o : JsObject ℚ)
    (ho : ∀ k, (objGet o k).getD 0 = 0) :
    objTotal (cats.foldl (fun map c => objSet map c 0) o) = objTotal o := by
  induction cats generalizing o with
  | nil => rfl
  | cons c0 cs ih =>
    simp only [List.foldl_cons]
    rw [ih, objTotal_objSet, ho]
    · ring
    · intro k
      rw [objGet_objSet]
      split_ifs
      · rfl
      · exact ho k

theorem zeroMap_get (cats : List (List Char)) (c : List Char) :
    objGet (zeroMap cats) c = if c ∈ cats then some 0 else none := by
  simp [zeroMap, zeroFold_get, objGet]

theorem zeroMap_total (cats : List (List Char)) : objTotal (zeroMap cats) = 0 := by
  unfold zeroMap
  rw [zeroFold_total]
  · rfl
  · intro k; rfl

/-! ## Actual totals by category -/

theorem bumpFold_get (ts : List Transaction) (m : JsObject ℚ) (c : List Char) :
    objGet (ts.foldl
        (fun map t => objSet map t.category (objGetOrZero map t.category + t.amount)) m) c =
      if (objGet m c).isSome ∨ ∃ t ∈ ts, t.category = c then
        some ((objGet m c).getD 0 + ((ts.filter fun t => t.category = c).map
          fun t => t.amount).sum)
      else none := by
  induction ts generalizing m with
  | nil =>
    cases h : objGet m c <;> simp [h]
  | cons t ts ih =>
    rw [List.foldl_cons, ih]
    simp only [objGet_objSet, objGetOrZero_eq]
    by_cases hc : t.category = c
    · subst hc
      simp [List.filter_cons, add_assoc]
    · have hc' : ¬ (c = t.category) := fun h => hc h.symm
      simp [hc, List.filter_cons]

theorem bumpFold_total (ts : List Transaction) (m : JsObject ℚ) :
    objTotal (ts.foldl
        (fun map t => objSet map t.category (objGetOrZero map t.category + t.amount)) m) =
      objTotal m + (ts.map fun t => t.amount).sum := by
  induction ts generalizing m with
  | nil => simp
  | cons t ts ih =>
    rw [List.foldl_cons, ih]
    simp only [objTotal_objSet, objGetOrZero_eq, List.map_cons, List.sum_cons]
    ring

theorem actualByCat_get (cats : List (List Char)) (type : List Char) (ts : List Transaction)
    (c : List Char) :
    objGet (actualByCat cats type ts) c =
      if c ∈ cats ∨ ∃ t ∈ ts, t.type = type ∧ t.category = c then
        some (amountSum type (some c) ts)
      else none := by
  unfold actualByCat amountSum
  rw [bumpFold_get, zeroMap_get]
  have hsum : ((List.filter (fun t => decide (t.category = c))
        (List.filter (fun t => decide (t.type = type)) ts)).map fun t => t.amount).sum =
      ((ts.filter fun t => t.type = type ∧ (some c = none ∨ some c = some t.category)).map
        fun t => t.amount).sum := by
    rw [List.filter_filter]
    congr 2
    apply List.filter_congr
    intro t _
    simp only [Option.some.injEq, reduceCtorEq, false_or, Bool.and_eq_true,
      decide_eq_true_eq]
    have hcomm : (c = t.category) ↔ (t.category = c) := eq_comm
    simp only [hcomm, Bool.decide_and, Bool.and_comm]
  rw [hsum]
  by_cases hc : c ∈ cats
  · simp [hc]
  · simp [hc, and_assoc]

theorem actualByCat_total (cats : List (List Char)) (type : List Char)
    (ts : List Transaction) :
    objTotal (actualByCat cats type ts) = amountSum type none ts := by
  unfold actualByCat amountSum
  rw [bumpFold_total, zeroMap_total, zero_add]
  have h : ts.filter (fun t => decide (t.type = type)) =
      ts.filter (fun t => decide (t.type = type ∧ ((none : Option (List Char)) = none ∨
        none = some t.category))) :=
    List.filter_congr (fun t _ => by simp)
  rw [h]

/-- Claim C12: `actualIncomeByCat` holds a key `c` exactly when `c` is a preset
income category or a scoped income transaction carries it, and then maps it to
the sum of the amounts of the scoped income transactions of category `c`; the
same holds for `actualExpenseByCat` with the expense transactions and presets;
`totalActualIncome` and `totalActualExpense` are the sums of the amounts of all
scoped income and expense transactions. -/
theorem actual_by_category_spec (txs : List Transaction) (c : List Char) :
    objGet (actualIncomeByCat txs) c =
      (if c ∈ INCOME_CATEGORIES ∨
          ∃ t ∈ txs, t.type = "income".toList ∧ t.category = c then
        some (amountSum "income".toList (some c) txs)
      else none) ∧
    objGet (actualExpenseByCat txs) c =
      (if c ∈ EXPENSE_CATEGORIES ∨
          ∃ t ∈ txs, t.type = "expense".toList ∧ t.category = c then
        some (amountSum "expense".toList (some c) txs)
      else none) ∧
    totalActualIncome txs = amountSum "income".toList none txs ∧
    totalActualExpense txs = amountSum "expense".toList none txs :=
  ⟨actualByCat_get _ _ _ _, actualByCat_get _ _ _ _, actualByCat_total _ _ _,
    actualByCat_total _ _ _⟩

/-! ## Planned totals -/

theorem objGet_eq_entrySum (o : JsObject ℚ) (h : KeysDistinct o) (c : List Char) :
    (objGet o c).getD 0 = ((o.filter fun kv => kv.1 = c).map Prod.snd).sum := by
  induction o with
  | nil => rfl
  | cons kv rest ih =>
    obtain ⟨k, v⟩ := kv
    have hnd : (List.map Prod.fst rest).Nodup ∧ k ∉ List.map Prod.fst rest := by
      unfold KeysDistinct at h
      simp only [List.map_cons, List.nodup_cons] at h
      exact ⟨h.2, h.1⟩
    simp only [objGet, List.filter_cons]
    by_cases hk : k = c
    · subst hk
      have hnone : rest.filter (fun kv => decide (kv.1 = k)) = [] := by
        rw [List.filter_eq_nil_iff]
        intro kv hkv
        have : kv.1 ≠ k := fun he => hnd.2 (he ▸ List.mem_map_of_mem Prod.fst hkv)
        simp [this]
      simp [hnone]
    · simp only [hk, if_false, decide_False, Bool.false_eq_true]
      exact ih hnd.1

theorem addEntries_fst (entries : JsObject ℚ) (acc : ℚ × JsObject ℚ) :
    (addEntries acc entries).1 = acc.1 + (entries.map Prod.snd).sum := by
  unfold addEntries
  induction entries generalizing acc with
  | nil => simp
  | cons cv rest ih =>
    rw [List.foldl_cons, ih]
    simp only [numOr_zero, List.map_cons, List.sum_cons]
    ring

theorem addEntries_total (entries : JsObject ℚ) (acc : ℚ × JsObject ℚ) :
    objTotal (addEntries acc entries).2 = objTotal acc.2 + (entries.map Prod.snd).sum := by
  unfold addEntries
  induction entries generalizing acc with
  | nil => simp
  | cons cv rest ih =>
    rw [List.foldl_cons, ih]
    simp only [numOr_zero, List.map_cons, List.sum_cons, objTotal_objSet, objGetOrZero_eq]
    ring

theorem addEntries_get (entries : JsObject ℚ) (acc : ℚ × JsObject ℚ) (c : List Char) :
    (objGet (addEntries acc entries).2 c).getD 0 =
      (objGet acc.2 c).getD 0 + ((entries.filter fun kv => kv.1 = c).map Prod.snd).sum := by
  unfold addEntries
  induction entries generalizing acc with
  | nil => simp
  | cons cv rest ih =>
    rw [List.foldl_cons, ih]
    simp only [numOr_zero, objGet_objSet, objGetOrZero_eq, List.filter_cons]
    by_cases hc : cv.1 = c
    · subst hc
      simp [add_assoc]
    · simp [hc]

theorem addEntries_snd_congr (entries : JsObject ℚ) (a b : ℚ) (m : JsObject ℚ) :
    (addEntries (a, m) entries).2 = (addEntries (b, m) entries).2 := by
  unfold addEntries
  induction entries generalizing a b m with
  | nil => rfl
  | cons cv rest ih =>
    simp only [List.foldl_cons]
    exact ih _ _ _

theorem addExtras_fst (extras : List ExtraEntry) (acc : ℚ × ℚ) :
    (addExtras acc extras).1 = acc.1 +
      ((extras.filter fun e => e.type = "income".toList).map fun e => e.amount).sum := by
  unfold addExtras
  generalize "income".toList = ty
  induction extras generalizing acc with
  | nil => simp
  | cons e rest ih =>
    rw [List.foldl_cons, ih]
    by_cases he : e.type = ty
    · simp [he, numOr_zero, List.filter_cons, add_assoc]
    · simp [he, List.filter_cons]

theorem addExtras_snd (extras : List ExtraEntry) (acc : ℚ × ℚ) :
    (addExtras acc extras).2 = acc.2 +
      ((extras.filter fun e => e.type ≠ "income".toList).map fun e => e.amount).sum := by
  unfold addExtras
  generalize "income".toList = ty
  induction extras generalizing acc with
  | nil => simp
  | cons e rest ih =>
    rw [List.foldl_cons, ih]
    by_cases he : e.type = ty
    · simp [he, List.filter_cons]
    · simp [he, numOr_zero, List.filter_cons, add_assoc]

theorem plannedFold_spec (months : List (List Char)) (bp : JsObject Plan) (acc : PlannedTotals) :
    let r := months.foldl
      (fun acc mk =>
        match objGet bp mk with
        | none => acc
        | some p =>
          let inc := addEntries (acc.totalPlannedIncome, acc.plannedIncomeByCat) p.income
          let exp := addEntries (acc.totalPlannedExpense, acc.plannedExpenseByCat) p.expense
          let tot := addExtras (inc.1, exp.1) p.extras
          { totalPlannedIncome := tot.1
            totalPlannedExpense := tot.2
            plannedIncomeByCat := inc.2
            plannedExpenseByCat := exp.2 })
      acc
    (∀ c, (objGet r.plannedIncomeByCat c).getD 0 = (objGet acc.plannedIncomeByCat c).getD 0 +
      ((plansInScope months bp).map fun p =>
        ((p.income.filter fun kv => kv.1 = c).map Prod.snd).sum).sum) ∧
    (∀ c, (objGet r.plannedExpenseByCat c).getD 0 =
      (objGet acc.plannedExpenseByCat c).getD 0 +
      ((plansInScope months bp).map fun p =>
        ((p.expense.filter fun kv => kv.1 = c).map Prod.snd).sum).sum) ∧
    objTotal r.plannedIncomeByCat = objTotal acc.plannedIncomeByCat +
      ((plansInScope months bp).map fun p => (p.income.map Prod.snd).sum).sum ∧
    objTotal r.plannedExpenseByCat = objTotal acc.plannedExpenseByCat +
      ((plansInScope months bp).map fun p => (p.expense.map Prod.snd).sum).sum ∧
    r.totalPlannedIncome = acc.totalPlannedIncome +
      ((plansInScope months bp).map fun p => (p.income.map Prod.snd).sum
        + extrasSum (fun e => e.type = "income".toList) p).sum ∧
    r.totalPlannedExpense = acc.totalPlannedExpense +
      ((plansInScope months bp).map fun p => (p.expense.map Prod.snd).sum
        + extrasSum (fun e => e.type ≠ "income".toList) p).sum := by
  induction months generalizing acc with
  | nil => simp [plansInScope]
  | cons mk rest ih =>
    simp only [List.foldl_cons]
    cases hp : objGet bp mk with
    | none =>
      have hs : plansInScope (mk :: rest) bp = plansInScope rest bp := by
        simp [plansInScope, List.filterMap_cons, hp]
      simp only [hs]
      exact ih acc
    | some p =>
      have hs : plansInScope (mk :: rest) bp = p :: plansInScope rest bp := by
        simp [plansInScope, List.filterMap_cons, hp]
      simp only [hs, List.map_cons, List.sum_cons]
      obtain ⟨h1, h2, h3, h4, h5, h6⟩ := ih
        { totalPlannedIncome :=
            (addExtras ((addEntries (acc.totalPlannedIncome, acc.plannedIncomeByCat) p.income).1,
              (addEntries (acc.totalPlannedExpense, acc.plannedExpenseByCat) p.expense).1)
              p.extras).1
          totalPlannedExpense :=
            (addExtras ((addEntries (acc.totalPlannedIncome, acc.plannedIncomeByCat) p.income).1,
              (addEntries (acc.totalPlannedExpense, acc.plannedExpenseByCat) p.expense).1)
              p.extras).2
          plannedIncomeByCat :=
            (addEntries (acc.totalPlannedIncome, acc.plannedIncomeByCat) p.income).2
          plannedExpenseByCat :=
            (addEntries (acc.totalPlannedExpense, acc.plannedExpenseByCat) p.expense).2 }
      refine ⟨?_, ?_, ?_, ?_, ?_, ?_⟩
      · intro c; rw [h1 c, addEntries_get]; ring
      · intro c; rw [h2 c, addEntries_get]; ring
      · rw [h3, addEntries_total]; ring
      · rw [h4, addEntries_total]; ring
      · rw [h5, addExtras_fst]; simp only [extrasSum, addEntries_fst]; ring
      · rw [h6, addExtras_snd]; simp only [extrasSum, addEntries_fst]; ring

theorem objGet_withoutExtras (bp : JsObject Plan) (mk : List Char) :
    objGet (withoutExtras bp) mk = (objGet bp mk).map fun p => { p with extras := [] } := by
  induction bp with
  | nil => rfl
  | cons kp rest ih =>
    obtain ⟨k, p⟩ := kp
    simp only [withoutExtras, List.map_cons, objGet]
    split_ifs
    · rfl
    · exact ih

theorem plannedFold_cats (months : List (List Char)) (bp : JsObject Plan)
    (acc acc' : PlannedTotals) (hi : acc.plannedIncomeByCat = acc'.plannedIncomeByCat)
    (he : acc.plannedExpenseByCat = acc'.plannedExpenseByCat) :
    let step := fun (bp : JsObject Plan) (acc : PlannedTotals) (mk : List Char) =>
      match objGet bp mk with
      | none => acc
      | some p =>
        let inc := addEntries (acc.totalPlannedIncome, acc.plannedIncomeByCat) p.income
        let exp := addEntries (acc.totalPlannedExpense, acc.plannedExpenseByCat) p.expense
        let tot := addExtras (inc.1, exp.1) p.extras
        ({ totalPlannedIncome := tot.1
           totalPlannedExpense := tot.2
           plannedIncomeByCat := inc.2
           plannedExpenseByCat := exp.2 } : PlannedTotals)
    (months.foldl (step (withoutExtras bp)) acc').plannedIncomeByCat =
        (months.foldl (step bp) acc).plannedIncomeByCat ∧
      (months.foldl (step (withoutExtras bp)) acc').plannedExpenseByCat =
        (months.foldl (step bp) acc).plannedExpenseByCat := by
  intro step
  induction months generalizing acc acc' with
  | nil => exact ⟨hi.symm, he.symm⟩
  | cons mk rest ih =>
    simp only [List.foldl_cons]
    apply ih
    · simp only [step, objGet_withoutExtras]
      cases objGet bp mk with
      | none => exact hi
      | some p =>
        simp only [Option.map_some']
        rw [hi]
        exact addEntries_snd_congr _ _ _ _
    · simp only [step, objGet_withoutExtras]
      cases objGet bp mk with
      | none => exact he
      | some p =>
        simp only [Option.map_some']
        rw [he]
        exact addEntries_snd_congr _ _ _ _

/-- Claim C13: the planned amount of a category is the sum of the plans'
amounts of that category over the months in scope that have a plan, and is the
same when all extras are removed; `totalPlannedIncome` is the sum of the values
of `plannedIncomeByCat` plus the amounts of the extras of type income of those
plans, and `totalPlannedExpense` is the sum of the values of
`plannedExpenseByCat` plus the amounts of the extras of type expense, every extra
having type income or expense as in the data model; in the code these are the
extras of every type other than income. -/
theorem planned_totals_spec (scopeMonths : List (List Char)) (budgetPlans : JsObject Plan)
    (hkeys : ∀ p ∈ plansInScope scopeMonths budgetPlans,
      KeysDistinct p.income ∧ KeysDistinct p.expense) :
    (∀ c, (objGet (plannedTotals scopeMonths budgetPlans).plannedIncomeByCat c).getD 0 =
      ((plansInScope scopeMonths budgetPlans).map fun p => (objGet p.income c).getD 0).sum) ∧
    (∀ c, (objGet (plannedTotals scopeMonths budgetPlans).plannedExpenseByCat c).getD 0 =
      ((plansInScope scopeMonths budgetPlans).map fun p => (objGet p.expense c).getD 0).sum) ∧
    (plannedTotals scopeMonths (withoutExtras budgetPlans)).plannedIncomeByCat =
      (plannedTotals scopeMonths budgetPlans).plannedIncomeByCat ∧
    (plannedTotals scopeMonths (withoutExtras budgetPlans)).plannedExpenseByCat =
      (plannedTotals scopeMonths budgetPlans).plannedExpenseByCat ∧
    (plannedTotals scopeMonths budgetPlans).totalPlannedIncome =
      objTotal (plannedTotals scopeMonths budgetPlans).plannedIncomeByCat +
        ((plansInScope scopeMonths budgetPlans).map
          (extrasSum fun e => e.type = "income".toList)).sum ∧
    (plannedTotals scopeMonths budgetPlans).totalPlannedExpense =
      objTotal (plannedTotals scopeMonths budgetPlans).plannedExpenseByCat +
        ((plansInScope scopeMonths budgetPlans).map
          (extrasSum fun e => e.type ≠ "income".toList)).sum ∧
    ((∀ p ∈ plansInScope scopeMonths budgetPlans, ∀ e ∈ p.extras,
        e.type = "income".toList ∨ e.type = "expense".toList) →
      (plannedTotals scopeMonths budgetPlans).totalPlannedExpense =
        objTotal (plannedTotals scopeMonths budgetPlans).plannedExpenseByCat +
          ((plansInScope scopeMonths budgetPlans).map
            (extrasSum fun e => e.type = "expense".toList)).sum) := by
  obtain ⟨h1, h2, h3, h4, h5, h6⟩ := plannedFold_spec scopeMonths budgetPlans
    { totalPlannedIncome := 0
      totalPlannedExpense := 0
      plannedIncomeByCat := zeroMap INCOME_CATEGORIES
      plannedExpenseByCat := zeroMap EXPENSE_CATEGORIES }
  have hcats := plannedFold_cats scopeMonths budgetPlans
    { totalPlannedIncome := 0
      totalPlannedExpense := 0
      plannedIncomeByCat := zeroMap INCOME_CATEGORIES
      plannedExpenseByCat := zeroMap EXPENSE_CATEGORIES }
    { totalPlannedIncome := 0
      totalPlannedExpense := 0
      plannedIncomeByCat := zeroMap INCOME_CATEGORIES
      plannedExpenseByCat := zeroMap EXPENSE_CATEGORIES } rfl rfl
  have hz : ∀ cats c, (objGet (zeroMap cats) c).getD 0 = 0 := by
    intro cats c
    rw [zeroMap_get]
    split_ifs <;> rfl
  have hsum : ∀ f g : Plan → ℚ,
      ((plansInScope scopeMonths budgetPlans).map fun p => f p + g p).sum =
        ((plansInScope scopeMonths budgetPlans).map f).sum +
          ((plansInScope scopeMonths budgetPlans).map g).sum := by
    intro f g
    induction plansInScope scopeMonths budgetPlans with
    | nil => simp
    | cons p ps ih => simp only [List.map_cons, List.sum_cons, ih]; ring
  have h6' : (plannedTotals scopeMonths budgetPlans).totalPlannedExpense =
      objTotal (plannedTotals scopeMonths budgetPlans).plannedExpenseByCat +
        ((plansInScope scopeMonths budgetPlans).map
          (extrasSum fun e => e.type ≠ "income".toList)).sum := by
    show (plannedTotals scopeMonths budgetPlans).totalPlannedExpense =
      objTotal (plannedTotals scopeMonths budgetPlans).plannedExpenseByCat + _
    unfold plannedTotals
    rw [h6, h4, hsum, zeroMap_total]
    ring
  refine ⟨?_, ?_, hcats.1, hcats.2, ?_, h6', ?_⟩
  · intro c
    unfold plannedTotals
    rw [h1 c, hz, zero_add]
    congr 1
    apply List.map_congr_left
    intro p hp
    exact (objGet_eq_entrySum _ (hkeys p hp).1 c).symm
  · intro c
    unfold plannedTotals
    rw [h2 c, hz, zero_add]
    congr 1
    apply List.map_congr_left
    intro p hp
    exact (objGet_eq_entrySum _ (hkeys p hp).2 c).symm
  · unfold plannedTotals
    rw [h5, h3, hsum, zeroMap_total]
    ring
  · intro htypes
    rw [h6']
    congr 2
    apply List.map_congr_left
    intro p hp
    unfold extrasSum
    congr 2
    apply List.filter_congr
    intro e he
    rcases htypes p hp e he with h | h
    · simp [h]
    · simp [h]

/-! ## Variance rows and the pie -/

/-- Claim C14: for non-negative amounts an expense row has
`variance = planned - actual` and is `over` exactly when `actual > planned` and
`planned > 0`; an income row has `variance = actual - planned` and is `under`
exactly when `actual < planned` and `planned > 0`; with `planned = 0` neither
flag is set, whatever `actual` is. -/
theorem variance_rows_spec (planned actual : ℚ) (_hp : 0 ≤ planned) (_ha : 0 ≤ actual) :
    (expenseVarianceRow planned actual).variance = planned - actual ∧
    ((expenseVarianceRow planned actual).over = true ↔ (actual > planned ∧ planned > 0)) ∧
    (incomeVarianceRow planned actual).variance = actual - planned ∧
    ((incomeVarianceRow planned actual).under = true ↔ (actual < planned ∧ planned > 0)) ∧
    (planned = 0 → (expenseVarianceRow planned actual).over = false ∧
      (incomeVarianceRow planned actual).under = false) := by
  refine ⟨rfl, ?_, rfl, ?_, ?_⟩
  · simp [expenseVarianceRow]
  · simp [incomeVarianceRow]
  · intro h0
    simp [expenseVarianceRow, incomeVarianceRow, h0]

theorem foldl_snd_eq_sum (l : List (List Char × ℚ)) (a : ℚ) :
    l.foldl (fun s kv => s + kv.2) a = a + (l.map Prod.snd).sum := by
  induction l generalizing a with
  | nil => simp
  | cons x xs ih => simp only [List.foldl_cons, List.map_cons, List.sum_cons, ih]; ring

/-- Claim C15: the entries `E` of the pie are the entries of the map with a
positive amount, in descending order of amount; with at most 5 of them
`buildTop4Pie` returns `E`, otherwise the first 4 of `E` followed by `Others`
with the sum of the remaining amounts; with 7 of them the result has 5 entries,
the 5th being `Others` with the sum of the amounts ranked 5 to 7. -/
theorem buildTop4Pie_spec (actualByCat : JsObject ℚ) :
    (pieEntries actualByCat).Perm (actualByCat.filter fun kv => kv.2 > 0) ∧
    (pieEntries actualByCat).Sorted (fun a b => a.2 ≥ b.2) ∧
    ((pieEntries actualByCat).length ≤ 5 → buildTop4Pie actualByCat = pieEntries actualByCat) ∧
    (5 < (pieEntries actualByCat).length →
      buildTop4Pie actualByCat = (pieEntries actualByCat).take 4 ++
        [("Others".toList, (((pieEntries actualByCat).drop 4).map Prod.snd).sum)]) ∧
    ((pieEntries actualByCat).length = 7 →
      (buildTop4Pie actualByCat).length = 5 ∧
      (buildTop4Pie actualByCat).get? 4 = some ("Others".toList,
        ((pieEntries actualByCat).getD 4 ([], 0)).2 + ((pieEntries actualByCat).getD 5 ([], 0)).2
          + ((pieEntries actualByCat).getD 6 ([], 0)).2)) := by
  haveI : IsTotal (List Char × ℚ) (fun a b => a.2 ≥ b.2) := ⟨fun a b => le_total b.2 a.2⟩
  haveI : IsTrans (List Char × ℚ) (fun a b => a.2 ≥ b.2) :=
    ⟨fun a b c hab hbc => le_trans hbc hab⟩
  have hgt : ∀ E : JsObject ℚ, 5 < E.length →
      (if E.length ≤ 5 then E
        else E.take 4 ++ [("Others".toList, (E.drop 4).foldl (fun s kv => s + kv.2) 0)]) =
      E.take 4 ++ [("Others".toList, ((E.drop 4).map Prod.snd).sum)] := by
    intro E hE
    rw [if_neg (by omega), foldl_snd_eq_sum, zero_add]
  refine ⟨List.perm_insertionSort _ _, List.sorted_insertionSort _ _, ?_, ?_, ?_⟩
  · intro h
    simp only [buildTop4Pie, if_pos h]
  · intro h
    simp only [buildTop4Pie]
    exact hgt _ h
  · intro h
    simp only [buildTop4Pie]
    rw [hgt _ (by omega)]
    generalize pieEntries actualByCat = E at h
    match E, h with
    | [e1, e2, e3, e4, e5, e6, e7], _ =>
      simp
      ring

/-! ## Budget plans -/

/-- Claim C20: `createEmptyPlan` has `locked = false`, no extras, an income map
whose keys are exactly the 7 preset income categories and an expense map whose
keys are exactly the 12 preset expense categories, every value being 0; the
`empty()` of `createDefaultPlans` in `App.jsx` returns the same plan. -/
theorem createEmptyPlan_spec :
    createEmptyPlan.locked = some false ∧
    createEmptyPlan.extras = [] ∧
    createEmptyPlan.income.map Prod.fst = INCOME_CATEGORIES ∧
    INCOME_CATEGORIES.length = 7 ∧ INCOME_CATEGORIES.Nodup ∧
    (∀ c, objGet createEmptyPlan.income c = if c ∈ INCOME_CATEGORIES then some 0 else none) ∧
    createEmptyPlan.expense.map Prod.fst = EXPENSE_CATEGORIES ∧
    EXPENSE_CATEGORIES.length = 12 ∧ EXPENSE_CATEGORIES.Nodup ∧
    (∀ c, objGet createEmptyPlan.expense c =
      if c ∈ EXPENSE_CATEGORIES then some 0 else none) ∧
    createDefaultPlansEmpty = createEmptyPlan ∧
    (∀ y k p, objGet (createDefaultPlans y) k = some p → p = createEmptyPlan) := by
  refine ⟨rfl, rfl, by decide, rfl, by decide, fun c => zeroMap_get _ c, by decide, rfl,
    by decide, fun c => zeroMap_get _ c, rfl, ?_⟩
  intro y k p h
  simp only [createDefaultPlans, objGet_objSet, objGet] at h
  split_ifs at h <;> simp_all [createDefaultPlansEmpty, createEmptyPlan]

theorem updatePlan_get (activeMonth : List Char) (updater : Plan → Plan)
    (prev : JsObject Plan) (k : List Char) :
    objGet (updatePlan activeMonth updater prev) k =
      if activeMonth = k then some (updater ((objGet prev activeMonth).getD createEmptyPlan))
      else objGet prev k := by
  simp only [updatePlan, objGet_objSet]

theorem setIncomeCategory_eq (activeMonth cat text : List Char) (prev : JsObject Plan)
    (num : ℚ) (h : parseBudgetAmount text = some num) :
    setIncomeCategory activeMonth cat text prev =
      some (updatePlan activeMonth (incomeUpdater cat num) prev) := by
  simp only [setIncomeCategory, h, Option.map_some']

theorem setExpenseCategory_eq (activeMonth cat text : List Char) (prev : JsObject Plan)
    (num : ℚ) (h : parseBudgetAmount text = some num) :
    setExpenseCategory activeMonth cat text prev =
      some (updatePlan activeMonth (expenseUpdater cat num) prev) := by
  simp only [setExpenseCategory, h, Option.map_some']

theorem updatePlan_get_self (activeMonth : List Char) (updater : Plan → Plan)
    (prev : JsObject Plan) :
    objGet (updatePlan activeMonth updater prev) activeMonth =
      some (updater ((objGet prev activeMonth).getD createEmptyPlan)) := by
  rw [updatePlan_get, if_pos rfl]

theorem incomeUpdater_get (cat : List Char) (num : ℚ) (p : Plan) :
    objGet (incomeUpdater cat num p).income cat = some num := by
  simp [incomeUpdater, objGet_objSet]

theorem expenseUpdater_get (cat : List Char) (num : ℚ) (p : Plan) :
    objGet (expenseUpdater cat num p).expense cat = some num := by
  simp [expenseUpdater, objGet_objSet]

/-- Claim C17: the plan written by `setIncomeCategory` (`setExpenseCategory`)
differs from the plan it was applied to at most in the amount of that category
of the income (expense) section: `locked`, `extras`, the other section and every
other category of the same section are the same, and so is the plan of every
other month. -/
theorem setCategory_frame (activeMonth cat text : List Char) (prev : JsObject Plan) (num : ℚ)
    (hparse : parseBudgetAmount text = some num) :
    (∃ result q, setIncomeCategory activeMonth cat text prev = some result ∧
      objGet result activeMonth = some q ∧
      q.locked = ((objGet prev activeMonth).getD createEmptyPlan).locked ∧
      q.extras = ((objGet prev activeMonth).getD createEmptyPlan).extras ∧
      q.expense = ((objGet prev activeMonth).getD createEmptyPlan).expense ∧
      objGet q.income cat = some num ∧
      (∀ c, c ≠ cat → objGet q.income c =
        objGet ((objGet prev activeMonth).getD createEmptyPlan).income c) ∧
      (∀ k, k ≠ activeMonth → objGet result k = objGet prev k)) ∧
    (∃ result q, setExpenseCategory activeMonth cat text prev = some result ∧
      objGet result activeMonth = some q ∧
      q.locked = ((objGet prev activeMonth).getD createEmptyPlan).locked ∧
      q.extras = ((objGet prev activeMonth).getD createEmptyPlan).extras ∧
      q.income = ((objGet prev activeMonth).getD createEmptyPlan).income ∧
      objGet q.expense cat = some num ∧
      (∀ c, c ≠ cat → objGet q.expense c =
        objGet ((objGet prev activeMonth).getD createEmptyPlan).expense c) ∧
      (∀ k, k ≠ activeMonth → objGet result k = objGet prev k)) := by
  constructor
  · refine ⟨updatePlan activeMonth (incomeUpdater cat num) prev,
      incomeUpdater cat num ((objGet prev activeMonth).getD createEmptyPlan), ?_, ?_, rfl, rfl,
      rfl, ?_, ?_, ?_⟩
    · exact setIncomeCategory_eq _ _ _ _ _ hparse
    · exact updatePlan_get_self _ _ _
    · exact incomeUpdater_get _ _ _
    · intro c hc
      simp [incomeUpdater, objGet_objSet, Ne.symm hc]
    · intro k hk
      rw [updatePlan_get, if_neg (Ne.symm hk)]
  · refine ⟨updatePlan activeMonth (expenseUpdater cat num) prev,
      expenseUpdater cat num ((objGet prev activeMonth).getD createEmptyPlan), ?_, ?_, rfl, rfl,
      rfl, ?_, ?_, ?_⟩
    · exact setExpenseCategory_eq _ _ _ _ _ hparse
    · exact updatePlan_get_self _ _ _
    · exact expenseUpdater_get _ _ _
    · intro c hc
      simp [expenseUpdater, objGet_objSet, Ne.symm hc]
    · intro k hk
      rw [updatePlan_get, if_neg (Ne.symm hk)]

/-- Claim C16, as amended: on a locked plan the two amount fields are disabled,
so input to them leaves the plans as they are; the handlers themselves do not
test `locked`: called on a locked plan they store the parsed amount and keep the
plan locked. -/
theorem locked_fields_disabled (activeMonth cat text : List Char) (budgetPlans : JsObject Plan)
    (hlocked : ((objGet budgetPlans activeMonth).getD createEmptyPlan).locked = some true) :
    incomeFieldInput activeMonth cat text budgetPlans = some budgetPlans ∧
    expenseFieldInput activeMonth cat text budgetPlans = some budgetPlans ∧
    (∀ num, parseBudgetAmount text = some num →
      (∃ result q, setIncomeCategory activeMonth cat text budgetPlans = some result ∧
        objGet result activeMonth = some q ∧ objGet q.income cat = some num ∧
        q.locked = some true) ∧
      (∃ result q, setExpenseCategory activeMonth cat text budgetPlans = some result ∧
        objGet result activeMonth = some q ∧ objGet q.expense cat = some num ∧
        q.locked = some true)) := by
  have hdis : inputsDisabled activeMonth budgetPlans = true := by
    simp [inputsDisabled, hlocked]
  refine ⟨by simp [incomeFieldInput, hdis], by simp [expenseFieldInput, hdis], ?_⟩
  intro num hnum
  exact ⟨⟨_, _, setIncomeCategory_eq _ _ _ _ _ hnum, updatePlan_get_self _ _ _,
      incomeUpdater_get _ _ _, hlocked⟩,
    ⟨_, _, setExpenseCategory_eq _ _ _ _ _ hnum, updatePlan_get_self _ _ _,
      expenseUpdater_get _ _ _, hlocked⟩⟩

/-! ## The amount text of a category -/

theorem parseUnsignedDecimal_chars (s : List Char) (q : ℚ)
    (h : parseUnsignedDecimal s = some q) : ∀ c ∈ s, c.isDigit = true ∨ c = '.' := by
  intro c hc
  rw [← List.takeWhile_append_dropWhile Char.isDigit s, List.mem_append] at hc
  rcases hc with hc | hc
  · exact Or.inl (List.mem_takeWhile_imp hc)
  · unfold parseUnsignedDecimal at h
    simp only at h
    split at h
    · rename_i hd
      rw [hd] at hc
      exact absurd hc (List.not_mem_nil c)
    · rename_i frac hd
      rw [hd] at hc
      split_ifs at h with hf
      rcases List.mem_cons.mp hc with hc | hc
      · exact Or.inr hc
      · exact Or.inl (List.all_eq_true.mp hf.1 c hc)
    · exact absurd h (by simp)

theorem parseSignedDecimal_chars (s : List Char) (q : ℚ)
    (h : parseSignedDecimal s = some q) : ∀ c ∈ s, mayBeInNumeral c = true := by
  have hu : ∀ (r : List Char) (q : ℚ), parseUnsignedDecimal r = some q →
      ∀ c ∈ r, mayBeInNumeral c = true := by
    intro r q hr c hc
    rcases parseUnsignedDecimal_chars r q hr c hc with h1 | h1
    · simp [mayBeInNumeral, h1]
    · subst h1; decide
  unfold parseSignedDecimal at h
  split at h
  · intro c hc
    rcases List.mem_cons.mp hc with hc | hc
    · subst hc; decide
    · exact hu _ _ h c hc
  · intro c hc
    rcases List.mem_cons.mp hc with hc | hc
    · subst hc; decide
    · cases hp : parseUnsignedDecimal _ with
      | none => rw [hp] at h; exact absurd h (by simp)
      | some q' => exact hu _ _ hp c hc
  · exact hu _ _ h

theorem nonnumeric_text_parses_to_zero (text : List Char) (c : Char) (hc : c ∈ text)
    (hcomma : c ≠ ',') (hnum : mayBeInNumeral c = false) :
    parseBudgetAmount text = some 0 := by
  have hmem : c ∈ stripCommas text := by
    simp [stripCommas, List.mem_filter, hc, hcomma]
  have hne : stripCommas text ≠ [] := List.ne_nil_of_mem hmem
  have hparse : parseSignedDecimal (stripCommas text) = none := by
    cases hp : parseSignedDecimal (stripCommas text) with
    | none => rfl
    | some q =>
      have := parseSignedDecimal_chars _ q hp c hmem
      rw [hnum] at this
      exact absurd this (by simp)
  have hall : (stripCommas text).all mayBeInNumeral = false := by
    rw [List.all_eq_false]
    exact ⟨c, hmem, by simp [hnum]⟩
  simp [parseBudgetAmount, jsNumberOfText, hne, hparse, hall]

/-- Claim C18, on the code: the amount text loses its commas only, so `1,250`
stores 1250, while a text with a currency sign or a letter that no numeral
contains is not a number and stores 0, not the number formed by its digits. -/
theorem category_amount_text :
    parseBudgetAmount "1,250".toList = some 1250 ∧
    parseBudgetAmount "₦1250".toList = some 0 ∧
    parseBudgetAmount "1250 naira".toList = some 0 ∧
    parseBudgetAmount "".toList = some 0 ∧
    setIncomeCategory "2024-01".toList "Salary".toList "₦1250".toList
        [("2024-01".toList, incomeUpdater "Salary".toList 1250 createEmptyPlan)] =
      some [("2024-01".toList, createEmptyPlan)] := by
  have h2 : parseBudgetAmount "₦1250".toList = some 0 :=
    nonnumeric_text_parses_to_zero _ '₦' (by decide) (by decide) (by decide)
  refine ⟨?_, h2, nonnumeric_text_parses_to_zero _ 'r' (by decide) (by decide) (by decide),
    ?_, ?_⟩
  · simp [parseBudgetAmount, stripCommas, jsNumberOfText, parseSignedDecimal,
      parseUnsignedDecimal, digitsValue, numOr, List.takeWhile, List.dropWhile]
  · simp [parseBudgetAmount, stripCommas, jsNumberOfText, numOr]
  · simp only [setIncomeCategory, h2, Option.map_some']
    congr 1

/-- Claim C19, on the code: from the empty plan, in which every amount is 0, the
amount text `-5` stores the negative amount -5. -/
theorem negative_amount_stored :
    (∀ kv ∈ createEmptyPlan.income ++ createEmptyPlan.expense, (0 : ℚ) ≤ kv.2) ∧
    parseBudgetAmount "-5".toList = some (-5) ∧
    ∃ result q, setIncomeCategory "2024-01".toList "Salary".toList "-5".toList [] =
        some result ∧
      objGet result "2024-01".toList = some q ∧
      objGet q.income "Salary".toList = some (-5) ∧ (-5 : ℚ) < 0 := by
  have h : parseBudgetAmount "-5".toList = some (-5) := by
    simp [parseBudgetAmount, stripCommas, jsNumberOfText, parseSignedDecimal,
      parseUnsignedDecimal, digitsValue, numOr, List.takeWhile, List.dropWhile]
  refine ⟨?_, h, ?_⟩
  · intro kv hkv
    simp [createEmptyPlan, zeroMap, INCOME_CATEGORIES, EXPENSE_CATEGORIES, objSet] at hkv
    rcases hkv with h | h | h | h | h | h | h | h | h | h | h | h | h | h | h | h | h | h | h <;>
      simp [h]
  · exact ⟨_, _, setIncomeCategory_eq _ _ _ _ _ h, updatePlan_get_self _ _ _,
      incomeUpdater_get _ _ _, by norm_num⟩

/-! ## Instances and evaluations of the dashboard and planner theorems -/

/-- The YTD scope of May 2024 on 15 May 2024, with one transaction of March and
one dated 20 May. -/
theorem scopeTransactions_spec_witness :
    scopeTransactions
        [⟨"a".toList, "2024-03-10".toList, "expense".toList, 100, "Food".toList, [], false, []⟩,
          ⟨"b".toList, "2024-05-20".toList, "expense".toList, 40, "Food".toList, [], false, []⟩]
        ["2024-01".toList, "2024-02".toList, "2024-03".toList, "2024-04".toList,
          "2024-05".toList]
        ViewMode.ytd "2024-05-15".toList =
      some
        ([⟨"a".toList, "2024-03-10".toList, "expense".toList, 100, "Food".toList, [], false, []⟩,
          ⟨"b".toList, "2024-05-20".toList, "expense".toList, 40, "Food".toList, [], false,
            []⟩].filter fun t =>
          ["2024-01".toList, "2024-02".toList, "2024-03".toList, "2024-04".toList,
            "2024-05".toList].contains (t.date.take 7) && jsStrLe t.date "2024-05-15".toList) :=
  (scopeTransactions_spec _ "2024-05".toList ⟨2024, 4⟩ "2024-05-15".toList _
    (by
      intro t ht
      simp only [List.mem_cons, List.mem_singleton, List.not_mem_nil, or_false] at ht
      rcases ht with rfl | rfl <;> decide)
    (by decide)).1

/-- Outside the data model: an extra whose type is neither income nor expense,
which the form of the planner cannot write, has its amount added to
`totalPlannedExpense`. -/
theorem extra_of_other_type_counts_as_expense :
    (plannedTotals ["2024-01".toList]
      [("2024-01".toList, ⟨some true, [("Salary".toList, 10)], [("Food".toList, 4)],
        [⟨[], "other".toList, [], 5, []⟩]⟩)]).totalPlannedExpense = 9 ∧
    objTotal (plannedTotals ["2024-01".toList]
      [("2024-01".toList, ⟨some true, [("Salary".toList, 10)], [("Food".toList, 4)],
        [⟨[], "other".toList, [], 5, []⟩]⟩)]).plannedExpenseByCat
      + ((plansInScope ["2024-01".toList]
          [("2024-01".toList, ⟨some true, [("Salary".toList, 10)], [("Food".toList, 4)],
            [⟨[], "other".toList, [], 5, []⟩]⟩)]).map
          (extrasSum fun e => e.type = "expense".toList)).sum = 4 := by
  constructor
  · simp only [plannedTotals, List.foldl, objGet, addEntries, addExtras, numOr]
    norm_num
  · simp [plannedTotals, objGet, addEntries, addExtras, numOr, plansInScope, extrasSum,
      objTotal, zeroMap, EXPENSE_CATEGORIES, objSet, objGetOrZero]

/-- The planned totals of January 2024 for a plan with one income and one
expense amount and an extra of type expense. -/
theorem planned_totals_spec_witness :
    (plannedTotals ["2024-01".toList]
      [("2024-01".toList, ⟨some true, [("Salary".toList, 10)], [("Food".toList, 4)],
        [⟨[], "expense".toList, [], 5, []⟩]⟩)]).totalPlannedIncome =
      objTotal (plannedTotals ["2024-01".toList]
        [("2024-01".toList, ⟨some true, [("Salary".toList, 10)], [("Food".toList, 4)],
          [⟨[], "expense".toList, [], 5, []⟩]⟩)]).plannedIncomeByCat +
        ((plansInScope ["2024-01".toList]
          [("2024-01".toList, ⟨some true, [("Salary".toList, 10)], [("Food".toList, 4)],
            [⟨[], "expense".toList, [], 5, []⟩]⟩)]).map
          (extrasSum fun e => e.type = "income".toList)).sum ∧
    (plannedTotals ["2024-01".toList]
      [("2024-01".toList, ⟨some true, [("Salary".toList, 10)], [("Food".toList, 4)],
        [⟨[], "expense".toList, [], 5, []⟩]⟩)]).totalPlannedExpense =
      objTotal (plannedTotals ["2024-01".toList]
        [("2024-01".toList, ⟨some true, [("Salary".toList, 10)], [("Food".toList, 4)],
          [⟨[], "expense".toList, [], 5, []⟩]⟩)]).plannedExpenseByCat +
        ((plansInScope ["2024-01".toList]
          [("2024-01".toList, ⟨some true, [("Salary".toList, 10)], [("Food".toList, 4)],
            [⟨[], "expense".toList, [], 5, []⟩]⟩)]).map
          (extrasSum fun e => e.type = "expense".toList)).sum := by
  have hkeys : ∀ p ∈ plansInScope ["2024-01".toList]
      [("2024-01".toList, ⟨some true, [("Salary".toList, 10)], [("Food".toList, 4)],
        [⟨[], "expense".toList, [], 5, []⟩]⟩)],
      KeysDistinct p.income ∧ KeysDistinct p.expense := by
    intro p hp
    simp only [plansInScope, List.filterMap, objGet, if_true, List.mem_singleton] at hp
    subst hp
    exact ⟨by simp [KeysDistinct], by simp [KeysDistinct]⟩
  refine ⟨(planned_totals_spec _ _ hkeys).2.2.2.2.1,
    (planned_totals_spec _ _ hkeys).2.2.2.2.2.2 ?_⟩
  intro p hp e he
  simp only [plansInScope, List.filterMap, objGet, if_true, List.mem_singleton] at hp
  subst hp
  simp only [List.mem_singleton] at he
  subst he
  exact Or.inr rfl

/-- The variance rows at planned 100 and actual 150. -/
theorem variance_rows_spec_witness :
    (expenseVarianceRow 100 150).variance = 100 - 150 ∧
    ((expenseVarianceRow 100 150).over = true ↔ ((150 : ℚ) > 100 ∧ (100 : ℚ) > 0)) :=
  ⟨(variance_rows_spec 100 150 (by norm_num) (by norm_num)).1,
    (variance_rows_spec 100 150 (by norm_num) (by norm_num)).2.1⟩

/-- Claim C16 as stated fails on the handler: on a locked plan
`setIncomeCategory` stores the amount 5 for `Salary`. -/
theorem locked_plan_amount_changed :
    setIncomeCategory "2024-01".toList "Salary".toList "5".toList
        [("2024-01".toList, { createEmptyPlan with locked := some true })] =
      some [("2024-01".toList,
        incomeUpdater "Salary".toList 5 { createEmptyPlan with locked := some true })] ∧
    objGet (incomeUpdater "Salary".toList 5
      { createEmptyPlan with locked := some true }).income "Salary".toList = some 5 ∧
    objGet ({ createEmptyPlan with locked := some true } : Plan).income "Salary".toList
      = some 0 := by
  have h : parseBudgetAmount "5".toList = some 5 := by
    simp [parseBudgetAmount, stripCommas, jsNumberOfText, parseSignedDecimal,
      parseUnsignedDecimal, digitsValue, numOr, List.takeWhile, List.dropWhile]
  refine ⟨?_, incomeUpdater_get _ _ _, ?_⟩
  · rw [setIncomeCategory_eq _ _ _ _ _ h]
    rfl
  · simp [createEmptyPlan, zeroMap_get, INCOME_CATEGORIES]

/-- Input to the amount fields of a locked January 2024 plan. -/
theorem locked_fields_disabled_witness :
    incomeFieldInput "2024-01".toList "Salary".toList "5".toList
        [("2024-01".toList, { createEmptyPlan with locked := some true })] =
      some [("2024-01".toList, { createEmptyPlan with locked := some true })] :=
  (locked_fields_disabled "2024-01".toList "Salary".toList "5".toList
    [("2024-01".toList, { createEmptyPlan with locked := some true })] (by rfl)).1

/-- The amount text `1,250` for `Salary` with no plan stored yet. -/
theorem setCategory_frame_witness :
    ∃ result q, setIncomeCategory "2024-01".toList "Salary".toList "1,250".toList [] =
        some result ∧
      objGet result "2024-01".toList = some q ∧
      q.locked = ((objGet ([] : JsObject Plan) "2024-01".toList).getD createEmptyPlan).locked ∧
      q.extras = ((objGet ([] : JsObject Plan) "2024-01".toList).getD createEmptyPlan).extras ∧
      q.expense = ((objGet ([] : JsObject Plan) "2024-01".toList).getD createEmptyPlan).expense ∧
      objGet q.income "Salary".toList = some 1250 ∧
      (∀ c, c ≠ "Salary".toList → objGet q.income c =
        objGet ((objGet ([] : JsObject Plan) "2024-01".toList).getD createEmptyPlan).income c) ∧
      (∀ k, k ≠ "2024-01".toList → objGet result k = objGet ([] : JsObject Plan) k) :=
  (setCategory_frame "2024-01".toList "Salary".toList "1,250".toList [] 1250 (by
    simp [parseBudgetAmount, stripCommas, jsNumberOfText, parseSignedDecimal,
      parseUnsignedDecimal, digitsValue, numOr, List.takeWhile, List.dropWhile])).1

/-- The pie of seven positive amounts, two of them equal. -/
theorem buildTop4Pie_spec_witness :
    (buildTop4Pie [("Housing".toList, 50), ("Food".toList, 30), ("Transport".toList, 30),
      ("Utilities".toList, 20), ("Health".toList, 10), ("Education".toList, 5),
      ("Family".toList, 1), ("Misc".toList, 0)]).length = 5 :=
  ((buildTop4Pie_spec _).2.2.2.2 (by
    rw [pieEntries, List.length_insertionSort]
    norm_num [List.filter])).1

/-! ## The lock and the extras of a plan -/

theorem updatePlan_get_other (activeMonth : List Char) (updater : Plan → Plan)
    (prev : JsObject Plan) (k : List Char) (hk : k ≠ activeMonth) :
    objGet (updatePlan activeMonth updater prev) k = objGet prev k := by
  rw [updatePlan_get, if_neg (fun h => hk h.symm)]

/-- Claim C21: `toggleLock` stores, for the active month, the plan of that month
with `locked` negated (a boolean `b` becomes `!b`, a missing `locked` becomes
`true`) and with `income`, `expense` and `extras` unchanged; the plans of the
other months are untouched; on a plan with a boolean `locked` the toggle applied
twice gives the plan back. -/
theorem toggleLock_spec (activeMonth : List Char) (prev : JsObject Plan) (p : Plan) :
    objGet (toggleLock activeMonth prev) activeMonth =
        some (toggleLockUpdater (BudgetPlanner.plan activeMonth prev)) ∧
      (∀ k, k ≠ activeMonth → objGet (toggleLock activeMonth prev) k = objGet prev k) ∧
      (∀ b : Bool, p.locked = some b → (toggleLockUpdater p).locked = some (!b)) ∧
      (p.locked = none → (toggleLockUpdater p).locked = some true) ∧
      (toggleLockUpdater p).income = p.income ∧
      (toggleLockUpdater p).expense = p.expense ∧
      (toggleLockUpdater p).extras = p.extras ∧
      (∀ b : Bool, p.locked = some b → toggleLockUpdater (toggleLockUpdater p) = p) := by
  refine ⟨?_, ?_, ?_, ?_, rfl, rfl, rfl, ?_⟩
  · simp only [toggleLock, updatePlan_get_self, BudgetPlanner.plan]
  · intro k hk
    exact updatePlan_get_other _ _ _ _ hk
  · intro b hb
    simp [toggleLockUpdater, hb]
  · intro h
    simp [toggleLockUpdater, h]
  · intro b hb
    obtain ⟨l, i, e, x⟩ := p
    simp only at hb
    subst hb
    simp [toggleLockUpdater]

theorem toggleLock_spec_witness :
    (toggleLockUpdater createEmptyPlan).locked = some true ∧
      toggleLockUpdater (toggleLockUpdater createEmptyPlan) = createEmptyPlan :=
  ⟨(toggleLock_spec [] [] createEmptyPlan).2.2.1 false rfl,
    (toggleLock_spec [] [] createEmptyPlan).2.2.2.2.2.2.2 false rfl⟩

/-- Claim C22: with the amount text of the form parsed (commas removed, then
`Number`): for a parsed amount `> 0`, `addExtra` stores for the active month the
plan of that month with one entry appended after its extras, carrying the
generated id, the type and the category of the form and that amount, with
`locked`, `income` and `expense` unchanged, and leaves the other months alone;
for a parsed amount `<= 0`, and for a text that parses to `NaN`, the plans are
left unchanged. -/
theorem addExtra_spec (activeMonth : List Char) (extraForm : ExtraForm) (uuid : List Char)
    (prev : JsObject Plan) :
    (∀ amount : ℚ, jsNumberOfText (stripCommas extraForm.amount) = NumberOfText.value amount →
      0 < amount →
      ∃ (next : JsObject Plan) (p : Plan) (entry : ExtraEntry),
        addExtra activeMonth extraForm uuid prev = some next ∧
        objGet next activeMonth = some p ∧
        p.extras = (BudgetPlanner.plan activeMonth prev).extras ++ [entry] ∧
        entry.id = uuid ∧ entry.type = extraForm.type ∧
        entry.category = extraForm.category ∧ entry.amount = amount ∧
        p.locked = (BudgetPlanner.plan activeMonth prev).locked ∧
        p.income = (BudgetPlanner.plan activeMonth prev).income ∧
        p.expense = (BudgetPlanner.plan activeMonth prev).expense ∧
        ∀ k, k ≠ activeMonth → objGet next k = objGet prev k) ∧
    (∀ amount : ℚ, jsNumberOfText (stripCommas extraForm.amount) = NumberOfText.value amount →
      amount ≤ 0 → addExtra activeMonth extraForm uuid prev = some prev) ∧
    (jsNumberOfText (stripCommas extraForm.amount) = NumberOfText.nan →
      addExtra activeMonth extraForm uuid prev = some prev) := by
  refine ⟨?_, ?_, ?_⟩
  · intro amount h hpos
    have hne : ¬ (amount = 0 ∨ amount ≤ 0) := by
      rintro (h0 | h0)
      · exact absurd h0 (ne_of_gt hpos)
      · exact absurd hpos (not_lt.mpr h0)
    refine ⟨updatePlan activeMonth (addExtraUpdater (newExtraEntry extraForm uuid amount)) prev,
      addExtraUpdater (newExtraEntry extraForm uuid amount) (BudgetPlanner.plan activeMonth prev),
      newExtraEntry extraForm uuid amount, ?_, ?_, rfl, rfl, rfl, rfl, rfl, rfl, rfl, rfl, ?_⟩
    · simp only [addExtra, h, if_neg hne]
    · simp only [updatePlan_get_self, BudgetPlanner.plan]
    · intro k hk
      exact updatePlan_get_other _ _ _ _ hk
  · intro amount h hle
    simp only [addExtra, h, if_pos (Or.inr hle)]
  · intro h
    simp only [addExtra, h]

/-- Claim C23: `removeExtra` stores for the active month the plan of that month
whose extras are the former extras with an id different from the given one, in
their former relative order, with `locked`, `income` and `expense` unchanged; no
entry with that id remains; when no entry has that id the plan is the former
plan; the other months are left alone. -/
theorem removeExtra_spec (activeMonth id : List Char) (prev : JsObject Plan) :
    ∃ p : Plan, objGet (removeExtra activeMonth id prev) activeMonth = some p ∧
      p.extras = (BudgetPlanner.plan activeMonth prev).extras.filter (fun e => e.id ≠ id) ∧
      (∀ e, e ∈ p.extras ↔ e ∈ (BudgetPlanner.plan activeMonth prev).extras ∧ e.id ≠ id) ∧
      List.Sublist p.extras (BudgetPlanner.plan activeMonth prev).extras ∧
      p.locked = (BudgetPlanner.plan activeMonth prev).locked ∧
      p.income = (BudgetPlanner.plan activeMonth prev).income ∧
      p.expense = (BudgetPlanner.plan activeMonth prev).expense ∧
      (∀ e ∈ p.extras, e.id ≠ id) ∧
      ((∀ e ∈ (BudgetPlanner.plan activeMonth prev).extras, e.id ≠ id) →
        p = BudgetPlanner.plan activeMonth prev) ∧
      ∀ k, k ≠ activeMonth → objGet (removeExtra activeMonth id prev) k = objGet prev k := by
  refine ⟨removeExtraUpdater id (BudgetPlanner.plan activeMonth prev), ?_, rfl, ?_, ?_, rfl, rfl,
    rfl, ?_, ?_, ?_⟩
  · simp only [removeExtra, updatePlan_get_self, BudgetPlanner.plan]
  · intro e
    simp [removeExtraUpdater, List.mem_filter]
  · exact List.filter_sublist _
  · intro e he
    simp only [removeExtraUpdater, List.mem_filter, decide_eq_true_eq] at he
    exact he.2
  · intro h
    have hf : (BudgetPlanner.plan activeMonth prev).extras.filter (fun e => e.id ≠ id) =
        (BudgetPlanner.plan activeMonth prev).extras :=
      List.filter_eq_self.mpr (by simpa using h)
    cases hp : BudgetPlanner.plan activeMonth prev with
    | mk l i e x =>
      rw [hp] at hf
      simp only at hf
      simp only [removeExtraUpdater, hf]
  · intro k hk
    exact updatePlan_get_other _ _ _ _ hk

/-! ## Deleting a custom category -/

theorem deleteCustomCategory_mem (catName catType : List Char) (prev : List CustomCategory)
    (c : CustomCategory) :
    c ∈ deleteCustomCategory catName catType prev ↔
      c ∈ prev ∧ ¬ (c.name = catName ∧ c.type = catType) := by
  simp only [deleteCustomCategory, List.mem_filter, Bool.not_eq_true', Bool.and_eq_false_iff,
    decide_eq_false_iff_not, not_and_or]

/-- The parts of the deletion guard that hold for every input: a transaction
that carries the category name, whatever its type, removes the delete button;
when no transaction carries the name and the category is a custom category of
the type of the form, the button deletes exactly the entries with that name and
type and keeps the others in order. -/
theorem deleteCategoryButton_spec (transactions : List Transaction)
    (customCategories : List CustomCategory) (formType cat : List Char) :
    ((∃ t ∈ transactions, t.category = cat) →
      canDeleteCategory transactions cat = false ∧
      deleteCategoryButton transactions customCategories formType cat = none) ∧
    ((∀ t ∈ transactions, t.category ≠ cat) →
      (⟨cat, formType⟩ : CustomCategory) ∈ customCategories →
      ∃ next, deleteCategoryButton transactions customCategories formType cat = some next ∧
        (⟨cat, formType⟩ : CustomCategory) ∉ next ∧
        next = customCategories.filter (fun c => c ≠ ⟨cat, formType⟩) ∧
        List.Sublist next customCategories) := by
  constructor
  · rintro ⟨t, ht, hc⟩
    have h : canDeleteCategory transactions cat = false := by
      simp only [canDeleteCategory, Bool.not_eq_false', List.any_eq_true, decide_eq_true_eq]
      exact ⟨t, ht, hc⟩
    exact ⟨h, by simp [deleteCategoryButton, deletable, h]⟩
  · intro hno hmem
    have h : canDeleteCategory transactions cat = true := by
      simp only [canDeleteCategory, Bool.not_eq_true', List.any_eq_false, decide_eq_true_eq]
      exact hno
    have hx : (extraCats customCategories formType).contains cat = true := by
      rw [List.contains_iff_exists_mem_beq]
      refine ⟨cat, ?_, by simp⟩
      simp only [extraCats, List.mem_map, List.mem_filter, decide_eq_true_eq]
      exact ⟨⟨cat, formType⟩, ⟨hmem, rfl⟩, rfl⟩
    have hf : deleteCustomCategory cat formType customCategories =
        customCategories.filter (fun c => c ≠ ⟨cat, formType⟩) := by
      unfold deleteCustomCategory
      apply List.filter_congr
      intro c _
      obtain ⟨n, ty⟩ := c
      by_cases h1 : n = cat <;> by_cases h2 : ty = formType <;> simp [h1, h2]
    refine ⟨deleteCustomCategory cat formType customCategories, ?_, ?_, hf, ?_⟩
    · simp only [deleteCategoryButton, deletable, h, hx, Bool.and_self, if_true]
    · rw [deleteCustomCategory_mem]
      simp
    · exact List.filter_sublist _

/-- Claim C24, on the code: with the custom expense category `Salary` and one
income transaction of category `Salary`, no transaction references the category
(`Salary`, `expense`), yet `canDeleteCategory` is false and no delete button
exists for it; the deletion itself, had it run, would have removed exactly
that entry. -/
theorem cross_type_transaction_blocks_deletion :
    (∀ t ∈ [(⟨"t1".toList, "2024-05-02".toList, "income".toList, 850000, "Salary".toList,
        "May pay".toList, false, [] ⟩ : Transaction)],
      ¬ referencesCategory t "Salary".toList "expense".toList) ∧
    canDeleteCategory [⟨"t1".toList, "2024-05-02".toList, "income".toList, 850000,
        "Salary".toList, "May pay".toList, false, [] ⟩] "Salary".toList = false ∧
    deleteCategoryButton [⟨"t1".toList, "2024-05-02".toList, "income".toList, 850000,
        "Salary".toList, "May pay".toList, false, [] ⟩]
        [⟨"Pets".toList, "expense".toList⟩, ⟨"Salary".toList, "expense".toList⟩]
        "expense".toList "Salary".toList = none ∧
    deleteCustomCategory "Salary".toList "expense".toList
        [⟨"Pets".toList, "expense".toList⟩, ⟨"Salary".toList, "expense".toList⟩] =
      [⟨"Pets".toList, "expense".toList⟩] := by
  refine ⟨?_, ?_, ?_, ?_⟩
  · intro t ht
    simp only [List.mem_singleton] at ht
    subst ht
    simp only [referencesCategory]
    decide
  · simp only [canDeleteCategory, List.any_cons, List.any_nil]
    decide
  · simp only [deleteCategoryButton, deletable, canDeleteCategory, List.any_cons, List.any_nil]
    decide
  · decide

/-! ## The tax calculator page -/

/-- The tax page on every stored input: the gross passed to the computation is
`monthlyGross * 12` in monthly mode and `annualGross` otherwise, the calculator
uses that gross clamped at 0, and with `includeNHF` the NHF is the clamped gross
times `r / 100`, where `r` is the stored `nhfRate` when it is not 0 and 2.5 when
it is 0; without `includeNHF` the NHF is 0. -/
theorem taxCalculator_gross_and_nhf (taxInput : StoredTaxInput) :
    (taxInput.periodMode = "monthly".toList →
      annualGrossForTax taxInput = taxInput.monthlyGross * 12) ∧
    (taxInput.periodMode ≠ "monthly".toList →
      annualGrossForTax taxInput = taxInput.annualGross) ∧
    (taxCalculatorResult taxInput).gross = max 0 (annualGrossForTax taxInput) ∧
    (taxInput.includeNHF = true →
      (taxCalculatorResult taxInput).nhf = max 0 (annualGrossForTax taxInput) *
        ((if taxInput.nhfRate = 0 then 5 / 2 else taxInput.nhfRate) / 100)) ∧
    (taxInput.includeNHF = false → (taxCalculatorResult taxInput).nhf = 0) := by
  refine ⟨?_, ?_, ?_, ?_, ?_⟩
  · intro h
    simp only [annualGrossForTax, h, if_true, numOr_zero]
  · intro h
    simp only [annualGrossForTax, if_neg h, numOr_zero]
  · simp only [taxCalculatorResult, calculateNewNigeriaTaxActPIT, numOr_zero]
  · intro h
    simp only [taxCalculatorResult, calculateNewNigeriaTaxActPIT, numOr_zero, h, if_true]
    by_cases h0 : taxInput.nhfRate = 0
    · simp only [numOr, h0, if_true]
    · simp only [numOr, h0, if_false]
  · intro h
    simp only [taxCalculatorResult, calculateNewNigeriaTaxActPIT, h]
    simp

/-- Claim C25, on the code: in monthly mode with a monthly gross of 100,000,
`includeNHF` set and a stored `nhfRate` of 0, the gross is 1,200,000 and the NHF
reported is 30,000, which is 2.5% of the gross and not 0. -/
theorem stored_zero_nhfRate_gives_default_rate :
    annualGrossForTax ⟨100000, "monthly".toList, 0, 8, true, 0, 0⟩ = 1200000 ∧
    (taxCalculatorResult ⟨100000, "monthly".toList, 0, 8, true, 0, 0⟩).nhf = 30000 ∧
    (30000 : ℚ) = 1200000 * (5 / 2 / 100) ∧ (30000 : ℚ) ≠ 1200000 * (0 / 100) := by
  have hm : ("monthly".toList = "monthly".toList) = True := eq_self _
  refine ⟨?_, ?_, by norm_num, by norm_num⟩
  · simp only [annualGrossForTax, hm, if_true, numOr]
    norm_num
  · simp only [taxCalculatorResult, calculateNewNigeriaTaxActPIT, annualGrossForTax, hm,
      if_true, numOr]
    norm_num

/-! ## Export and import of the planning data -/

theorem objGet_none_of_not_mem {α : Type} (o : JsObject α) (k : List Char)
    (h : k ∉ o.map Prod.fst) : objGet o k = none := by
  induction o with
  | nil => rfl
  | cons p rest ih =>
    obtain ⟨k0, v0⟩ := p
    simp only [List.map_cons, List.mem_cons, not_or] at h
    have hne : ¬ k0 = k := fun e => h.1 e.symm
    simp only [objGet, if_neg hne]
    exact ih h.2

theorem objSet_of_not_mem {α : Type} (o : JsObject α) (k : List Char) (v : α)
    (h : k ∉ o.map Prod.fst) : objSet o k v = o ++ [(k, v)] := by
  induction o with
  | nil => rfl
  | cons p rest ih =>
    obtain ⟨k0, v0⟩ := p
    simp only [List.map_cons, List.mem_cons, not_or] at h
    have hne : ¬ k0 = k := fun e => h.1 e.symm
    simp only [objSet, if_neg hne, List.cons_append]
    rw [ih h.2]

theorem spreadOver_get {α : Type} (x b : JsObject α) (hx : KeysDistinct x) (k : List Char) :
    objGet (spreadOver b x) k = (objGet x k).orElse fun _ => objGet b k := by
  induction x generalizing b with
  | nil => rfl
  | cons p rest ih =>
    obtain ⟨k0, v0⟩ := p
    simp only [KeysDistinct, List.map_cons, List.nodup_cons] at hx
    have hrest : spreadOver b ((k0, v0) :: rest) = spreadOver (objSet b k0 v0) rest := rfl
    rw [hrest, ih _ hx.2, objGet_objSet]
    by_cases h0 : k0 = k
    · subst h0
      simp only [objGet, if_true, objGet_none_of_not_mem rest k0 hx.1]
      rfl
    · simp only [objGet, if_neg h0]

theorem spreadOver_append {α : Type} (x b : JsObject α) (hx : KeysDistinct x)
    (hb : ∀ kv ∈ x, kv.1 ∉ b.map Prod.fst) : spreadOver b x = b ++ x := by
  induction x generalizing b with
  | nil => simp [spreadOver]
  | cons p rest ih =>
    obtain ⟨k0, v0⟩ := p
    simp only [KeysDistinct, List.map_cons, List.nodup_cons] at hx
    have hrest : spreadOver b ((k0, v0) :: rest) = spreadOver (objSet b k0 v0) rest := rfl
    have h0 : k0 ∉ b.map Prod.fst := hb (k0, v0) (List.mem_cons_self _ _)
    rw [hrest, objSet_of_not_mem b k0 v0 h0, ih _ hx.2]
    · simp
    · intro kv hkv
      simp only [List.map_append, List.map_cons, List.map_nil, List.mem_append,
        List.mem_singleton, not_or]
      refine ⟨hb kv (List.mem_cons_of_mem _ hkv), ?_⟩
      intro e
      exact hx.1 (e ▸ List.mem_map_of_mem Prod.fst hkv)

/-- Claim C26, as amended: importing the document exported from `S` replaces
the transactions by those of `S`; every month of `S` gets the plan of `S`, and a
month without a plan in `S` keeps the plan that the application had at import
time; so the plans are those of `S` when the application had no plan for a
month outside `S`, in particular when it had no plans. -/
theorem import_of_export (S state : PlanningState) (exportedAt : List Char)
    (hS : KeysDistinct S.budgetPlans) :
    (handleImportJSON (handleExportJSON S exportedAt) state).transactions = S.transactions ∧
    (∀ k p, objGet S.budgetPlans k = some p →
      objGet (handleImportJSON (handleExportJSON S exportedAt) state).budgetPlans k = some p) ∧
    (∀ k, objGet S.budgetPlans k = none →
      objGet (handleImportJSON (handleExportJSON S exportedAt) state).budgetPlans k =
        objGet state.budgetPlans k) ∧
    ((∀ k, objGet S.budgetPlans k = none → objGet state.budgetPlans k = none) →
      ∀ k, objGet (handleImportJSON (handleExportJSON S exportedAt) state).budgetPlans k =
        objGet S.budgetPlans k) ∧
    (state.budgetPlans = [] →
      (handleImportJSON (handleExportJSON S exportedAt) state).budgetPlans = S.budgetPlans) := by
  have hget : ∀ k, objGet (handleImportJSON (handleExportJSON S exportedAt) state).budgetPlans k
      = (objGet S.budgetPlans k).orElse fun _ => objGet state.budgetPlans k := by
    intro k
    simp only [handleImportJSON, handleExportJSON]
    exact spreadOver_get _ _ hS k
  refine ⟨rfl, ?_, ?_, ?_, ?_⟩
  · intro k p h
    rw [hget, h]
    rfl
  · intro k h
    rw [hget, h]
    rfl
  · intro hno k
    rw [hget]
    cases h : objGet S.budgetPlans k with
    | none => simpa using hno k h
    | some p => rfl
  · intro h
    simp only [handleImportJSON, handleExportJSON, h]
    rw [spreadOver_append _ _ hS (by simp)]
    rfl

/-- Claim C26, refuted as stated: the application holds a plan for June 2024,
the exported state `S` holds a plan for May 2024 only; after
the import the plans still hold June 2024, so they are not those of `S`. -/
theorem import_keeps_other_months :
    (handleImportJSON
      (handleExportJSON ⟨[], [("2024-05".toList, createEmptyPlan)]⟩ "2024-07-01".toList)
      ⟨[], [("2024-06".toList, toggleLockUpdater createEmptyPlan)]⟩).budgetPlans =
      [("2024-06".toList, toggleLockUpdater createEmptyPlan), ("2024-05".toList, createEmptyPlan)] ∧
    objGet (handleImportJSON
      (handleExportJSON ⟨[], [("2024-05".toList, createEmptyPlan)]⟩ "2024-07-01".toList)
      ⟨[], [("2024-06".toList, toggleLockUpdater createEmptyPlan)]⟩).budgetPlans
        "2024-06".toList = some (toggleLockUpdater createEmptyPlan) ∧
    objGet [("2024-05".toList, createEmptyPlan)] "2024-06".toList = none := by
  have h : ("2024-06".toList = "2024-05".toList) = False := by
    simp
  refine ⟨?_, ?_, ?_⟩
  · simp only [handleImportJSON, handleExportJSON, spreadOver, List.foldl_cons, List.foldl_nil,
      objSet, h, if_false]
  · simp only [handleImportJSON, handleExportJSON, spreadOver, List.foldl_cons, List.foldl_nil,
      objSet, objGet, h, if_false, if_true]
  · simp only [objGet]
    simp

/-! ## The CSV export -/

theorem doubleQuotes_eq (s : List Char) :
    doubleQuotes s = (s.map fun c => if c = dquote then [dquote, dquote] else [c]).flatten := by
  induction s with
  | nil => rfl
  | cons c rest ih =>
    by_cases h : c = dquote
    · simp only [doubleQuotes, h, if_true, List.map_cons, List.flatten_cons, ih, List.cons_append,
        List.nil_append]
    · simp only [doubleQuotes, h, if_false, List.map_cons, List.flatten_cons, ih,
        List.cons_append, List.nil_append]

theorem orEmptyString_text (numberToString : ℚ → List Char) (field : Option JsValue) :
    stringOfValue numberToString (orEmptyString field) = specCsvText numberToString field := by
  cases field with
  | none => rfl
  | some v => cases v <;> rfl

theorem jsJoin_cons_rows (sep head : List Char) (rows : List (List Char)) :
    jsJoin sep (head :: rows) = head ++ (rows.map fun r => sep ++ r).flatten := by
  induction rows generalizing head with
  | nil => simp [jsJoin]
  | cons r rest ih =>
    simp only [jsJoin, ih, List.map_cons, List.flatten_cons, List.append_assoc]

theorem csvRow_eq (numberToString : ℚ → List Char) (t : JsObject JsValue) :
    jsJoin [','] (csvHeaders.map fun h =>
      [dquote] ++ doubleQuotes (stringOfValue numberToString (orEmptyString (objGet t h)))
        ++ [dquote]) = specCsvRow numberToString t := by
  simp only [csvHeaders, List.map_cons, List.map_nil, jsJoin, specCsvRow, specCsvQuoted,
    orEmptyString_text, doubleQuotes_eq, List.singleton_append, List.cons_append,
    List.append_assoc, List.nil_append]

/-- Claim C27: `exportTransactionsCSV` returns the document of the
specification: the header line `id,date,type,amount,category,description,
recurring,notes`, then for every transaction in input order a line feed and its
row of eight comma-separated values in column order, each between double quotes
with every double quote inside doubled, a missing, null or undefined field being
the empty quoted value; for the empty list it is the header line alone. -/
theorem exportTransactionsCSV_spec (numberToString : ℚ → List Char)
    (transactions : List (JsObject JsValue)) :
    exportTransactionsCSV numberToString transactions =
        specCsvDocument numberToString transactions ∧
      exportTransactionsCSV numberToString [] = specCsvHeaderLine ∧
      specCsvRow numberToString [] =
        [dquote, dquote, ',', dquote, dquote, ',', dquote, dquote, ',', dquote, dquote, ',',
          dquote, dquote, ',', dquote, dquote, ',', dquote, dquote, ',', dquote, dquote] := by
  have hh : jsJoin [','] csvHeaders = specCsvHeaderLine := by decide
  have key : ∀ ts : List (JsObject JsValue),
      exportTransactionsCSV numberToString ts = specCsvDocument numberToString ts := by
    intro ts
    simp only [exportTransactionsCSV, specCsvDocument, jsJoin_cons_rows, hh, List.map_map]
    congr 2
    apply List.map_congr_left
    intro t _
    simp only [Function.comp, List.singleton_append]
    rw [← csvRow_eq]
    simp only [List.singleton_append]
  refine ⟨key transactions, ?_, ?_⟩
  · rw [key]
    simp [specCsvDocument]
  · simp [specCsvRow, specCsvQuoted, specCsvText, objGet]

/-! ## Take-home pay grows with the gross -/

theorem progressiveTaxLoop_le (bands : List Band) (hw : WidthsNonneg bands)
    (hone : ∀ b ∈ bands, b.rate ≤ 1) (r : ℚ) (hr : 0 ≤ r) :
    progressiveTaxLoop bands r 0 ≤ r := by
  induction bands generalizing r with
  | nil => simpa [progressiveTaxLoop] using hr
  | cons b bs ih =>
    rw [progressiveTaxLoop_cons]
    by_cases h : r ≤ 0
    · simpa [h] using hr
    · simp only [h, if_false]
      rw [progressiveTaxLoop_acc]
      have h1 : 0 ≤ capAt b.limit r :=
        capAt_nonneg _ _ hr (fun w hl => hw b (by simp) w hl)
      have h2 : b.rate ≤ 1 := hone b (by simp)
      have h5 : 0 ≤ r - capAt b.limit r := by
        have := sub_capAt_mono b.limit 0 r hr
        have h0 : capAt b.limit 0 ≤ 0 := by
          unfold capAt
          cases b.limit with
          | none => exact le_rfl
          | some w => exact min_le_right _ _
        linarith [capAt_nonneg b.limit 0 le_rfl (fun w hl => hw b (by simp) w hl)]
      have h3 := ih (fun b' hb' => hw b' (by simp [hb'])) (fun b' hb' => hone b' (by simp [hb']))
        (r - capAt b.limit r) h5
      have h4 : capAt b.limit r * b.rate ≤ capAt b.limit r * 1 :=
        mul_le_mul_of_nonneg_left h2 h1
      linarith

theorem progressiveTaxLoop_lipschitz (bands : List Band) (hw : WidthsNonneg bands)
    (hone : ∀ b ∈ bands, b.rate ≤ 1) (r r' : ℚ) (h : r ≤ r') :
    progressiveTaxLoop bands r' 0 - progressiveTaxLoop bands r 0 ≤ r' - r := by
  induction bands generalizing r r' with
  | nil => simpa [progressiveTaxLoop] using h
  | cons b bs ih =>
    by_cases h0 : r ≤ 0
    · rw [progressiveTaxLoop_cons b bs r, if_pos h0]
      by_cases h0' : r' ≤ 0
      · rw [progressiveTaxLoop_cons b bs r', if_pos h0']
        linarith
      · have := progressiveTaxLoop_le (b :: bs) hw hone r' (le_of_lt (not_le.mp h0'))
        linarith
    · have h0' : ¬ r' ≤ 0 := fun hc => h0 (le_trans h hc)
      rw [progressiveTaxLoop_cons, progressiveTaxLoop_cons, if_neg h0, if_neg h0',
        progressiveTaxLoop_acc bs (r' - _), progressiveTaxLoop_acc bs (r - _)]
      have h2 : b.rate ≤ 1 := hone b (by simp)
      have h3 := ih (fun b' hb' => hw b' (by simp [hb'])) (fun b' hb' => hone b' (by simp [hb']))
        _ _ (sub_capAt_mono b.limit r r' h)
      have h4 : (capAt b.limit r' - capAt b.limit r) * b.rate ≤
          (capAt b.limit r' - capAt b.limit r) * 1 :=
        mul_le_mul_of_nonneg_left h2 (sub_nonneg.mpr (capAt_mono b.limit r r' h))
      linarith

theorem legacyBands_rates_le_one : ∀ b ∈ legacyBands, b.rate ≤ 1 := by
  intro b hb
  simp only [legacyBands, List.mem_cons, List.mem_singleton, List.not_mem_nil, or_false] at hb
  rcases hb with rfl | rfl | rfl | rfl | rfl | rfl <;> norm_num

theorem currentBands_rates_le_one : ∀ b ∈ currentBands, b.rate ≤ 1 := by
  intro b hb
  simp only [currentBands, List.mem_cons, List.mem_singleton, List.not_mem_nil, or_false] at hb
  rcases hb with rfl | rfl | rfl | rfl | rfl | rfl <;> norm_num

theorem progressiveTax_step (bands : List Band) (hw : WidthsNonneg bands)
    (hrate : RatesNonneg bands) (hone : ∀ b ∈ bands, b.rate ≤ 1) (a b : ℚ) (h : a ≤ b) :
    progressiveTax a bands ≤ progressiveTax b bands ∧
      progressiveTax b bands - progressiveTax a bands ≤ b - a := by
  refine ⟨progressiveTax_mono bands hw hrate a b h, ?_⟩
  have h1 := progressiveTaxLoop_lipschitz bands hw hone _ _ (max_le_max (le_refl (0 : ℚ)) h)
  have h2 : max 0 b - max 0 a ≤ b - a := by
    rcases le_total 0 a with ha | ha
    · rw [max_eq_right ha, max_eq_right (le_trans ha h)]
    · rw [max_eq_left ha]
      rcases le_total 0 b with hb | hb
      · rw [max_eq_right hb]; linarith
      · rw [max_eq_left hb]; linarith
  unfold progressiveTax
  linarith

theorem legacyTaxable_step (x y : ℚ) (h0 : 0 ≤ x) (h : x ≤ y) :
    max 0 (x - (max 200000 (1 / 100 * max 0 x) + 2 / 10 * max 0 x)) ≤
        max 0 (y - (max 200000 (1 / 100 * max 0 y) + 2 / 10 * max 0 y)) ∧
      max 0 (y - (max 200000 (1 / 100 * max 0 y) + 2 / 10 * max 0 y)) -
        max 0 (x - (max 200000 (1 / 100 * max 0 x) + 2 / 10 * max 0 x)) ≤ y - x := by
  rw [max_eq_right h0, max_eq_right (le_trans h0 h)]
  have hm1 : max 200000 (1 / 100 * x) ≤ max 200000 (1 / 100 * y) :=
    max_le_max le_rfl (by linarith)
  have hm2 : max 200000 (1 / 100 * y) - max 200000 (1 / 100 * x) ≤ 1 / 100 * (y - x) := by
    rcases le_total (200000 : ℚ) (1 / 100 * x) with hx | hx
    · rw [max_eq_right hx, max_eq_right (le_trans hx (by linarith))]; linarith
    · rw [max_eq_left hx]
      rcases le_total (200000 : ℚ) (1 / 100 * y) with hy | hy
      · rw [max_eq_right hy]; linarith
      · rw [max_eq_left hy]; linarith
  have hinc : x - (max 200000 (1 / 100 * x) + 2 / 10 * x) ≤
      y - (max 200000 (1 / 100 * y) + 2 / 10 * y) := by linarith
  refine ⟨max_le_max le_rfl hinc, ?_⟩
  rcases le_total 0 (x - (max 200000 (1 / 100 * x) + 2 / 10 * x)) with hx | hx
  · rw [max_eq_right hx, max_eq_right (le_trans hx hinc)]; linarith
  · rw [max_eq_left hx]
    rcases le_total 0 (y - (max 200000 (1 / 100 * y) + 2 / 10 * y)) with hy | hy
    · rw [max_eq_right hy]; linarith
    · rw [max_eq_left hy]; linarith

theorem currentTaxable_step (x y relief : ℚ) (h : x ≤ y) :
    max 0 (x - relief) ≤ max 0 (y - relief) ∧
      max 0 (y - relief) - max 0 (x - relief) ≤ y - x := by
  refine ⟨max_le_max le_rfl (by linarith), ?_⟩
  rcases le_total 0 (x - relief) with hx | hx
  · rw [max_eq_right hx, max_eq_right (by linarith)]; linarith
  · rw [max_eq_left hx]
    rcases le_total 0 (y - relief) with hy | hy
    · rw [max_eq_right hy]; linarith
    · rw [max_eq_left hy]; linarith

theorem afterDeductions_step (includeNHF : Bool) (nhfRate pensionRate g1 g2 : ℚ)
    (hp : 0 ≤ pensionRate) (hn : 0 ≤ nhfRate) (hsum : pensionRate + nhfRate ≤ 100)
    (h1 : 0 ≤ g1) (h : g1 ≤ g2) :
    0 ≤ g1 - g1 * (pensionRate / 100) - (if includeNHF then g1 * (nhfRate / 100) else 0) ∧
      g1 - g1 * (pensionRate / 100) - (if includeNHF then g1 * (nhfRate / 100) else 0) ≤
        g2 - g2 * (pensionRate / 100) - (if includeNHF then g2 * (nhfRate / 100) else 0) ∧
      (g2 - g2 * (pensionRate / 100) - (if includeNHF then g2 * (nhfRate / 100) else 0)) -
        (g1 - g1 * (pensionRate / 100) - (if includeNHF then g1 * (nhfRate / 100) else 0)) ≤
        g2 - g1 := by
  have hd : 0 ≤ g2 - g1 := sub_nonneg.mpr h
  cases includeNHF
  · simp only [Bool.false_eq_true, if_false, sub_zero]
    have hk : 0 ≤ 1 - pensionRate / 100 := by linarith
    have hk1 : 0 ≤ pensionRate / 100 := by positivity
    have e1 := mul_nonneg h1 hk
    have e2 := mul_nonneg hd hk
    have e3 := mul_nonneg hd hk1
    refine ⟨by linarith, by linarith, by linarith⟩
  · simp only [if_true]
    have hk : 0 ≤ 1 - pensionRate / 100 - nhfRate / 100 := by linarith
    have hk1 : 0 ≤ pensionRate / 100 + nhfRate / 100 := by positivity
    have e1 := mul_nonneg h1 hk
    have e2 := mul_nonneg hd hk
    have e3 := mul_nonneg hd hk1
    refine ⟨by linarith, by linarith, by linarith⟩

/-- Claim C28: in both regimes, with `includeNHF`, the rent, a pension rate
`>= 0` and an NHF rate `>= 0` whose sum is at most 100 held fixed and the NHF
basis equal to the gross, a gross `g2 >= g1 >= 0` gives a tax and a net annual
pay that are at least those of `g1`. -/
theorem net_and_tax_monotone_in_gross (includeNHF : Bool)
    (nhfRate pensionRate annualRentPaid g1 g2 : ℚ)
    (hp : 0 ≤ pensionRate) (hn : 0 ≤ nhfRate) (hsum : pensionRate + nhfRate ≤ 100)
    (h1 : 0 ≤ g1) (h : g1 ≤ g2) :
    (calculateOldNigeriaPIT ⟨g1, includeNHF, nhfRate, g1, pensionRate, annualRentPaid⟩).netAnnual
      ≤ (calculateOldNigeriaPIT
          ⟨g2, includeNHF, nhfRate, g2, pensionRate, annualRentPaid⟩).netAnnual ∧
    (calculateOldNigeriaPIT ⟨g1, includeNHF, nhfRate, g1, pensionRate, annualRentPaid⟩).tax
      ≤ (calculateOldNigeriaPIT ⟨g2, includeNHF, nhfRate, g2, pensionRate, annualRentPaid⟩).tax ∧
    (calculateNewNigeriaTaxActPIT
        ⟨g1, includeNHF, nhfRate, g1, pensionRate, annualRentPaid⟩).netAnnual
      ≤ (calculateNewNigeriaTaxActPIT
          ⟨g2, includeNHF, nhfRate, g2, pensionRate, annualRentPaid⟩).netAnnual ∧
    (calculateNewNigeriaTaxActPIT ⟨g1, includeNHF, nhfRate, g1, pensionRate, annualRentPaid⟩).tax
      ≤ (calculateNewNigeriaTaxActPIT
          ⟨g2, includeNHF, nhfRate, g2, pensionRate, annualRentPaid⟩).tax := by
  have h2 : 0 ≤ g2 := le_trans h1 h
  obtain ⟨a0, a1, a2⟩ := afterDeductions_step includeNHF nhfRate pensionRate g1 g2 hp hn hsum h1 h
  obtain ⟨l1, l2⟩ := legacyTaxable_step _ _ a0 a1
  obtain ⟨t1, t2⟩ := progressiveTax_step legacyBands legacyBands_widths legacyBands_rates
    legacyBands_rates_le_one _ _ l1
  obtain ⟨c1, c2⟩ := currentTaxable_step _ _
    (min (max 0 annualRentPaid * (2 / 10)) 500000) a1
  obtain ⟨u1, u2⟩ := progressiveTax_step currentBands currentBands_widths currentBands_rates
    currentBands_rates_le_one _ _ c1
  simp only [calculateOldNigeriaPIT, calculateNewNigeriaTaxActPIT, numOr_zero,
    max_eq_right h1, max_eq_right h2]
  simp only [max_eq_right a0, max_eq_right (le_trans a0 a1)] at l1 l2 t1 t2 ⊢
  simp only [sub_sub] at *
  refine ⟨by linarith, t1, by linarith, u1⟩

/-! ## The pie conserves the total -/

theorem pieEntries_pos (actualByCat : JsObject ℚ) (kv : List Char × ℚ)
    (h : kv ∈ pieEntries actualByCat) : 0 < kv.2 := by
  have hm := (List.perm_insertionSort (fun a b : List Char × ℚ => a.2 ≥ b.2)
    (actualByCat.filter fun kv => kv.2 > 0)).mem_iff.mp h
  simpa using (List.mem_filter.mp hm).2

theorem pieEntries_sum (actualByCat : JsObject ℚ) :
    ((pieEntries actualByCat).map Prod.snd).sum =
      ((actualByCat.filter fun kv => kv.2 > 0).map Prod.snd).sum :=
  ((List.perm_insertionSort (fun a b : List Char × ℚ => a.2 ≥ b.2)
    (actualByCat.filter fun kv => kv.2 > 0)).map Prod.snd).sum_eq

theorem pieEntries_sorted (actualByCat : JsObject ℚ) :
    (pieEntries actualByCat).Sorted (fun a b => a.2 ≥ b.2) := by
  haveI : IsTotal (List Char × ℚ) (fun a b => a.2 ≥ b.2) := ⟨fun a b => le_total b.2 a.2⟩
  haveI : IsTrans (List Char × ℚ) (fun a b => a.2 ≥ b.2) :=
    ⟨fun a b c hab hbc => le_trans hbc hab⟩
  exact List.sorted_insertionSort _ _

theorem sum_pos_of_pos (l : List (List Char × ℚ)) (hl : l ≠ [])
    (hpos : ∀ kv ∈ l, 0 < kv.2) : 0 < (l.map Prod.snd).sum := by
  induction l with
  | nil => exact absurd rfl hl
  | cons x xs ih =>
    simp only [List.map_cons, List.sum_cons]
    have hx : 0 < x.2 := hpos x (List.mem_cons_self _ _)
    by_cases hxs : xs = []
    · subst hxs
      simpa using hx
    · have := ih hxs (fun kv hkv => hpos kv (List.mem_cons_of_mem _ hkv))
      linarith

/-- Claim C29: the values of the entries returned by `buildTop4Pie` add up to
the sum of the amounts `> 0` of the map; the result has at most 5 entries; every
returned value is `> 0`; the result is either a list in non-increasing order of
value, or the first 4 entries of such a list followed by `Others`. -/
theorem buildTop4Pie_conserves_total (actualByCat : JsObject ℚ) :
    ((buildTop4Pie actualByCat).map Prod.snd).sum =
        ((actualByCat.filter fun kv => kv.2 > 0).map Prod.snd).sum ∧
      (buildTop4Pie actualByCat).length ≤ 5 ∧
      (∀ kv ∈ buildTop4Pie actualByCat, 0 < kv.2) ∧
      ∃ ranked : List (List Char × ℚ), ranked.Sorted (fun a b => a.2 ≥ b.2) ∧
        (buildTop4Pie actualByCat = ranked ∨
          ∃ others, buildTop4Pie actualByCat = ranked ++ [("Others".toList, others)]) := by
  by_cases h : (pieEntries actualByCat).length ≤ 5
  · have e : buildTop4Pie actualByCat = pieEntries actualByCat := by
      simp only [buildTop4Pie, if_pos h]
    rw [e]
    exact ⟨pieEntries_sum _, h, pieEntries_pos _, _, pieEntries_sorted _, Or.inl rfl⟩
  · have e : buildTop4Pie actualByCat = (pieEntries actualByCat).take 4 ++
        [("Others".toList, (((pieEntries actualByCat).drop 4).map Prod.snd).sum)] := by
      simp only [buildTop4Pie, if_neg h, foldl_snd_eq_sum, zero_add]
    rw [e]
    refine ⟨?_, ?_, ?_, _, (pieEntries_sorted actualByCat).sublist (List.take_sublist 4 _),
      Or.inr ⟨_, rfl⟩⟩
    · rw [← pieEntries_sum]
      conv_rhs => rw [← List.take_append_drop 4 (pieEntries actualByCat)]
      simp only [List.map_append, List.sum_append, List.map_cons, List.map_nil, List.sum_cons,
        List.sum_nil, add_zero]
    · simp only [List.length_append, List.length_take, List.length_singleton]
      omega
    · intro kv hkv
      rcases List.mem_append.mp hkv with hk | hk
      · exact pieEntries_pos _ _ (List.mem_of_mem_take hk)
      · rw [List.mem_singleton] at hk
        subst hk
        apply sum_pos_of_pos
        · intro hnil
          have hlen := congrArg List.length hnil
          simp only [List.length_drop, List.length_nil] at hlen
          omega
        · intro kv hkv
          exact pieEntries_pos _ _ (List.mem_of_mem_drop hkv)

/-! ## The planner and the dashboard -/

theorem foldl_numOr_eq_sum (l : List ℚ) (a : ℚ) :
    l.foldl (fun s v => s + numOr v 0) a = a + l.sum := by
  induction l generalizing a with
  | nil => simp
  | cons x xs ih =>
    rw [List.foldl_cons, ih]
    simp only [List.sum_cons, numOr_zero]
    ring

theorem foldl_amount_eq_sum (l : List ExtraEntry) (a : ℚ) :
    l.foldl (fun s e => s + numOr e.amount 0) a = a + (l.map fun e => e.amount).sum := by
  induction l generalizing a with
  | nil => simp
  | cons x xs ih =>
    rw [List.foldl_cons, ih]
    simp only [List.map_cons, List.sum_cons, numOr_zero]
    ring

/-- Claim C30: for a month `m` whose plan is `p`, all of whose extras have type
`income` or `expense`, the dashboard's planned totals in the monthly scope of
`m` are the planner's `totalPlannedIncome + extrasIncome` and
`totalPlannedExpense + extrasExpense` of `p`, and the dashboard's planned net is
the planner's `surplus`. -/
theorem planner_dashboard_agree (budgetPlans : JsObject Plan) (m : List Char) (p : Plan)
    (hm : objGet budgetPlans m = some p)
    (htypes : ∀ e ∈ p.extras, e.type = "income".toList ∨ e.type = "expense".toList) :
    (plannedTotals [m] budgetPlans).totalPlannedIncome =
        BudgetPlanner.totalPlannedIncome p + BudgetPlanner.extrasIncome p ∧
      (plannedTotals [m] budgetPlans).totalPlannedExpense =
        BudgetPlanner.totalPlannedExpense p + BudgetPlanner.extrasExpense p ∧
      (plannedTotals [m] budgetPlans).totalPlannedIncome -
          (plannedTotals [m] budgetPlans).totalPlannedExpense = BudgetPlanner.surplus p ∧
      BudgetPlanner.plan m budgetPlans = p := by
  have hfilter : p.extras.filter (fun e => e.type ≠ "income".toList) =
      p.extras.filter (fun e => e.type = "expense".toList) := by
    apply List.filter_congr
    intro e he
    rcases htypes e he with h | h
    · simp only [h]
      decide
    · simp only [h]
      decide
  have hinc : (plannedTotals [m] budgetPlans).totalPlannedIncome =
      BudgetPlanner.totalPlannedIncome p + BudgetPlanner.extrasIncome p := by
    simp only [plannedTotals, List.foldl_cons, List.foldl_nil, hm, addExtras_fst, addEntries_fst,
      BudgetPlanner.totalPlannedIncome, BudgetPlanner.extrasIncome, foldl_numOr_eq_sum,
      foldl_amount_eq_sum, zero_add]
  have hexp : (plannedTotals [m] budgetPlans).totalPlannedExpense =
      BudgetPlanner.totalPlannedExpense p + BudgetPlanner.extrasExpense p := by
    simp only [plannedTotals, List.foldl_cons, List.foldl_nil, hm, addExtras_snd, addEntries_fst,
      BudgetPlanner.totalPlannedExpense, BudgetPlanner.extrasExpense, foldl_numOr_eq_sum,
      foldl_amount_eq_sum, zero_add, hfilter]
  refine ⟨hinc, hexp, ?_, ?_⟩
  · rw [hinc, hexp]
    simp only [BudgetPlanner.surplus]
    ring
  · simp only [BudgetPlanner.plan, hm, Option.getD_some]

/-! ## Instances and evaluations of the planner, settings and tax theorems -/

/-- The extra-entry form with the amount text `1,500`, `0` and `₦5` on an empty
plans map. -/
theorem addExtra_spec_witness :
    jsNumberOfText (stripCommas "1,500".toList) = NumberOfText.value 1500 ∧
    (∃ next p entry,
      addExtra "2024-05".toList ⟨"expense".toList, "Misc".toList, "1,500".toList, "fuel".toList⟩
        "id-1".toList [] = some next ∧
      objGet next "2024-05".toList = some p ∧ p.extras = [entry] ∧ entry.amount = 1500) ∧
    addExtra "2024-05".toList ⟨"expense".toList, "Misc".toList, "0".toList, "fuel".toList⟩
        "id-1".toList [] = some [] ∧
    addExtra "2024-05".toList ⟨"expense".toList, "Misc".toList, "₦5".toList, "fuel".toList⟩
        "id-1".toList [] = some [] := by
  have h : jsNumberOfText (stripCommas "1,500".toList) = NumberOfText.value 1500 := by
    simp [stripCommas, jsNumberOfText, parseSignedDecimal, parseUnsignedDecimal, digitsValue,
      List.takeWhile, List.dropWhile]
  have h0 : jsNumberOfText (stripCommas "0".toList) = NumberOfText.value 0 := by
    simp [stripCommas, jsNumberOfText, parseSignedDecimal, parseUnsignedDecimal, digitsValue,
      List.takeWhile, List.dropWhile]
  have hn : jsNumberOfText (stripCommas "₦5".toList) = NumberOfText.nan := by
    simp [stripCommas, jsNumberOfText, parseSignedDecimal, parseUnsignedDecimal,
      List.takeWhile, List.dropWhile, mayBeInNumeral, isJsWhiteSpace]
  obtain ⟨next, p, entry, h1, h2, h3, _, _, _, h7, _⟩ :=
    (addExtra_spec "2024-05".toList
      ⟨"expense".toList, "Misc".toList, "1,500".toList, "fuel".toList⟩ "id-1".toList []).1
      1500 h (by norm_num)
  refine ⟨h, ⟨next, p, entry, h1, h2, ?_, h7⟩, ?_, ?_⟩
  · simpa [BudgetPlanner.plan, objGet, createEmptyPlan] using h3
  · exact (addExtra_spec "2024-05".toList
      ⟨"expense".toList, "Misc".toList, "0".toList, "fuel".toList⟩ "id-1".toList []).2.1
      0 h0 le_rfl
  · exact (addExtra_spec "2024-05".toList
      ⟨"expense".toList, "Misc".toList, "₦5".toList, "fuel".toList⟩ "id-1".toList []).2.2 hn

/-- Removing an id that no entry of the plan of May 2024 has. -/
theorem removeExtra_spec_witness :
    ∃ p, objGet (removeExtra "2024-05".toList "id-1".toList []) "2024-05".toList = some p ∧
      p = BudgetPlanner.plan "2024-05".toList [] := by
  obtain ⟨p, h1, _, _, _, _, _, _, _, h9, _⟩ :=
    removeExtra_spec "2024-05".toList "id-1".toList []
  exact ⟨p, h1, h9 (by simp [BudgetPlanner.plan, objGet, createEmptyPlan])⟩

/-- The tax page in monthly mode with NHF at 2.5% and in annual mode without NHF. -/
theorem taxCalculator_gross_and_nhf_instance :
    annualGrossForTax ⟨100000, "monthly".toList, 0, 8, true, 5 / 2, 0⟩ = 100000 * 12 ∧
    annualGrossForTax ⟨0, "annual".toList, 2400000, 8, false, 5 / 2, 0⟩ = 2400000 ∧
    (taxCalculatorResult ⟨0, "annual".toList, 2400000, 8, false, 5 / 2, 0⟩).nhf = 0 ∧
    (taxCalculatorResult ⟨100000, "monthly".toList, 0, 8, true, 5 / 2, 0⟩).nhf =
      max 0 (annualGrossForTax ⟨100000, "monthly".toList, 0, 8, true, 5 / 2, 0⟩) *
        ((if (5 / 2 : ℚ) = 0 then 5 / 2 else 5 / 2) / 100) :=
  ⟨(taxCalculator_gross_and_nhf ⟨100000, "monthly".toList, 0, 8, true, 5 / 2, 0⟩).1 rfl,
    (taxCalculator_gross_and_nhf ⟨0, "annual".toList, 2400000, 8, false, 5 / 2, 0⟩).2.1
      (by decide),
    (taxCalculator_gross_and_nhf ⟨0, "annual".toList, 2400000, 8, false, 5 / 2, 0⟩).2.2.2.2 rfl,
    (taxCalculator_gross_and_nhf ⟨100000, "monthly".toList, 0, 8, true, 5 / 2, 0⟩).2.2.2.1 rfl⟩

/-- An application without plans reads the export of a state with one transaction
and the plan of May 2024. -/
theorem import_of_export_witness :
    KeysDistinct [("2024-05".toList, createEmptyPlan)] ∧
    (handleImportJSON
      (handleExportJSON
        ⟨[⟨"t1".toList, "2024-05-02".toList, "income".toList, 850000, "Salary".toList,
          "May pay".toList, false, [] ⟩], [("2024-05".toList, createEmptyPlan)]⟩
        "2024-07-01".toList) ⟨[], []⟩).budgetPlans = [("2024-05".toList, createEmptyPlan)] :=
  ⟨by simp [KeysDistinct],
    (import_of_export
      ⟨[⟨"t1".toList, "2024-05-02".toList, "income".toList, 850000, "Salary".toList,
        "May pay".toList, false, [] ⟩], [("2024-05".toList, createEmptyPlan)]⟩ ⟨[], []⟩
      "2024-07-01".toList (by simp [KeysDistinct])).2.2.2.2 rfl⟩

/-- A gross of 1,200,000 against 2,400,000, pension 8%, NHF 2.5%. -/
theorem net_and_tax_monotone_in_gross_witness :
    (0 : ℚ) ≤ 8 ∧ (0 : ℚ) ≤ 5 / 2 ∧ (8 : ℚ) + 5 / 2 ≤ 100 ∧ (0 : ℚ) ≤ 1200000 ∧
    (1200000 : ℚ) ≤ 2400000 ∧
    (calculateNewNigeriaTaxActPIT ⟨1200000, true, 5 / 2, 1200000, 8, 600000⟩).netAnnual
      ≤ (calculateNewNigeriaTaxActPIT ⟨2400000, true, 5 / 2, 2400000, 8, 600000⟩).netAnnual :=
  ⟨by norm_num, by norm_num, by norm_num, by norm_num, by norm_num,
    (net_and_tax_monotone_in_gross true (5 / 2) 8 600000 1200000 2400000 (by norm_num)
      (by norm_num) (by norm_num) (by norm_num) (by norm_num)).2.2.1⟩

/-- The plan of May 2024 with one income extra and one expense extra. -/
theorem planner_dashboard_agree_witness :
    (plannedTotals ["2024-05".toList]
      [("2024-05".toList, ⟨some true, [("Salary".toList, 850000)], [("Rent".toList, 200000)],
        [⟨"x1".toList, "income".toList, "Gift".toList, 5000, "gift".toList⟩,
          ⟨"x2".toList, "expense".toList, "Misc".toList, 2000, "fuel".toList⟩]⟩)]).totalPlannedIncome
      = BudgetPlanner.totalPlannedIncome ⟨some true, [("Salary".toList, 850000)],
          [("Rent".toList, 200000)],
          [⟨"x1".toList, "income".toList, "Gift".toList, 5000, "gift".toList⟩,
            ⟨"x2".toList, "expense".toList, "Misc".toList, 2000, "fuel".toList⟩]⟩
        + BudgetPlanner.extrasIncome ⟨some true, [("Salary".toList, 850000)],
          [("Rent".toList, 200000)],
          [⟨"x1".toList, "income".toList, "Gift".toList, 5000, "gift".toList⟩,
            ⟨"x2".toList, "expense".toList, "Misc".toList, 2000, "fuel".toList⟩]⟩ :=
  (planner_dashboard_agree _ "2024-05".toList _ (by simp [objGet])
    (by
      intro e he
      simp only [List.mem_cons, List.mem_singleton, List.not_mem_nil, or_false] at he
      rcases he with rfl | rfl
      · exact Or.inl rfl
      · exact Or.inr rfl)).1

/-- The CSV document of one transaction object that has an id and a
description with a double quote and lacks the other six fields. -/
theorem exportTransactionsCSV_spec_witness :
    exportTransactionsCSV (fun _ => [])
        [[("id".toList, JsValue.str "t1".toList),
          ("description".toList, JsValue.str ['a', dquote, 'b']), ("notes".toList, JsValue.null)]]
      = specCsvHeaderLine ++ [lineFeed] ++
        [dquote, 't', '1', dquote, ',', dquote, dquote, ',', dquote, dquote, ',', dquote, dquote,
          ',', dquote, dquote, ',', dquote, 'a', dquote, dquote, 'b', dquote, ',', dquote, dquote,
          ',', dquote, dquote] := by
  rw [(exportTransactionsCSV_spec _ _).1]
  decide

end BillionaireInTransit
